import Mathlib

/-!
# Koolo combat core: target prioritisation, retargeting and the engagement loop

A shallow embedding of the decision code of `internal/action/clear_area.go`,
`internal/character/core/base.go`, `internal/pather/utils.go` and the paladin
builds' `KillMonsterSequence`, followed by the properties proved about it.

Conventions of the embedding:

* Go `int` values are Lean `Int`; positions are game-grid coordinates, far from
  the 64-bit limits, so no wrap-around is modelled.
* `Stats[stat.Life]` of a monster is the field `Life` (a missing map entry reads 0).
* The read-only snapshot (`game.Data` together with what the path finder answers
  for it) is the structure `Data`.
* Loops over slices are folds or `List.any` in source order.
-/

namespace Koolo

/-! ## Data model -/

/-- The `data.Position` value type: integer world-grid coordinates. -/
structure Position where
  X : Int
  Y : Int
  deriving DecidableEq, Repr

/-- The `data.MonsterType` classification. The Go type is a string; every value
other than the five named constants is `Other`. -/
inductive MonsterType where
  | None
  | Champion
  | Minion
  | Unique
  | SuperUnique
  | Other
  deriving DecidableEq, Repr

/-- The `npc.ID` names the code tests for; every other id is `Other`. -/
inductive NpcName where
  | Andariel
  | Duriel
  | Mephisto
  | Diablo
  | BaalCrab
  | BloodRaven
  | Radament
  | Summoner
  | CouncilMember
  | CouncilMember2
  | CouncilMember3
  | Izual
  | Hephasto
  | Nihlathak
  | StormCaster
  | Other
  deriving DecidableEq, Repr

/-- The `stat.Resist` immunity kinds a skip list can name. -/
inductive Resist where
  | Fire
  | Cold
  | Lightning
  | Poison
  | Physical
  | Magic
  deriving DecidableEq, Repr

/-- The `data.Monster` view of one unit of a snapshot. `MType` is the Go field
`Type`, `Raiser` is the result of `IsMonsterRaiser()`, `Life` is `Stats[stat.Life]`,
`Immunities` lists the resistances for which `IsImmune` answers true, and
`SealElite` is the result of `IsSealElite()`. -/
structure Monster where
  UnitID : Nat
  MType : MonsterType
  Position : Position
  Life : Int
  Raiser : Bool
  Name : NpcName
  SealElite : Bool
  Immunities : List Resist
  deriving DecidableEq, Repr

/-- The `data.Object` view of one object of a snapshot: `IsDoor` is the result of
`IsDoor()`, `HasCollision` is `Desc().HasCollision`. -/
structure Object where
  Position : Position
  IsDoor : Bool
  Selectable : Bool
  HasCollision : Bool
  deriving DecidableEq, Repr

/-- The skills the left mouse button can be bound to, as far as the movement code
tells them apart. -/
inductive SkillID where
  | Charge
  | Other
  deriving DecidableEq, Repr

/-- The body locations `item.LocLeftArm`, `item.LocLeftArmSecondary` and the rest. -/
inductive BodyLocation where
  | LocLeftArm
  | LocLeftArmSecondary
  | Other
  deriving DecidableEq, Repr

/-- The `data.Item` view of one equipped item: the damage fields are those of
`Desc()`, `Indestructible` tells whether `FindStat(stat.Indestructible, 0)` finds the
stat, `Durability` is the value of `FindStat(stat.Durability, 0)` when found. -/
structure Item where
  UnitID : Nat
  BodyLocation : BodyLocation
  MinDamage : Int
  MaxDamage : Int
  TwoHandMinDamage : Int
  TwoHandMaxDamage : Int
  MinMissileDamage : Int
  MaxMissileDamage : Int
  IsBroken : Bool
  Indestructible : Bool
  Durability : Option Int
  deriving DecidableEq, Repr

/-- The `data.Room` of a level: a rectangle given by its corner, width and height. -/
structure Room where
  Position : Position
  Width : Int
  Height : Int
  deriving DecidableEq, Repr

/-- A path returned by the path finder. -/
abbrev Path := List Position

/-- The snapshot the decision code reads during one tick: `game.Data` and the
answers of the path finder for it. `GetPath` and `GetPathFrom` are `none` when no
path is found; `Intersects` is `Path.Intersects` with its padding; `GetClosestDoor`
is `none` when no door is found. `LeftSkill` is `PlayerUnit.LeftSkill`, `AreaIsTown`
is `PlayerUnit.Area.IsTown()`, `AreaIsUberTristram` is
`PlayerUnit.Area == area.UberTristram`, `Mana` is the value of
`PlayerUnit.FindStat(stat.Mana, 0)` when found, and `Equipped` is
`Inventory.ByLocation(item.LocationEquipped)`; `Rooms` is the list of rooms of the
level. -/
structure Data where
  PlayerPosition : Position
  CanTeleport : Bool
  Monsters : List Monster
  Enemies : List Monster
  IsWalkable : Position → Bool
  GetPath : Position → Option Path
  Intersects : Path → Position → Int → Bool
  Objects : List Object := []
  GetPathFrom : Position → Position → Option Path := fun _ _ => none
  GetClosestDoor : Position → Option Object := fun _ => none
  LeftSkill : SkillID := SkillID.Other
  AreaIsTown : Bool := false
  AreaIsUberTristram : Bool := false
  Mana : Option Int := none
  ActiveWeaponSlot : Int := 0
  Equipped : List Item := []
  Rooms : List Room := []

/-- The constant `core.MeleeRange`. -/
def MeleeRange : Int := 3

/-- The constant `core.DefaultMainSkillRange`, returned by `CharacterBase.MainSkillRange`. -/
def DefaultMainSkillRange : Int := 12

/-! ## Geometry kernel (`internal/pather/utils.go`) -/

/-- The largest `r ≤ k` with `r * r ≤ n`. -/
def floorSqrtFrom (n : Nat) : Nat → Nat
  | 0 => 0
  | k + 1 => if (k + 1) * (k + 1) ≤ n then k + 1 else floorSqrtFrom n k

/-- The truncation `int(math.Sqrt(float64(n)))` of a natural number: its integer
square root (`floorSqrt_eq_sqrt`). -/
def floorSqrt (n : Nat) : Nat := floorSqrtFrom n n

/-- The function `DistanceFromPoint`: `int(math.Sqrt(dx^2 + dy^2))`. On grid
coordinates the float computation is exact up to the final truncation, which is the
integer square root. -/
def DistanceFromPoint (src dst : Position) : Int :=
  let first := (dst.X - src.X) * (dst.X - src.X)
  let second := (dst.Y - src.Y) * (dst.Y - src.Y)
  (floorSqrt (first + second).toNat : Int)

/-- The method `PathFinder.DistanceFromMe`. -/
def DistanceFromMe (d : Data) (p : Position) : Int :=
  DistanceFromPoint d.PlayerPosition p

/-- The stepping loop of `LineOfSight`, run for at most `fuel` iterations: `none`
when the iterations run out, otherwise the value the loop returns. -/
def lineOfSightLoop (walkable : Position → Bool) (destination : Position)
    (dx dy sx sy : Int) : Nat → Int → Int → Int → Option Bool
  | 0, _, _, _ => none
  | fuel + 1, err, x, y =>
    if walkable ⟨x, y⟩ = false then some false
    else if x = destination.X ∧ y = destination.Y then some true
    else
      let e2 := 2 * err
      let err1 := if e2 > -dy then err - dy else err
      let x1 := if e2 > -dy then x + sx else x
      let err2 := if e2 < dx then err1 + dx else err1
      let y1 := if e2 < dx then y + sy else y
      lineOfSightLoop walkable destination dx dy sx sy fuel err2 x1 y1

/-- The iterations `LineOfSight` is given: one per cell of a staircase walk from
origin to destination, which the loop never exceeds (`lineOfSightRun_isSome`). -/
def lineOfSightFuel (origin destination : Position) : Nat :=
  (destination.X - origin.X).natAbs + (destination.Y - origin.Y).natAbs + 1

/-- The loop of `PathFinder.LineOfSight` with its set-up, as an optional result. -/
def lineOfSightRun (walkable : Position → Bool) (origin destination : Position) : Option Bool :=
  let dx : Int := (destination.X - origin.X).natAbs
  let dy : Int := (destination.Y - origin.Y).natAbs
  let sx : Int := if origin.X > destination.X then -1 else 1
  let sy : Int := if origin.Y > destination.Y then -1 else 1
  lineOfSightLoop walkable destination dx dy sx sy (lineOfSightFuel origin destination)
    (dx - dy) origin.X origin.Y

/-- The method `PathFinder.LineOfSight` over the walkability grid. -/
def LineOfSight (walkable : Position → Bool) (origin destination : Position) : Bool :=
  (lineOfSightRun walkable origin destination).getD false

/-! ## Enemy prioritiser (`internal/action/clear_area.go`) -/

/-- The function `monsterTypePriority`. -/
def monsterTypePriority : MonsterType → Int
  | .SuperUnique => 0
  | .Unique => 1
  | .Minion => 2
  | .Champion => 3
  | .None => 4
  | .Other => 5

/-- Inner loop of the standard library's `insertionSortCmpFunc`: the new entry moves
left while `cmp(data[j], data[j-1]) < 0`. The second argument is the sorted part
already built, nearest neighbour (last entry) first. -/
def insertLeftward {α : Type} (cmp : α → α → Int) (x : α) : List α → List α
  | [] => [x]
  | y :: ys => if cmp x y < 0 then y :: insertLeftward cmp x ys else x :: y :: ys

/-- The library call `slices.SortStableFunc`: a stable sort by `cmp`, run as the
insertion sort the library uses on short slices (for a comparator that is a strict
weak order every stable sort returns this same list). -/
def SortStableFunc {α : Type} (cmp : α → α → Int) (data : List α) : List α :=
  (data.foldl (fun sortedRev x => insertLeftward cmp x sortedRev) []).reverse

/-- The side tables `SortEnemiesByPriority` fills before sorting: Go maps keyed by
unit id (a missing key reads the zero value) and the melee tally. -/
structure SortTables where
  distanceByID : Nat → Int
  typeByID : Nat → Int
  raiserByID : Nat → Int
  lineOfSightByID : Nat → Bool
  meleeCount : Int

/-- Assignment `m[k] = v` on a Go map read as a total function. -/
def mapSet {β : Type} (m : Nat → β) (k : Nat) (v : β) : Nat → β :=
  fun k2 => if k2 = k then v else m k2

/-- The empty side tables. -/
def emptyTables : SortTables :=
  { distanceByID := fun _ => 0, typeByID := fun _ => 0, raiserByID := fun _ => 0,
    lineOfSightByID := fun _ => false, meleeCount := 0 }

/-- One iteration of the precomputation loop of `SortEnemiesByPriority`. -/
def fillTables (d : Data) (t : SortTables) (m : Monster) : SortTables :=
  let distance := DistanceFromMe d m.Position
  { distanceByID := mapSet t.distanceByID m.UnitID distance
    typeByID := mapSet t.typeByID m.UnitID (monsterTypePriority m.MType)
    raiserByID := mapSet t.raiserByID m.UnitID (if m.Raiser then 0 else 1)
    lineOfSightByID :=
      if d.CanTeleport then t.lineOfSightByID
      else mapSet t.lineOfSightByID m.UnitID (LineOfSight d.IsWalkable d.PlayerPosition m.Position)
    meleeCount :=
      if !d.CanTeleport && decide (distance ≤ MeleeRange) then t.meleeCount + 1 else t.meleeCount }

/-- The closure `compareByDistance`. -/
def compareByDistance (t : SortTables) (monsterI monsterJ : Monster) : Int :=
  let distanceI := t.distanceByID monsterI.UnitID
  let distanceJ := t.distanceByID monsterJ.UnitID
  if distanceI < distanceJ then -1
  else if distanceI > distanceJ then 1
  else 0

/-- The closure `compareByTypeThenDistance`. -/
def compareByTypeThenDistance (t : SortTables) (monsterI monsterJ : Monster) : Int :=
  let typeI := t.typeByID monsterI.UnitID
  let typeJ := t.typeByID monsterJ.UnitID
  if typeI ≠ typeJ then
    if typeI < typeJ then -1 else 1
  else
    let raiserI := t.raiserByID monsterI.UnitID
    let raiserJ := t.raiserByID monsterJ.UnitID
    if raiserI ≠ raiserJ then
      if raiserI < raiserJ then -1 else 1
    else compareByDistance t monsterI monsterJ

/-- The closure `compareByLineOfSight`. -/
def compareByLineOfSight (t : SortTables) (monsterI monsterJ : Monster) : Int :=
  let losI := t.lineOfSightByID monsterI.UnitID
  let losJ := t.lineOfSightByID monsterJ.UnitID
  if losI = losJ then 0
  else if losI then -1
  else 1

/-- The comparator of the melee-or-surrounded branch. -/
def compareMelee (t : SortTables) (monsterI monsterJ : Monster) : Int :=
  let cmp := compareByLineOfSight t monsterI monsterJ
  if cmp ≠ 0 then cmp else compareByDistance t monsterI monsterJ

/-- The comparator of the default branch. -/
def compareDefault (t : SortTables) (monsterI monsterJ : Monster) : Int :=
  let cmp := compareByLineOfSight t monsterI monsterJ
  if cmp ≠ 0 then cmp else compareByTypeThenDistance t monsterI monsterJ

/-- The function `SortEnemiesByPriority`; `mainSkillRange` is what
`ctx.Char.MainSkillRange()` returns. The slice sorted in place is the result. -/
def SortEnemiesByPriority (d : Data) (mainSkillRange : Int) (enemies : List Monster) :
    List Monster :=
  if enemies.length < 2 then enemies
  else
    let t := enemies.foldl (fillTables d) emptyTables
    if d.CanTeleport then SortStableFunc (compareByTypeThenDistance t) enemies
    else if mainSkillRange ≤ MeleeRange ∨ t.meleeCount ≥ 2 then
      SortStableFunc (compareMelee t) enemies
    else SortStableFunc (compareDefault t) enemies

/-! ## Retargeting heuristic and pre-battle gate (`internal/character/core/base.go`) -/

/-- The zero value `data.Monster{}`. -/
def zeroMonster : Monster :=
  { UnitID := 0, MType := .Other, Position := ⟨0, 0⟩, Life := 0, Raiser := false,
    Name := NpcName.Other, SealElite := false, Immunities := [] }

/-- The constant `pathBlockerPadding`. -/
def pathBlockerPadding : Int := 3

/-- The constant `core.TargetTimeout`, in milliseconds. -/
def TargetTimeout : Int := 10000

/-- The method `Monsters.FindByID`: the first monster of the snapshot with that id. -/
def FindByID (monsters : List Monster) (id : Nat) : Option Monster :=
  monsters.find? (fun m => m.UnitID = id)

/-- Body of the first loop of `RetargetIfBlockedBeyondRange` for one candidate: true
when the candidate sets `blocked` (another living enemy, closer than the target, whose
projection falls strictly inside the segment agent→target and which lies within the
padding of that line). -/
def blocksLine (d : Data) (target : Monster) (targetDistance : Int) (candidate : Monster) :
    Bool :=
  let playerPos := d.PlayerPosition
  let targetPos := target.Position
  let lineDX := targetPos.X - playerPos.X
  let lineDY := targetPos.Y - playerPos.Y
  let lineLenSq := lineDX * lineDX + lineDY * lineDY
  if candidate.UnitID = target.UnitID then false
  else if candidate.Life ≤ 0 then false
  else
    let candidateDistance := DistanceFromMe d candidate.Position
    if candidateDistance ≥ targetDistance then false
    else
      let offsetX := candidate.Position.X - playerPos.X
      let offsetY := candidate.Position.Y - playerPos.Y
      let dot := offsetX * lineDX + offsetY * lineDY
      if dot ≤ 0 ∨ dot ≥ lineLenSq then false
      else
        let cross := offsetX * lineDY - offsetY * lineDX
        let padding := pathBlockerPadding
        decide (cross * cross ≤ padding * padding * lineLenSq)

/-- The first blocking test of `RetargetIfBlockedBeyondRange`: some enemy in the
direct line to the target. -/
def blockedInLine (d : Data) (target : Monster) (targetDistance : Int) : Bool :=
  let lineDX := target.Position.X - d.PlayerPosition.X
  let lineDY := target.Position.Y - d.PlayerPosition.Y
  let lineLenSq := lineDX * lineDX + lineDY * lineDY
  decide (lineLenSq > 0) && d.Enemies.any (blocksLine d target targetDistance)

/-- Body of the second loop of `RetargetIfBlockedBeyondRange` for one candidate. -/
def blocksPath (d : Data) (target : Monster) (path : Path) (candidate : Monster) : Bool :=
  if candidate.UnitID = target.UnitID then false
  else if candidate.Life ≤ 0 then false
  else d.Intersects path candidate.Position pathBlockerPadding

/-- The second blocking test of `RetargetIfBlockedBeyondRange`: some enemy in the
path to the target, when a non-empty path is found. -/
def blockedInPath (d : Data) (target : Monster) : Bool :=
  match d.GetPath target.Position with
  | some path => decide (path.length > 0) && d.Enemies.any (blocksPath d target path)
  | none => false

/-- The variables `closestFound`, `closestDistance`, `closest` of the selection loop. -/
structure Closest where
  closestFound : Bool
  closestDistance : Int
  closest : Monster

/-- One iteration of the selection loop of `RetargetIfBlockedBeyondRange`. -/
def pickClosest (d : Data) (c : Closest) (candidate : Monster) : Closest :=
  if candidate.Life ≤ 0 then c
  else if LineOfSight d.IsWalkable d.PlayerPosition candidate.Position = false then c
  else
    let candidateDistance := DistanceFromMe d candidate.Position
    if c.closestFound = false ∨ candidateDistance < c.closestDistance then
      { closestFound := true, closestDistance := candidateDistance, closest := candidate }
    else c

/-- The value of `blocked` after both blocking tests; the path test runs only when
the line test found nothing. -/
def targetBlocked (d : Data) (target : Monster) : Bool :=
  let blocked := blockedInLine d target (DistanceFromMe d target.Position)
  if blocked = false then blockedInPath d target else blocked

/-- The method `CharacterBase.RetargetIfBlockedBeyondRange`. -/
def RetargetIfBlockedBeyondRange (d : Data) (target : Monster) (mainSkillRange : Int) :
    Monster × Bool :=
  if d.CanTeleport = true ∨ mainSkillRange ≤ 0 then (zeroMonster, false)
  else
    let targetDistance := DistanceFromMe d target.Position
    if targetDistance < mainSkillRange then (zeroMonster, false)
    else if targetBlocked d target = false then (zeroMonster, false)
    else
      let c := d.Enemies.foldl (pickClosest d)
        { closestFound := false, closestDistance := 0, closest := zeroMonster }
      if c.closestFound = false then (zeroMonster, false)
      else (c.closest, true)

/-- The constant `sanityRangeYards` of `PreBattleChecks`. -/
def sanityRangeYards : Int := 60

/-- The method `CharacterBase.PreBattleChecks`. -/
def PreBattleChecks (d : Data) (id : Nat) (skipOnImmunities : List Resist) : Bool :=
  match FindByID d.Monsters id with
  | none => false
  | some monster =>
    if monster.Life ≤ 0 then false
    else
      let isVizier := monster.MType = MonsterType.SuperUnique ∧ monster.Name = NpcName.StormCaster
      let nearby := ¬ isVizier ∧ DistanceFromMe d monster.Position ≤ sanityRangeYards
      if nearby ∧ d.IsWalkable monster.Position = false then false
      else if nearby ∧ d.CanTeleport = false ∧ (d.GetPath monster.Position).isNone = true then
        false
      else if skipOnImmunities.any (fun i => monster.Immunities.contains i) then false
      else true

/-! ## Engagement loop (`KillMonsterSequence` of the paladin builds) -/

/-- The reason logged with "KillMonsterSequence ended". -/
inductive EndReason where
  | pre_battle_checks_failed
  | target_timeout
  | out_of_range_attempts
  deriving DecidableEq, Repr

/-- The calls one tick of the loop makes, in order. -/
inductive Event where
  | PauseIfNotPriority
  | monsterSelector
  | RetargetIfBlockedBeyondRange
  | PreBattleChecks
  | LogEnded (reason : EndReason)
  | executeDefaultRotation (target : Nat)
  | executeMeleeRotation (target : Nat)
  | tryKillNearby (maxDist : Int)
  | MoveTo (target : Nat)
  | useZeal (target : Nat)
  | resetTeleportOverride
  deriving DecidableEq, Repr

/-- The value of Go type `error` a kill sequence returns. -/
inductive GoError where
  | nil
  | failure (msg : String)
  deriving DecidableEq, Repr

/-- What the collaborators answer during one tick: the snapshot `p.Data`, the
selector's result, the clock readings (milliseconds) of `time.Now()` and of
`time.Since`, and the results of the rotation, movement and attack calls. -/
structure Tick where
  data : Data
  selected : Option Nat
  now : Int
  clock : Int
  rotationResult : Bool
  respecced : Bool
  moveToFails : Bool
  dataAfterMove : Data
  zealResult : Bool
  zealResultAfterMove : Bool

/-- The bookkeeping `lastTargetID`, `targetStart` of a kill sequence; `targetStart` is
`none` while it is the zero `time.Time`. -/
structure Session where
  lastTargetID : Nat
  targetStart : Option Int
  deriving DecidableEq, Repr

/-- The duration `time.Since(targetStart)` exceeds `core.TargetTimeout`; measured from
the zero time it is the saturated maximum duration. -/
def timedOut (clock : Int) (targetStart : Option Int) : Bool :=
  match targetStart with
  | none => true
  | some start => decide (clock - start > TargetTimeout)

/-- The method `PaladinBase.MainSkillRange`. -/
def paladinMainSkillRange : Int := 1

/-- The `for` loop of a kill sequence with its deferred
`resetTeleportOverride`: `tick` is the loop body, returning `none` for `return nil`
and the next bookkeeping for `continue`; the result is `none` while the loop is
still running after the given ticks. -/
def runLoop {σ : Type} (tick : σ → Tick → List Event × Option σ) :
    σ → List Tick → List Event × Option GoError
  | _, [] => ([], none)
  | s, t :: ts =>
    match tick s t with
    | (events, none) => (events ++ [Event.resetTeleportOverride], some GoError.nil)
    | (events, some s2) =>
      let rest := runLoop tick s2 ts
      (events ++ rest.1, rest.2)

/-- Loop body shared by `PaladinDefault.KillMonsterSequence` and
`PaladinLeveling.KillMonsterSequence`; `rotation` is the rotation call of the build. -/
def retargetingTick (rotation : Tick → Nat → Event) (skipOnImmunities : List Resist)
    (s : Session) (t : Tick) : List Event × Option Session :=
  match t.selected with
  | none => ([Event.PauseIfNotPriority, Event.monsterSelector], none)
  | some selectedId =>
    match FindByID t.data.Monsters selectedId with
    | none => ([Event.PauseIfNotPriority, Event.monsterSelector], some s)
    | some found =>
      let r := RetargetIfBlockedBeyondRange t.data found paladinMainSkillRange
      let monsterId := if r.2 then r.1.UnitID else selectedId
      let monster := if r.2 then r.1 else found
      let s1 : Session :=
        if monsterId ≠ s.lastTargetID then { lastTargetID := monsterId, targetStart := some t.now }
        else s
      let pre := [Event.PauseIfNotPriority, Event.monsterSelector,
        Event.RetargetIfBlockedBeyondRange, Event.PreBattleChecks]
      if PreBattleChecks t.data monsterId skipOnImmunities = false then
        (pre ++ [Event.LogEnded EndReason.pre_battle_checks_failed], none)
      else if timedOut t.clock s1.targetStart then
        (pre ++ [Event.LogEnded EndReason.target_timeout], none)
      else
        let events := pre ++ [rotation t monster.UnitID]
        if t.rotationResult = false then (events, some s1)
        else (events, some s1)

/-- The rotation call of `PaladinDefault.KillMonsterSequence`. -/
def PaladinDefault.rotation (_t : Tick) (id : Nat) : Event := Event.executeDefaultRotation id

/-- The rotation call of `PaladinLeveling.KillMonsterSequence`: the default rotation
after a respec (`isIntermediateSpec() || isEndgameSpec()`), else the melee rotation. -/
def PaladinLeveling.rotation (t : Tick) (id : Nat) : Event :=
  if t.respecced then Event.executeDefaultRotation id else Event.executeMeleeRotation id

/-- The method `PaladinDefault.KillMonsterSequence`, run over the given ticks. -/
def PaladinDefault.KillMonsterSequence (skipOnImmunities : List Resist) (ticks : List Tick) :
    List Event × Option GoError :=
  runLoop (retargetingTick PaladinDefault.rotation skipOnImmunities)
    { lastTargetID := 0, targetStart := none } ticks

/-- The method `PaladinLeveling.KillMonsterSequence`, run over the given ticks. -/
def PaladinLeveling.KillMonsterSequence (skipOnImmunities : List Resist) (ticks : List Tick) :
    List Event × Option GoError :=
  runLoop (retargetingTick PaladinLeveling.rotation skipOnImmunities)
    { lastTargetID := 0, targetStart := none } ticks

/-- The constant `dragondinMeleeRange`. -/
def dragondinMeleeRange : Int := 5

/-- The constant `dragondinEngageRange`. -/
def dragondinEngageRange : Int := 30

/-- The constant `dragondinMaxOutOfRangeAttempts`. -/
def dragondinMaxOutOfRangeAttempts : Int := 20

/-- The constant `dragondinImmediateThreatRange`. -/
def dragondinImmediateThreatRange : Int := dragondinMeleeRange + 1

/-- The method `PaladinDragon.ShouldIgnoreMonster`. -/
def PaladinDragon.ShouldIgnoreMonster (d : Data) (m : Monster) : Bool :=
  if m.Life ≤ 0 then true
  else decide (DistanceFromMe d m.Position > dragondinEngageRange)

/-- One iteration of the search loop of `tryKillNearby`. -/
def nearbyStep (d : Data) (maxDist : Int) (c : Closest) (m : Monster) : Closest :=
  if m.Life ≤ 0 then c
  else
    let dist := DistanceFromMe d m.Position
    if dist ≤ maxDist ∧ dist < c.closestDistance then
      { closestFound := true, closestDistance := dist, closest := m }
    else c

/-- The method `PaladinDragon.tryKillNearby`; `zealResult` is what `useZeal` returns. -/
def PaladinDragon.tryKillNearby (d : Data) (skipOnImmunities : List Resist) (maxDist : Int)
    (zealResult : Bool) : Bool :=
  let c := d.Enemies.foldl (nearbyStep d maxDist)
    { closestFound := false, closestDistance := 9999, closest := zeroMonster }
  if c.closestFound = false then false
  else if PreBattleChecks d c.closest.UnitID skipOnImmunities = false then false
  else zealResult

/-- The bookkeeping of `PaladinDragon.KillMonsterSequence`. -/
structure DragonSession where
  outOfRangeAttempts : Int
  lastTargetID : Nat
  targetStart : Option Int
  deriving DecidableEq, Repr

/-- Loop body of `PaladinDragon.KillMonsterSequence`. -/
def dragonTick (skipOnImmunities : List Resist) (s : DragonSession) (t : Tick) :
    List Event × Option DragonSession :=
  match t.selected with
  | none => ([Event.PauseIfNotPriority, Event.monsterSelector], none)
  | some id =>
    let s1 : DragonSession :=
      if id ≠ s.lastTargetID then { s with lastTargetID := id, targetStart := some t.now }
      else s
    let head := [Event.PauseIfNotPriority, Event.monsterSelector]
    match FindByID t.data.Monsters id with
    | none => (head, some s1)
    | some monster =>
      if monster.Life ≤ 0 then (head, some s1)
      else if PaladinDragon.ShouldIgnoreMonster t.data monster then (head, some s1)
      else if PreBattleChecks t.data id skipOnImmunities = false then
        (head ++ [Event.PreBattleChecks, Event.LogEnded EndReason.pre_battle_checks_failed], none)
      else if timedOut t.clock s1.targetStart then
        (head ++ [Event.PreBattleChecks, Event.LogEnded EndReason.target_timeout], none)
      else
        let pre := head ++ [Event.PreBattleChecks]
        let distance := DistanceFromMe t.data monster.Position
        if distance > dragondinMeleeRange then
          if PaladinDragon.tryKillNearby t.data skipOnImmunities dragondinImmediateThreatRange
              t.zealResult then
            (pre ++ [Event.tryKillNearby dragondinImmediateThreatRange], some s1)
          else
            let moved := pre ++ [Event.tryKillNearby dragondinImmediateThreatRange,
              Event.MoveTo monster.UnitID]
            let attempts : Int :=
              if t.moveToFails then
                if PaladinDragon.tryKillNearby t.dataAfterMove skipOnImmunities
                    (dragondinMeleeRange + 3) t.zealResultAfterMove then 0
                else s1.outOfRangeAttempts + 1
              else 0
            let events :=
              if t.moveToFails then moved ++ [Event.tryKillNearby (dragondinMeleeRange + 3)]
              else moved
            if attempts ≥ dragondinMaxOutOfRangeAttempts then
              (events ++ [Event.LogEnded EndReason.out_of_range_attempts], none)
            else (events, some { s1 with outOfRangeAttempts := attempts })
        else
          (pre ++ [Event.useZeal monster.UnitID], some { s1 with outOfRangeAttempts := 0 })

/-- The method `PaladinDragon.KillMonsterSequence`, run over the given ticks. -/
def PaladinDragon.KillMonsterSequence (skipOnImmunities : List Resist) (ticks : List Tick) :
    List Event × Option GoError :=
  runLoop (dragonTick skipOnImmunities)
    { outOfRangeAttempts := 0, lastTargetID := 0, targetStart := none } ticks

/-! ## Door test and selector filter (`HasDoorBetween`, `isValidEnemy`) -/

/-- The method `PathFinder.HasDoorBetween`: with no path from origin to destination, the
closest door (if any) counts; otherwise the first selectable door object that
intersects the path within padding 4. -/
def HasDoorBetween (d : Data) (origin destination : Position) : Bool × Option Object :=
  match d.GetPathFrom origin destination with
  | none =>
    match d.GetClosestDoor origin with
    | some door => (true, some door)
    | none => (false, none)
  | some path =>
    match d.Objects.find? (fun o => o.IsDoor && o.Selectable && d.Intersects path o.Position 4) with
    | some o => (true, some o)
    | none => (false, none)

/-- The closure `isValidEnemy` of the selector in `ClearAreaAroundPosition`. -/
def isValidEnemy (d : Data) (m : Monster) : Bool :=
  let isVizier := m.MType = MonsterType.SuperUnique ∧ m.Name = NpcName.StormCaster
  if ¬ isVizier ∧ d.IsWalkable m.Position = false then false
  else if d.CanTeleport = false then
    if (d.GetPath m.Position).isNone = true then false
    else if (HasDoorBetween d d.PlayerPosition m.Position).1 = true then false
    else true
  else true

/-! ## Floating-point arithmetic of the geometry kernel -/

/-- The binary digits of `n` counted with at most `fuel` halvings. -/
def bitLengthFrom : Nat → Nat → Nat
  | 0, _ => 0
  | fuel + 1, n => if n = 0 then 0 else bitLengthFrom fuel (n / 2) + 1

/-- The number of binary digits of a natural number (0 for 0). -/
def bitLength (n : Nat) : Nat := bitLengthFrom n n

/-- A finite binary floating-point value `mant * 2 ^ expo`. -/
structure Binary64 where
  mant : Int
  expo : Int
  deriving Repr

/-- Rounding of the exact value `mant * 2 ^ expo` to `prec` significant bits, to
nearest with ties to even (the IEEE 754 default); the exponent range is not bounded,
so overflow and subnormal numbers are not modelled. -/
def roundNearestEven (prec : Nat) (mant : Int) (expo : Int) : Binary64 :=
  let a := mant.natAbs
  let len := bitLength a
  if len ≤ prec then ⟨mant, expo⟩
  else
    let s := len - prec
    let q := a / 2 ^ s
    let r := a % 2 ^ s
    let half := 2 ^ (s - 1)
    let q1 := if r > half ∨ (r = half ∧ q % 2 = 1) then q + 1 else q
    ⟨if mant < 0 then -(q1 : Int) else (q1 : Int), expo + (s : Int)⟩

/-- The conversion `float64(n)` of an integer. -/
def Binary64.ofInt (n : Int) : Binary64 := roundNearestEven 53 n 0

/-- The mantissa of a value rescaled to the exponent `e`, at most its own. -/
def Binary64.mantAt (x : Binary64) (e : Int) : Int := x.mant * 2 ^ (x.expo - e).toNat

/-- Float64 addition: the exact sum, rounded. -/
def Binary64.add (x y : Binary64) : Binary64 :=
  let e := min x.expo y.expo
  roundNearestEven 53 (x.mantAt e + y.mantAt e) e

/-- Float64 subtraction: the exact difference, rounded. -/
def Binary64.sub (x y : Binary64) : Binary64 :=
  let e := min x.expo y.expo
  roundNearestEven 53 (x.mantAt e - y.mantAt e) e

/-- Float64 multiplication: the exact product, rounded. -/
def Binary64.mul (x y : Binary64) : Binary64 :=
  roundNearestEven 53 (x.mant * y.mant) (x.expo + y.expo)

/-- Float64 division by a non-zero value: the quotient is computed to at least 56
bits with a sticky bit for the remainder, then rounded. -/
def Binary64.div (x y : Binary64) : Binary64 :=
  let k := 53 + 2 + bitLength y.mant.natAbs
  let n := x.mant.natAbs * 2 ^ k
  let q := n / y.mant.natAbs
  let r := n % y.mant.natAbs
  let sticky := if r = 0 then 0 else 1
  let sign : Int := if decide (x.mant < 0) = decide (y.mant < 0) then 1 else -1
  roundNearestEven 53 (sign * ((2 * q + sticky : Nat) : Int)) (x.expo - y.expo - (k : Int) - 1)

/-- Float64 comparison `x <= y`. -/
def Binary64.le (x y : Binary64) : Bool :=
  let e := min x.expo y.expo
  decide (x.mantAt e ≤ y.mantAt e)

/-- Float64 comparison `x < y`. -/
def Binary64.lt (x y : Binary64) : Bool :=
  let e := min x.expo y.expo
  decide (x.mantAt e < y.mantAt e)

/-- Float64 comparison `x == 0`. -/
def Binary64.isZero (x : Binary64) : Bool := decide (x.mant = 0)

instance : Add Binary64 := ⟨Binary64.add⟩

instance : Sub Binary64 := ⟨Binary64.sub⟩

instance : Mul Binary64 := ⟨Binary64.mul⟩

instance : Div Binary64 := ⟨Binary64.div⟩

/-- The conversion `int(x)` of a float: the fraction is discarded (truncation toward
zero). -/
def Binary64.toInt (x : Binary64) : Int :=
  if 0 ≤ x.expo then x.mant * 2 ^ x.expo.toNat else Int.tdiv x.mant (2 ^ (-x.expo).toNat)

/-- The integer square root by binary digits: starting from `r`, every digit below
`2 ^ k` is set when the square stays within `n`. -/
def isqrtBits (n : Nat) : Nat → Nat → Nat
  | 0, r => r
  | k + 1, r =>
    if (r + 2 ^ k) * (r + 2 ^ k) ≤ n then isqrtBits n k (r + 2 ^ k) else isqrtBits n k r

/-- The function `math.Sqrt` on a non-negative value: the mantissa is scaled to at
least 110 more bits at an even exponent, its integer square root is taken with a
sticky bit for the remainder, then rounded. A value that is not positive gives zero. -/
def Binary64.sqrt (x : Binary64) : Binary64 :=
  if x.mant ≤ 0 then ⟨0, 0⟩
  else
    let k : Nat := if (x.expo - 110) % 2 = 0 then 110 else 111
    let n := x.mant.natAbs * 2 ^ k
    let s := isqrtBits n (bitLength n) 0
    let sticky := if s * s = n then 0 else 1
    roundNearestEven 53 ((2 * s + sticky : Nat) : Int) ((x.expo - (k : Int)) / 2 - 1)

/-- A finite binary floating-point value held in the 24 significant bits of a
`float32`. -/
abbrev Binary32 := Binary64

/-- The conversion `float32(n)` of an integer. -/
def Binary32.ofInt (n : Int) : Binary32 := roundNearestEven 24 n 0

/-- The `float32` nearest to the decimal constant `num / den`: the quotient is
computed to at least 27 bits with a sticky bit for the remainder, then rounded. -/
def Binary32.ofRatio (num : Int) (den : Nat) : Binary32 :=
  let k := 24 + 2 + bitLength den
  let n := num.natAbs * 2 ^ k
  let q := n / den
  let r := n % den
  let sticky := if r = 0 then 0 else 1
  let sign : Int := if num < 0 then -1 else 1
  roundNearestEven 24 (sign * ((2 * q + sticky : Nat) : Int)) (-(k : Int) - 1)

/-- Float32 addition: the exact sum, rounded. -/
def Binary32.add (x y : Binary32) : Binary32 :=
  let e := min x.expo y.expo
  roundNearestEven 24 (Binary64.mantAt x e + Binary64.mantAt y e) e

/-- Float32 multiplication: the exact product, rounded. -/
def Binary32.mul (x y : Binary32) : Binary32 :=
  roundNearestEven 24 (x.mant * y.mant) (x.expo + y.expo)

/-- The function `lineSegmentIntersectsPosition`, every float64 operation rounded to
nearest (no fused multiply-add). -/
def lineSegmentIntersectsPosition (origin target pos : Position) (padding : Int) : Bool :=
  let dx := Binary64.ofInt (target.X - origin.X)
  let dy := Binary64.ofInt (target.Y - origin.Y)
  let denom := dx * dx + dy * dy
  let paddingSq := Binary64.ofInt (padding * padding)
  if denom.isZero then
    let distX := Binary64.ofInt (pos.X - origin.X)
    let distY := Binary64.ofInt (pos.Y - origin.Y)
    (distX * distX + distY * distY).le paddingSq
  else
    let px := Binary64.ofInt (pos.X - origin.X)
    let py := Binary64.ofInt (pos.Y - origin.Y)
    let t := (px * dx + py * dy) / denom
    if t.lt (Binary64.ofInt 0) || (Binary64.ofInt 1).lt t then false
    else
      let closestX := Binary64.ofInt origin.X + t * dx
      let closestY := Binary64.ofInt origin.Y + t * dy
      let distX := Binary64.ofInt pos.X - closestX
      let distY := Binary64.ofInt pos.Y - closestY
      (distX * distX + distY * distY).le paddingSq

/-- The function `lineSegmentIntersectsPosition` read in exact arithmetic: the same
steps on rational numbers, without rounding. -/
def lineSegmentIntersectsPositionExact (origin target pos : Position) (padding : Int) : Bool :=
  let dx : ℚ := ((target.X - origin.X : Int) : ℚ)
  let dy : ℚ := ((target.Y - origin.Y : Int) : ℚ)
  let denom := dx * dx + dy * dy
  let paddingSq : ℚ := ((padding * padding : Int) : ℚ)
  if denom = 0 then
    let distX : ℚ := ((pos.X - origin.X : Int) : ℚ)
    let distY : ℚ := ((pos.Y - origin.Y : Int) : ℚ)
    decide (distX * distX + distY * distY ≤ paddingSq)
  else
    let px : ℚ := ((pos.X - origin.X : Int) : ℚ)
    let py : ℚ := ((pos.Y - origin.Y : Int) : ℚ)
    let t := (px * dx + py * dy) / denom
    if t < 0 ∨ t > 1 then false
    else
      let closestX := (origin.X : ℚ) + t * dx
      let closestY := (origin.Y : ℚ) + t * dy
      let distX := (pos.X : ℚ) - closestX
      let distY := (pos.Y : ℚ) - closestY
      decide (distX * distX + distY * distY ≤ paddingSq)

/-! ## Boss and quest-enemy tests (`internal/game/npc_tools.go`) -/

/-- The function `IsActBoss`. A Go `switch` does not fall through: a case with an empty
body leaves the switch, and control reaches the final `return false`; only the case
`npc.BaalCrab` has the body `return true`. -/
def IsActBoss (m : Monster) : Bool :=
  match m.Name with
  | .Andariel => false
  | .Duriel => false
  | .Mephisto => false
  | .Diablo => false
  | .BaalCrab => true
  | _ => false

/-- The function `IsQuestEnemy`; in its `switch` too only the last case,
`npc.Nihlathak`, has the body `return true`. -/
def IsQuestEnemy (m : Monster) : Bool :=
  if IsActBoss m then true
  else if m.SealElite then true
  else
    match m.Name with
    | .BloodRaven => false
    | .Radament => false
    | .Summoner => false
    | .CouncilMember => false
    | .CouncilMember2 => false
    | .CouncilMember3 => false
    | .Izual => false
    | .Hephasto => false
    | .Nihlathak => true
    | _ => false

/-! ## Charge movement (`internal/pather/utils.go`) -/

/-- The constant `MovementSkillMinDistance`. -/
def MovementSkillMinDistance : Int := 7

/-- The constant `chargeMinMana` of `tryChargeMove`. -/
def chargeMinMana : Int := 9

/-- The constant `chargePathPadding` of `tryChargeMove`. -/
def chargePathPadding : Int := 3

/-- The zero value of `data.Item`. -/
def zeroItem : Item :=
  { UnitID := 0, BodyLocation := BodyLocation.Other, MinDamage := 0, MaxDamage := 0,
    TwoHandMinDamage := 0, TwoHandMaxDamage := 0, MinMissileDamage := 0,
    MaxMissileDamage := 0, IsBroken := false, Indestructible := false, Durability := none }

/-- The function `firstWorldPos`: the first world position of the optional arguments,
unless there is none or it is the zero position. -/
def firstWorldPos (worldPos : List Position) : Position × Bool :=
  match worldPos with
  | [] => (⟨0, 0⟩, false)
  | p :: _ => if p.X = 0 ∧ p.Y = 0 then (⟨0, 0⟩, false) else (p, true)

/-- The weapon looked up by `tryChargeMove`: the first equipped item at the left-arm
location of the active weapon slot, or the zero item. -/
def chargeWeapon (d : Data) : Item :=
  let weaponLoc :=
    if d.ActiveWeaponSlot = 1 then BodyLocation.LocLeftArmSecondary else BodyLocation.LocLeftArm
  (d.Equipped.find? (fun itm => itm.BodyLocation = weaponLoc)).getD zeroItem

/-- The test `isWeapon` of `tryChargeMove`: some damage value of the item base is
positive. -/
def isWeapon (weapon : Item) : Bool :=
  decide (weapon.MinDamage > 0) || decide (weapon.MaxDamage > 0)
    || decide (weapon.TwoHandMinDamage > 0) || decide (weapon.TwoHandMaxDamage > 0)
    || decide (weapon.MinMissileDamage > 0) || decide (weapon.MaxMissileDamage > 0)

/-- The weapon block of `tryChargeMove`: true when the block returns false from the
gate (the weapon is unusable). -/
def chargeWeaponUnusable (weapon : Item) : Bool :=
  if weapon.UnitID ≠ 0 then
    if isWeapon weapon then
      if !weapon.Indestructible then
        if weapon.IsBroken then true
        else
          match weapon.Durability with
          | some durability => decide (durability ≤ 0)
          | none => false
      else false
    else false
  else false

/-- The method `PathFinder.tryChargeMove` as a decision: its result, which is true
exactly when the Charge click is issued. -/
def tryChargeMove (d : Data) (targetPos : Position) (hasTargetPos : Bool) : Bool :=
  if d.LeftSkill ≠ SkillID.Charge then false
  else if d.AreaIsTown || d.AreaIsUberTristram then false
  else if !hasTargetPos then false
  else
    match d.Mana with
    | none => false
    | some mana =>
      if mana < chargeMinMana then false
      else if chargeWeaponUnusable (chargeWeapon d) then false
      else
        let origin := d.PlayerPosition
        let distance := DistanceFromPoint origin targetPos
        if distance < MovementSkillMinDistance then false
        else if !LineOfSight d.IsWalkable origin targetPos then false
        else if d.Enemies.any
            (fun m => lineSegmentIntersectsPosition origin targetPos m.Position chargePathPadding)
          then false
        else if d.Objects.any
            (fun o => (o.HasCollision || o.Selectable)
              && lineSegmentIntersectsPosition origin targetPos o.Position chargePathPadding)
          then false
        else true

/-! ## Screen projection and extension beyond a target (`internal/pather/utils.go`) -/

/-- The float32 value `(float32(diff) * scale) + float32(half)` of
`gameCoordsToScreenCords`, every operation rounded to nearest (no fused
multiply-add); `scale` is the decimal constant `scaleNum / 10`. -/
def screenCoordValue (diff : Int) (scaleNum : Int) (half : Int) : Binary32 :=
  Binary32.add (Binary32.mul (Binary32.ofInt diff) (Binary32.ofRatio scaleNum 10))
    (Binary32.ofInt half)

/-- The method `PathFinder.gameCoordsToScreenCords` for a game area of size
`GameAreaSizeX` by `GameAreaSizeY`; the integer halves are Go integer divisions. -/
def gameCoordsToScreenCords (GameAreaSizeX GameAreaSizeY : Int)
    (playerX playerY destinationX destinationY : Int) : Int × Int :=
  let diffX := destinationX - playerX
  let diffY := destinationY - playerY
  let screenX := (screenCoordValue (diffX - diffY) 198 (Int.tdiv GameAreaSizeX 2)).toInt
  let screenY := (screenCoordValue (diffX + diffY) 99 (Int.tdiv GameAreaSizeY 2)).toInt
  (screenX, screenY)

/-- The value `length` of `BeyondPosition`: the float64 length of the direction
vector. -/
def beyondPositionLength (start target : Position) : Binary64 :=
  let dx := Binary64.ofInt (target.X - start.X)
  let dy := Binary64.ofInt (target.Y - start.Y)
  Binary64.sqrt (dx * dx + dy * dy)

/-- The method `PathFinder.BeyondPosition`: the division by `length` is executed only
in the branch where `length` is not zero. -/
def BeyondPosition (start target : Position) (distance : Int) : Position :=
  let dx := Binary64.ofInt (target.X - start.X)
  let dy := Binary64.ofInt (target.Y - start.Y)
  let length := beyondPositionLength start target
  let dir : Binary64 × Binary64 :=
    if length.isZero then (Binary64.ofInt 1, Binary64.ofInt 0)
    else (dx / length, dy / length)
  { X := target.X + (dir.1 * Binary64.ofInt distance).toInt,
    Y := target.Y + (dir.2 * Binary64.ofInt distance).toInt }

/-! ## Room traversal order (`internal/pather/utils.go`) -/

/-- The zero value `data.Room{}`. -/
def zeroRoom : Room := { Position := ⟨0, 0⟩, Width := 0, Height := 0 }

/-- The constant `math.MaxInt` of a 64-bit platform. -/
def MaxInt : Int := 9223372036854775807

/-- The table `distanceMatrix` of `OptimizeRoomsTraverseOrder` read as a total
function: an entry exists for every pair of rooms of the list (zero for a room and
itself), and a missing entry reads as the zero value. `GetCenter` is the library
method `Room.GetCenter`. -/
def distanceMatrix (rooms : List Room) (GetCenter : Room → Position) (room1 room2 : Room) :
    Int :=
  if room1 ∈ rooms ∧ room2 ∈ rooms then
    if room1 ≠ room2 then DistanceFromPoint (GetCenter room1) (GetCenter room2) else 0
  else 0

/-- The first loop over the rooms in `OptimizeRoomsTraverseOrder`: the last room of
the list that contains the player, or the zero room. `IsInside` is the library method
`Room.IsInside`. -/
def startRoom (d : Data) (IsInside : Room → Position → Bool) : Room :=
  d.Rooms.foldl (fun currentRoom r => if IsInside r d.PlayerPosition then r else currentRoom)
    zeroRoom

/-- The inner loop of `OptimizeRoomsTraverseOrder`: the first unvisited room at the
least distance below `math.MaxInt`, or the zero room. -/
def nearestUnvisited (rooms : List Room) (distance : Room → Int) (visited : Room → Bool) :
    Room :=
  (rooms.foldl
    (fun (acc : Room × Int) room =>
      if !visited room && decide (distance room < acc.2) then (room, distance room) else acc)
    (zeroRoom, MaxInt)).1

/-- The outer loop of `OptimizeRoomsTraverseOrder`, run for at most the given number
of iterations. -/
def traverseLoop (rooms : List Room) (GetCenter : Room → Position) :
    Nat → List Room → (Room → Bool) → Room → List Room
  | 0, order, _, _ => order
  | fuel + 1, order, visited, currentRoom =>
    if order.length < rooms.length then
      let nextRoom := nearestUnvisited rooms (distanceMatrix rooms GetCenter currentRoom) visited
      traverseLoop rooms GetCenter fuel (order ++ [nextRoom])
        (fun r => if r = nextRoom then true else visited r) nextRoom
    else order

/-- The method `PathFinder.OptimizeRoomsTraverseOrder`; the loop appends one room per
iteration, so `len(rooms)` iterations are enough (`traverseLoop_length`). -/
def OptimizeRoomsTraverseOrder (d : Data) (GetCenter : Room → Position)
    (IsInside : Room → Position → Bool) : List Room :=
  let currentRoom := startRoom d IsInside
  traverseLoop d.Rooms GetCenter d.Rooms.length [currentRoom]
    (fun r => if r = currentRoom then true else false) currentRoom

/-! ## Concrete snapshots -/

/-- A monster standing at `(x, y)`. -/
def monsterAt (id : Nat) (ty : MonsterType) (x y : Int) (life : Int) (raiser : Bool) : Monster :=
  { UnitID := id, MType := ty, Position := ⟨x, y⟩, Life := life, Raiser := raiser,
    Name := NpcName.Other, SealElite := false, Immunities := [] }

/-- A snapshot with the agent at the origin of an open field (every cell walkable)
and no path answers. -/
def openField (canTeleport : Bool) (enemies : List Monster) : Data :=
  { PlayerPosition := ⟨0, 0⟩, CanTeleport := canTeleport, Monsters := enemies,
    Enemies := enemies, IsWalkable := fun _ => true, GetPath := fun _ => none,
    Intersects := fun _ _ _ => false }

/-- Three enemies: a far super-unique, a near generic monster, a near champion raiser. -/
def samplePack : List Monster :=
  [monsterAt 1 .None 2 0 10 false, monsterAt 2 .SuperUnique 9 0 10 false,
   monsterAt 3 .Champion 1 1 10 true]

/-- Three enemies of which only one is within melee range. -/
def spreadPack : List Monster :=
  [monsterAt 1 .None 5 0 10 false, monsterAt 2 .SuperUnique 9 0 10 false,
   monsterAt 3 .Champion 1 1 10 true]

/-- A `Path.Intersects` answer: some cell of the path lies within `padding` of the
position on both axes. -/
def boxIntersects (path : Path) (pos : Position) (padding : Int) : Bool :=
  path.any (fun p => decide ((p.X - pos.X).natAbs < padding ∧ (p.Y - pos.Y).natAbs < padding))

/-- Target 1 at (10,0) in plain sight; enemy 2 at (5,2), closer and within the padding
of the line to the target, stands on the only blocked cell. -/
def hiddenBlocker : Data :=
  { PlayerPosition := ⟨0, 0⟩, CanTeleport := false
    Monsters := [monsterAt 1 .None 10 0 10 false, monsterAt 2 .None 5 2 10 false]
    Enemies := [monsterAt 1 .None 10 0 10 false, monsterAt 2 .None 5 2 10 false]
    IsWalkable := fun p => !(p.X == 5 && p.Y == 2)
    GetPath := fun _ => none
    Intersects := boxIntersects }

/-- Target 1 at (12,0) and enemy 2 at (5,0) on the line to it, in an open field. -/
def lineBlocker : Data :=
  openField false [monsterAt 1 .None 12 0 10 false, monsterAt 2 .None 5 0 10 false]

/-- Target 1 at (3,0) behind a wall on (1,0) and (2,0); the path found goes round the
wall through (3,2), where enemy 2 stands, no closer to the agent than the target. -/
def pathBlocker : Data :=
  { PlayerPosition := ⟨0, 0⟩, CanTeleport := false
    Monsters := [monsterAt 1 .None 3 0 10 false, monsterAt 2 .None 3 2 10 false]
    Enemies := [monsterAt 1 .None 3 0 10 false, monsterAt 2 .None 3 2 10 false]
    IsWalkable := fun p => !((p.X == 1 || p.X == 2) && p.Y == 0)
    GetPath := fun _ => some [⟨0, 0⟩, ⟨1, 1⟩, ⟨2, 2⟩, ⟨3, 2⟩, ⟨3, 1⟩, ⟨3, 0⟩]
    Intersects := boxIntersects }

/-- A tick on which the selector reports no target. -/
def idleTick : Tick :=
  { data := openField false samplePack, selected := none, now := 0, clock := 0,
    rotationResult := true, respecced := false, moveToFails := false,
    dataAfterMove := openField false samplePack, zealResult := true,
    zealResultAfterMove := true }

/-- A snapshot with the agent at the origin of an open field, unable to teleport,
where the path finder finds a path to every position. -/
def walkField (enemies : List Monster) : Data :=
  { PlayerPosition := ⟨0, 0⟩, CanTeleport := false, Monsters := enemies,
    Enemies := enemies, IsWalkable := fun _ => true,
    GetPath := fun p => some [⟨0, 0⟩, p], Intersects := fun _ _ _ => false }

/-- A tick at clock reading `ms` on which the selector returns unit `id`, with a single
living monster, unit 1, next to the agent. -/
def engagedTick (id : Nat) (ms : Int) : Tick :=
  { data := walkField [monsterAt 1 .None 1 0 10 false], selected := some id, now := ms,
    clock := ms, rotationResult := true, respecced := false, moveToFails := false,
    dataAfterMove := walkField [monsterAt 1 .None 1 0 10 false], zealResult := true,
    zealResultAfterMove := true }

/-- Target 1 at (10,0), alive and reachable by a straight path on which a closed
(selectable) door stands at (5,0); the agent cannot teleport. -/
def doorInPath : Data :=
  { PlayerPosition := ⟨0, 0⟩, CanTeleport := false
    Monsters := [monsterAt 1 .None 10 0 10 false]
    Enemies := [monsterAt 1 .None 10 0 10 false]
    IsWalkable := fun _ => true
    GetPath := fun p => some [⟨0, 0⟩, ⟨5, 0⟩, p]
    Intersects := boxIntersects
    Objects := [{ Position := ⟨5, 0⟩, IsDoor := true, Selectable := true, HasCollision := true }]
    GetPathFrom := fun o p => some [o, ⟨5, 0⟩, p] }

/-- A grid whose only blocked cell is (1,1). -/
def blockedAtOneOne (p : Position) : Bool := !(p.X == 1 && p.Y == 1)

/-- A living monster of the given name at (5,5) that is not a seal elite. -/
def namedMonster (name : NpcName) : Monster :=
  { UnitID := 1, MType := .Unique, Position := ⟨5, 5⟩, Life := 100, Raiser := false,
    Name := name, SealElite := false, Immunities := [] }

/-- A tick of the dragon loop on which unit 1, alive at distance 10, is selected,
nothing is near the agent and the movement toward the target fails. -/
def stuckTick : Tick :=
  { data := walkField [monsterAt 1 .None 10 0 10 false], selected := some 1, now := 0,
    clock := 0, rotationResult := true, respecced := false, moveToFails := true,
    dataAfterMove := walkField [monsterAt 1 .None 10 0 10 false], zealResult := true,
    zealResultAfterMove := true }

/-- A one-handed blade in the primary left-arm slot, with the given broken flag,
Indestructible stat and durability. -/
def bladeWith (broken indestructible : Bool) (durability : Option Int) : Item :=
  { UnitID := 7, BodyLocation := BodyLocation.LocLeftArm, MinDamage := 3, MaxDamage := 9,
    TwoHandMinDamage := 0, TwoHandMaxDamage := 0, MinMissileDamage := 0,
    MaxMissileDamage := 0, IsBroken := broken, Indestructible := indestructible,
    Durability := durability }

/-- A snapshot of a paladin with Charge on the left button and 20 mana, at the origin
of an open field outside town, with the given equipment, enemies and objects. -/
def chargeField (equipped : List Item) (enemies : List Monster) (objects : List Object) : Data :=
  { PlayerPosition := ⟨0, 0⟩, CanTeleport := false, Monsters := enemies,
    Enemies := enemies, IsWalkable := fun _ => true, GetPath := fun _ => none,
    Intersects := fun _ _ _ => false, Objects := objects, LeftSkill := SkillID.Charge,
    Mana := some 20, Equipped := equipped }

/-- The centre of a room: the corner moved by half the width and half the height. -/
def rectangleCenter (r : Room) : Position :=
  ⟨r.Position.X + Int.tdiv r.Width 2, r.Position.Y + Int.tdiv r.Height 2⟩

/-- The containment test of a room: the position lies within the rectangle, borders
included. -/
def rectangleContains (r : Room) (p : Position) : Bool :=
  decide (r.Position.X ≤ p.X ∧ p.X ≤ r.Position.X + r.Width
    ∧ r.Position.Y ≤ p.Y ∧ p.Y ≤ r.Position.Y + r.Height)

/-- A level of the given rooms with the player at the given position. -/
def levelWith (rooms : List Room) (player : Position) : Data :=
  { PlayerPosition := player, CanTeleport := false, Monsters := [], Enemies := [],
    IsWalkable := fun _ => true, GetPath := fun _ => none,
    Intersects := fun _ _ _ => false, Rooms := rooms }

/-- Two rooms of 20 by 20 cells side by side. -/
def twoRooms : List Room :=
  [{ Position := ⟨100, 100⟩, Width := 20, Height := 20 },
   { Position := ⟨120, 100⟩, Width := 20, Height := 20 }]

/-- Three entries of which the first and the last carry the same unit id: a near
super-unique, a unique, and a farther generic monster. -/
def sharedIdTierPack : List Monster :=
  [monsterAt 1 .SuperUnique 1 0 10 false, monsterAt 2 .Unique 2 0 10 false,
   monsterAt 1 .None 3 0 10 false]

/-- Three generic entries of which the first and the last carry the same unit id, the
first within melee range. -/
def sharedIdNearPack : List Monster :=
  [monsterAt 1 .None 1 0 10 false, monsterAt 2 .None 4 0 10 false,
   monsterAt 1 .None 5 0 10 false]

/-- Three generic entries of which the first and the last carry the same unit id, none
within melee range. -/
def sharedIdFarPack : List Monster :=
  [monsterAt 1 .None 6 0 10 false, monsterAt 2 .None 8 0 10 false,
   monsterAt 1 .None 9 0 10 false]

/-! ## Vocabulary of the properties -/

/-- The order a comparator sorts by: `a` may stand before `b`. -/
def NotAfter {α : Type} (cmp : α → α → Int) (a b : α) : Prop := ¬ cmp b a < 0

instance {α : Type} (cmp : α → α → Int) : DecidableRel (NotAfter cmp) :=
  fun a b => inferInstanceAs (Decidable (¬ cmp b a < 0))

/-- Line-of-sight rank read from the side table: 0 in sight, 1 out of sight. -/
def tableLosRank (t : SortTables) (m : Monster) : Int :=
  if t.lineOfSightByID m.UnitID then 0 else 1

/-- Tier rank of a monster: `monsterTypePriority` of its type. -/
def tierRank (m : Monster) : Int := monsterTypePriority m.MType

/-- Raiser rank of a monster: 0 for a raiser, 1 otherwise. -/
def raiserRank (m : Monster) : Int := if m.Raiser then 0 else 1

/-- Whether the monster is in line of sight of the agent. -/
def inLineOfSight (d : Data) (m : Monster) : Bool :=
  LineOfSight d.IsWalkable d.PlayerPosition m.Position

/-- Line-of-sight rank of a monster: 0 in sight, 1 out of sight. -/
def losRank (d : Data) (m : Monster) : Int := if inLineOfSight d m then 0 else 1

/-- The tables hold the monster's own values under its unit id. -/
def TablesHold (d : Data) (t : SortTables) (m : Monster) : Prop :=
  t.distanceByID m.UnitID = DistanceFromMe d m.Position ∧
  t.typeByID m.UnitID = tierRank m ∧
  t.raiserByID m.UnitID = raiserRank m ∧
  (d.CanTeleport = false → t.lineOfSightByID m.UnitID = inLineOfSight d m)

/-- The comparator `SortEnemiesByPriority` hands to the stable sort for this input. -/
def activeComparator (d : Data) (mainSkillRange : Int) (enemies : List Monster) :
    Monster → Monster → Int :=
  let t := enemies.foldl (fillTables d) emptyTables
  if d.CanTeleport then compareByTypeThenDistance t
  else if mainSkillRange ≤ MeleeRange ∨ t.meleeCount ≥ 2 then compareMelee t
  else compareDefault t

/-- Lexicographic order on (tier rank, raiser rank, distance from the agent): `a` may
stand before `b`. -/
def TierRaiserDistanceLe (d : Data) (a b : Monster) : Prop :=
  tierRank a < tierRank b ∨
    (tierRank a = tierRank b ∧
      (raiserRank a < raiserRank b ∨
        (raiserRank a = raiserRank b ∧
          DistanceFromMe d a.Position ≤ DistanceFromMe d b.Position)))

/-- Lexicographic order on (line-of-sight rank, distance from the agent). -/
def SightDistanceLe (d : Data) (a b : Monster) : Prop :=
  losRank d a < losRank d b ∨
    (losRank d a = losRank d b ∧ DistanceFromMe d a.Position ≤ DistanceFromMe d b.Position)

/-- Lexicographic order on (line-of-sight rank, tier rank, raiser rank, distance). -/
def SightTierRaiserDistanceLe (d : Data) (a b : Monster) : Prop :=
  losRank d a < losRank d b ∨ (losRank d a = losRank d b ∧ TierRaiserDistanceLe d a b)

/-- The number of listed enemies within melee range of the agent. -/
def withinMelee (d : Data) (enemies : List Monster) : Nat :=
  (enemies.filter (fun m => decide (DistanceFromMe d m.Position ≤ MeleeRange))).length

/-- The line test of `RetargetIfBlockedBeyondRange` on a position: its projection
falls strictly inside the segment agent→target and it lies within the padding of the
line. -/
def onLineToTarget (d : Data) (target candidate : Monster) : Bool :=
  let lineDX := target.Position.X - d.PlayerPosition.X
  let lineDY := target.Position.Y - d.PlayerPosition.Y
  let lineLenSq := lineDX * lineDX + lineDY * lineDY
  let offsetX := candidate.Position.X - d.PlayerPosition.X
  let offsetY := candidate.Position.Y - d.PlayerPosition.Y
  let dot := offsetX * lineDX + offsetY * lineDY
  let cross := offsetX * lineDY - offsetY * lineDX
  decide (0 < dot ∧ dot < lineLenSq ∧
    cross * cross ≤ pathBlockerPadding * pathBlockerPadding * lineLenSq)

/-- The path test of `RetargetIfBlockedBeyondRange` on a position: a non-empty path
to the target is found and the position intersects it within the padding. -/
def inPathToTarget (d : Data) (target candidate : Monster) : Bool :=
  match d.GetPath target.Position with
  | some path => decide (path.length > 0) && d.Intersects path candidate.Position pathBlockerPadding
  | none => false

/-- What the selection loop of `RetargetIfBlockedBeyondRange` holds after the enemies
`l`: nothing while no living enemy in line of sight was met, otherwise a nearest one. -/
def ClosestOf (d : Data) (l : List Monster) (c : Closest) : Prop :=
  (c.closestFound = false → ∀ x ∈ l, ¬ (0 < x.Life ∧ inLineOfSight d x = true)) ∧
  (c.closestFound = true →
    c.closest ∈ l ∧ 0 < c.closest.Life ∧ inLineOfSight d c.closest = true ∧
    c.closestDistance = DistanceFromMe d c.closest.Position ∧
    ∀ x ∈ l, 0 < x.Life → inLineOfSight d x = true →
      c.closestDistance ≤ DistanceFromMe d x.Position)

/-- The unit id a tick of the default and leveling loops engages: the id of the
substitute when the retargeting reports a change, else the selected id. -/
def effectiveTargetId (d : Data) (selectedId : Nat) (found : Monster) : Nat :=
  if (RetargetIfBlockedBeyondRange d found paladinMainSkillRange).2 then
    (RetargetIfBlockedBeyondRange d found paladinMainSkillRange).1.UnitID
  else selectedId

/-- The bookkeeping after the statement `if monsterId != lastTargetID`. -/
def recordTarget (s : Session) (monsterId : Nat) (now : Int) : Session :=
  if monsterId ≠ s.lastTargetID then { lastTargetID := monsterId, targetStart := some now }
  else s

/-- The cells the stepping loop of `LineOfSight` visits from `(x, y)` on, walkability
aside, in at most `fuel` iterations: the same stepping rule, collecting the cells. -/
def lineOfSightTraceLoop (destination : Position) (dx dy sx sy : Int) :
    Nat → Int → Int → Int → List Position
  | 0, _, _, _ => []
  | fuel + 1, err, x, y =>
    ⟨x, y⟩ ::
      (if x = destination.X ∧ y = destination.Y then []
       else
        let e2 := 2 * err
        let err1 := if e2 > -dy then err - dy else err
        let x1 := if e2 > -dy then x + sx else x
        let err2 := if e2 < dx then err1 + dx else err1
        let y1 := if e2 < dx then y + sy else y
        lineOfSightTraceLoop destination dx dy sx sy fuel err2 x1 y1)

/-- The integer stepping trace of `LineOfSight` from origin to destination. -/
def lineOfSightTrace (origin destination : Position) : List Position :=
  let dx : Int := (destination.X - origin.X).natAbs
  let dy : Int := (destination.Y - origin.Y).natAbs
  let sx : Int := if origin.X > destination.X then -1 else 1
  let sy : Int := if origin.Y > destination.Y then -1 else 1
  lineOfSightTraceLoop destination dx dy sx sy (lineOfSightFuel origin destination)
    (dx - dy) origin.X origin.Y

/-- The ideal straight segment between the centres of the cells `origin` and
`destination` passes through the open unit square of `cell`. -/
def segmentCrossesCell (origin destination cell : Position) : Prop :=
  ∃ t : ℚ, 0 ≤ t ∧ t ≤ 1 ∧
    |(origin.X : ℚ) + t * ((destination.X : ℚ) - origin.X) - cell.X| < 1 / 2 ∧
    |(origin.Y : ℚ) + t * ((destination.Y : ℚ) - origin.Y) - cell.Y| < 1 / 2

/-- The reference of the segment test in integers: for `origin == target` the plain
point-distance test; otherwise, with `d = target - origin` and `v = pos - origin`,
the projection parameter lies in [0, 1] (`0 ≤ v·d ≤ |d|²`) and the squared
perpendicular distance is within `padding²` (`(v×d)² ≤ padding²·|d|²`). -/
def segmentNearPointReference (origin target pos : Position) (padding : Int) : Bool :=
  if origin = target then
    decide ((pos.X - origin.X) * (pos.X - origin.X) + (pos.Y - origin.Y) * (pos.Y - origin.Y)
      ≤ padding * padding)
  else
    let dX := target.X - origin.X
    let dY := target.Y - origin.Y
    let vX := pos.X - origin.X
    let vY := pos.Y - origin.Y
    let dot := vX * dX + vY * dY
    let lenSq := dX * dX + dY * dY
    let cross := vX * dY - vY * dX
    decide (0 ≤ dot ∧ dot ≤ lenSq ∧ cross * cross ≤ padding * padding * lenSq)

/-- The bookkeeping at the start of each tick a loop reaches on the given ticks. -/
def sessionsReached {σ : Type} (tick : σ → Tick → List Event × Option σ) :
    σ → List Tick → List σ
  | _, [] => []
  | s, t :: ts =>
    s :: (match (tick s t).2 with
      | none => []
      | some s2 => sessionsReached tick s2 ts)

/-- The bookkeeping of the dragon loop after the statement `if id != lastTargetID`. -/
def recordDragonTarget (s : DragonSession) (id : Nat) (now : Int) : DragonSession :=
  if id ≠ s.lastTargetID then { s with lastTargetID := id, targetStart := some now } else s

/-- The tick of the dragon loop passes every gate and reaches the distance test: the
selected monster is found, alive, not ignored, passes `PreBattleChecks` and has not
timed out. -/
def DragonEngages (skipOnImmunities : List Resist) (s : DragonSession) (t : Tick) (id : Nat)
    (monster : Monster) : Prop :=
  t.selected = some id ∧ FindByID t.data.Monsters id = some monster ∧ 0 < monster.Life ∧
  PaladinDragon.ShouldIgnoreMonster t.data monster = false ∧
  PreBattleChecks t.data id skipOnImmunities = true ∧
  timedOut t.clock (recordDragonTarget s id t.now).targetStart = false

/-- One step of the trace along the x axis as major axis: one cell in x, at most one
in y. -/
def StepAlongX (a b : Position) : Prop :=
  (b.X - a.X).natAbs = 1 ∧ (b.Y - a.Y).natAbs ≤ 1

/-- One step of the trace along the y axis as major axis: one cell in y, at most one
in x. -/
def StepAlongY (a b : Position) : Prop :=
  (b.Y - a.Y).natAbs = 1 ∧ (b.X - a.X).natAbs ≤ 1

/-- One step of the trace from `origin` to `destination`: one cell along the major
axis (the one with the larger span) and at most one cell along the other. -/
def StepAlongMajor (origin destination : Position) (a b : Position) : Prop :=
  if (destination.Y - origin.Y).natAbs ≤ (destination.X - origin.X).natAbs then StepAlongX a b
  else StepAlongY a b

/-- The projection of `pos` onto the line agent→target falls strictly inside the
segment: `0 < dot < lineLenSq`. -/
def projectsStrictlyInside (agent target pos : Position) : Bool :=
  let dX := target.X - agent.X
  let dY := target.Y - agent.Y
  let dot := (pos.X - agent.X) * dX + (pos.Y - agent.Y) * dY
  decide (0 < dot ∧ dot < dX * dX + dY * dY)

/-- The rational number a finite binary floating-point value stands for. -/
def Binary64.toRat (x : Binary64) : ℚ := (x.mant : ℚ) * (2 : ℚ) ^ x.expo

/-- Truncation of a rational number toward zero. -/
def truncRat (q : ℚ) : Int := if 0 ≤ q then ⌊q⌋ else ⌈q⌉

/-- The projection as the formula reads in exact arithmetic:
`trunc((dx - dy) * 19.8 + W/2)` and `trunc((dx + dy) * 9.9 + H/2)`, with integer
halves and truncation toward zero. -/
def screenCoordsReference (GameAreaSizeX GameAreaSizeY : Int)
    (playerX playerY destinationX destinationY : Int) : Int × Int :=
  let dx := destinationX - playerX
  let dy := destinationY - playerY
  (truncRat (((dx - dy : Int) : ℚ) * (198 / 10) + ((Int.tdiv GameAreaSizeX 2 : Int) : ℚ)),
   truncRat (((dx + dy : Int) : ℚ) * (99 / 10) + ((Int.tdiv GameAreaSizeY 2 : Int) : ℚ)))

instance (d : Data) : DecidableRel (TierRaiserDistanceLe d) :=
  fun a b => inferInstanceAs (Decidable (tierRank a < tierRank b ∨
    (tierRank a = tierRank b ∧
      (raiserRank a < raiserRank b ∨
        (raiserRank a = raiserRank b ∧
          DistanceFromMe d a.Position ≤ DistanceFromMe d b.Position)))))

instance (d : Data) : DecidableRel (SightDistanceLe d) :=
  fun a b => inferInstanceAs (Decidable (losRank d a < losRank d b ∨
    (losRank d a = losRank d b ∧ DistanceFromMe d a.Position ≤ DistanceFromMe d b.Position)))

instance (d : Data) : DecidableRel (SightTierRaiserDistanceLe d) :=
  fun a b => inferInstanceAs (Decidable (losRank d a < losRank d b ∨
    (losRank d a = losRank d b ∧ TierRaiserDistanceLe d a b)))

/-! # Theorems -/

/-! ## The distance is the integer square root -/

theorem floorSqrtFrom_eq_sqrt (n : Nat) :
    ∀ k : Nat, n < (k + 1) * (k + 1) → floorSqrtFrom n k = Nat.sqrt n := by
  intro k
  induction k with
  | zero =>
    intro h
    have hn : n = 0 := by omega
    subst hn
    simp [floorSqrtFrom]
  | succ k ih =>
    intro h
    unfold floorSqrtFrom
    by_cases hle : (k + 1) * (k + 1) ≤ n
    · rw [if_pos hle]
      exact Nat.eq_sqrt.mpr ⟨hle, h⟩
    · rw [if_neg hle]
      exact ih (by omega)

/-- The truncated square root of the embedding is the integer square root. -/
theorem floorSqrt_eq_sqrt (n : Nat) : floorSqrt n = Nat.sqrt n := by
  unfold floorSqrt
  apply floorSqrtFrom_eq_sqrt
  nlinarith

/-! ## The stepping loop of `LineOfSight` returns -/

section LineOfSightTermination

/-- From step counts `i ≤ dx`, `j ≤ dy` along the two axes the loop returns within
`(dx - i) + (dy - j) + 1` iterations. -/
theorem lineOfSightLoop_isSome_aux (walkable : Position → Bool) (destination : Position)
    (ox oy dx dy sx sy : Int) (hdx : 0 ≤ dx) (hdy : 0 ≤ dy)
    (hX : destination.X = ox + sx * dx) (hY : destination.Y = oy + sy * dy) :
    ∀ (fuel : Nat) (i j : Int), 0 ≤ i → i ≤ dx → 0 ≤ j → j ≤ dy →
      (dx - i) + (dy - j) + 1 ≤ (fuel : Int) →
      (lineOfSightLoop walkable destination dx dy sx sy fuel
        (dx - dy - i * dy + j * dx) (ox + sx * i) (oy + sy * j)).isSome = true := by
  intro fuel
  induction fuel with
  | zero => intro i j _ hi _ hj hf; simp at hf; omega
  | succ fuel ih =>
    intro i j hi0 hi hj0 hj hf
    have step : ∀ (i2 j2 e x y : Int), 0 ≤ i2 → i2 ≤ dx → 0 ≤ j2 → j2 ≤ dy →
        (dx - i2) + (dy - j2) + 1 ≤ (fuel : Int) →
        e = dx - dy - i2 * dy + j2 * dx → x = ox + sx * i2 → y = oy + sy * j2 →
        (lineOfSightLoop walkable destination dx dy sx sy fuel e x y).isSome = true := by
      intro i2 j2 e x y h1 h2 h3 h4 h5 he hx hy
      subst he hx hy
      exact ih i2 j2 h1 h2 h3 h4 h5
    unfold lineOfSightLoop
    by_cases hw : walkable ⟨ox + sx * i, oy + sy * j⟩ = false
    · rw [if_pos hw]
      rfl
    by_cases hdest : ox + sx * i = destination.X ∧ oy + sy * j = destination.Y
    · rw [if_neg hw, if_pos hdest]
      rfl
    rw [if_neg hw, if_neg hdest]
    simp only []
    have hnot : ¬ (i = dx ∧ j = dy) := by
      rintro ⟨h1, h2⟩
      exact hdest ⟨by rw [hX, h1], by rw [hY, h2]⟩
    have hxEnd : i = dx → ¬ (2 * (dx - dy - i * dy + j * dx) > -dy) := by
      intro h1
      subst h1
      have hj2 : j < dy := by
        rcases lt_or_eq_of_le hj with h | h
        · exact h
        · exact absurd ⟨rfl, h⟩ hnot
      have := mul_nonneg hi0 (by omega : 0 ≤ dy - 1 - j)
      nlinarith
    have hyEnd : j = dy → ¬ (2 * (dx - dy - i * dy + j * dx) < dx) := by
      intro h1
      subst h1
      have hi2 : i < dx := by
        rcases lt_or_eq_of_le hi with h | h
        · exact h
        · exact absurd ⟨h, rfl⟩ hnot
      have := mul_nonneg hj0 (by omega : 0 ≤ dx - 1 - i)
      nlinarith
    have hsome : 2 * (dx - dy - i * dy + j * dx) > -dy ∨ 2 * (dx - dy - i * dy + j * dx) < dx := by
      by_contra hcon
      push_neg at hcon
      have h0 : dx = 0 ∧ dy = 0 := by omega
      exact hnot ⟨by omega, by omega⟩
    by_cases hxs : 2 * (dx - dy - i * dy + j * dx) > -dy
    · have hi2 : i < dx := by
        rcases lt_or_eq_of_le hi with h | h
        · exact h
        · exact absurd hxs (hxEnd h)
      by_cases hys : 2 * (dx - dy - i * dy + j * dx) < dx
      · have hj2 : j < dy := by
          rcases lt_or_eq_of_le hj with h | h
          · exact h
          · exact absurd hys (hyEnd h)
        simp only [hxs, hys, if_true]
        exact step (i + 1) (j + 1) _ _ _ (by omega) (by omega) (by omega) (by omega) (by omega)
          (by ring) (by ring) (by ring)
      · simp only [hxs, hys, if_true, if_false]
        exact step (i + 1) j _ _ _ (by omega) (by omega) (by omega) (by omega) (by omega)
          (by ring) (by ring) (by ring)
    · have hys : 2 * (dx - dy - i * dy + j * dx) < dx := hsome.resolve_left hxs
      have hj2 : j < dy := by
        rcases lt_or_eq_of_le hj with h | h
        · exact h
        · exact absurd hys (hyEnd h)
      simp only [hxs, hys, if_true, if_false]
      exact step i (j + 1) _ _ _ (by omega) (by omega) (by omega) (by omega) (by omega)
        (by ring) (by ring) (by ring)

/-- The loop of `LineOfSight` returns within the iterations it is given: the method
is total. -/
theorem lineOfSightRun_isSome (walkable : Position → Bool) (origin destination : Position) :
    (lineOfSightRun walkable origin destination).isSome = true := by
  unfold lineOfSightRun lineOfSightFuel
  simp only []
  have h := lineOfSightLoop_isSome_aux walkable destination origin.X origin.Y
    ((destination.X - origin.X).natAbs : Int) ((destination.Y - origin.Y).natAbs : Int)
    (if origin.X > destination.X then -1 else 1) (if origin.Y > destination.Y then -1 else 1)
    (by omega) (by omega)
    (by split_ifs <;> omega) (by split_ifs <;> omega)
    ((destination.X - origin.X).natAbs + (destination.Y - origin.Y).natAbs + 1) 0 0
    (le_refl _) (by omega) (le_refl _) (by omega) (by push_cast; omega)
  simpa using h

/-- A true `LineOfSight` is a loop run that returned true. -/
theorem LineOfSight_eq_true_iff (walkable : Position → Bool) (origin destination : Position) :
    LineOfSight walkable origin destination = true ↔
      lineOfSightRun walkable origin destination = some true := by
  unfold LineOfSight
  have h := lineOfSightRun_isSome walkable origin destination
  cases hr : lineOfSightRun walkable origin destination with
  | none => simp [hr] at h
  | some b => simp

end LineOfSightTermination

/-! ## Properties of the stable sort -/

section StableSort

variable {α : Type}

theorem insertLeftward_eq_orderedInsert (cmp : α → α → Int) (x : α) (l : List α) :
    insertLeftward cmp x l = List.orderedInsert (fun a b => NotAfter cmp b a) x l := by
  induction l with
  | nil => rfl
  | cons y ys ih =>
    by_cases h : cmp x y < 0
    · simp [insertLeftward, List.orderedInsert, NotAfter, h, ih]
    · simp [insertLeftward, List.orderedInsert, NotAfter, h]

theorem foldl_insertLeftward (cmp : α → α → Int) (l acc : List α) :
    l.foldl (fun sortedRev x => insertLeftward cmp x sortedRev) acc
      = (l.reverse).foldr (fun x sortedRev => insertLeftward cmp x sortedRev) acc := by
  induction l generalizing acc with
  | nil => rfl
  | cons a l ih =>
    rw [List.foldl_cons, ih, List.reverse_cons, List.foldr_append]
    rfl

theorem foldr_insertLeftward (cmp : α → α → Int) (l : List α) :
    l.foldr (fun x sortedRev => insertLeftward cmp x sortedRev) []
      = List.insertionSort (fun a b => NotAfter cmp b a) l := by
  induction l with
  | nil => rfl
  | cons a l ih =>
    rw [List.foldr_cons, ih, insertLeftward_eq_orderedInsert]
    rfl

/-- The stable sort is an insertion sort of the reversed slice, read backwards. -/
theorem SortStableFunc_eq (cmp : α → α → Int) (l : List α) :
    SortStableFunc cmp l
      = (List.insertionSort (fun a b => NotAfter cmp b a) l.reverse).reverse := by
  unfold SortStableFunc
  rw [foldl_insertLeftward, foldr_insertLeftward]

theorem SortStableFunc_perm (cmp : α → α → Int) (l : List α) :
    (SortStableFunc cmp l).Perm l := by
  rw [SortStableFunc_eq]
  exact (List.reverse_perm _).trans ((List.perm_insertionSort _ _).trans (List.reverse_perm _))

/-- Stability: a pair the comparator does not order the other way keeps its order. -/
theorem SortStableFunc_stable (cmp : α → α → Int) (l : List α) (a b : α)
    (hab : NotAfter cmp a b) (h : [a, b].Sublist l) :
    [a, b].Sublist (SortStableFunc cmp l) := by
  rw [SortStableFunc_eq]
  have h1 : [b, a].Sublist l.reverse := by
    have := h.reverse
    simpa using this
  have h2 := List.pair_sublist_insertionSort (r := fun a b => NotAfter cmp b a) hab h1
  have h3 := h2.reverse
  simpa using h3

/-- Sortedness: for a comparator whose `< 0` is asymmetric and whose `NotAfter` is
transitive, no entry of the result stands after one it must precede. -/
theorem SortStableFunc_pairwise (cmp : α → α → Int)
    (hasym : ∀ a b, cmp a b < 0 → ¬ cmp b a < 0)
    (htrans : ∀ a b c, NotAfter cmp a b → NotAfter cmp b c → NotAfter cmp a c)
    (l : List α) : (SortStableFunc cmp l).Pairwise (NotAfter cmp) := by
  rw [SortStableFunc_eq, List.pairwise_reverse]
  haveI : IsTotal α (fun a b => NotAfter cmp b a) :=
    ⟨fun a b => by
      by_cases h : cmp a b < 0
      · exact Or.inr (hasym a b h)
      · exact Or.inl h⟩
  haveI : IsTrans α (fun a b => NotAfter cmp b a) :=
    ⟨fun a b c hab hbc => htrans c b a hbc hab⟩
  exact List.sorted_insertionSort (fun a b => NotAfter cmp b a) l.reverse

/-- Two distinct members of a list stand in one order or the other. -/
theorem pair_sublist_or (l : List α) (a b : α) (ha : a ∈ l) (hb : b ∈ l) (hne : a ≠ b) :
    [a, b].Sublist l ∨ [b, a].Sublist l := by
  induction l with
  | nil => simp at ha
  | cons x xs ih =>
    rcases List.mem_cons.mp ha with rfl | ha2
    · rcases List.mem_cons.mp hb with rfl | hb2
      · exact absurd rfl hne
      · exact Or.inl (List.Sublist.cons₂ _ (List.singleton_sublist.mpr hb2))
    · rcases List.mem_cons.mp hb with rfl | hb2
      · exact Or.inr (List.Sublist.cons₂ _ (List.singleton_sublist.mpr ha2))
      · rcases ih ha2 hb2 with h | h
        · exact Or.inl (h.cons _)
        · exact Or.inr (h.cons _)

/-- In a pairwise-related list every pair standing in list order is related. -/
theorem pairwise_of_pair_sublist {R : α → α → Prop} {l : List α} (hp : l.Pairwise R)
    {a b : α} (h : [a, b].Sublist l) : R a b := by
  have := hp.sublist h
  simpa using this

end StableSort

/-! ## The comparators are strict weak orders on the table keys -/

section Comparators

theorem compareByDistance_neg (t : SortTables) (a b : Monster) :
    compareByDistance t a b < 0 ↔ t.distanceByID a.UnitID < t.distanceByID b.UnitID := by
  unfold compareByDistance
  simp only []
  split_ifs <;> omega

theorem compareByTypeThenDistance_neg (t : SortTables) (a b : Monster) :
    compareByTypeThenDistance t a b < 0 ↔
      (t.typeByID a.UnitID < t.typeByID b.UnitID ∨
        (t.typeByID a.UnitID = t.typeByID b.UnitID ∧
          (t.raiserByID a.UnitID < t.raiserByID b.UnitID ∨
            (t.raiserByID a.UnitID = t.raiserByID b.UnitID ∧
              t.distanceByID a.UnitID < t.distanceByID b.UnitID)))) := by
  unfold compareByTypeThenDistance compareByDistance
  simp only []
  split_ifs <;> omega

theorem compareByLineOfSight_neg (t : SortTables) (a b : Monster) :
    compareByLineOfSight t a b < 0 ↔ tableLosRank t a < tableLosRank t b := by
  unfold compareByLineOfSight tableLosRank
  cases t.lineOfSightByID a.UnitID <;> cases t.lineOfSightByID b.UnitID <;> simp

theorem compareByLineOfSight_zero (t : SortTables) (a b : Monster) :
    compareByLineOfSight t a b = 0 ↔ tableLosRank t a = tableLosRank t b := by
  unfold compareByLineOfSight tableLosRank
  cases t.lineOfSightByID a.UnitID <;> cases t.lineOfSightByID b.UnitID <;> simp

theorem compareMelee_neg (t : SortTables) (a b : Monster) :
    compareMelee t a b < 0 ↔
      (tableLosRank t a < tableLosRank t b ∨
        (tableLosRank t a = tableLosRank t b ∧
          t.distanceByID a.UnitID < t.distanceByID b.UnitID)) := by
  have h1 := compareByLineOfSight_neg t a b
  have h2 := compareByLineOfSight_zero t a b
  have h3 := compareByDistance_neg t a b
  unfold compareMelee
  simp only []
  split_ifs <;> omega

theorem compareDefault_neg (t : SortTables) (a b : Monster) :
    compareDefault t a b < 0 ↔
      (tableLosRank t a < tableLosRank t b ∨
        (tableLosRank t a = tableLosRank t b ∧
          (t.typeByID a.UnitID < t.typeByID b.UnitID ∨
            (t.typeByID a.UnitID = t.typeByID b.UnitID ∧
              (t.raiserByID a.UnitID < t.raiserByID b.UnitID ∨
                (t.raiserByID a.UnitID = t.raiserByID b.UnitID ∧
                  t.distanceByID a.UnitID < t.distanceByID b.UnitID)))))) := by
  have h1 := compareByLineOfSight_neg t a b
  have h2 := compareByLineOfSight_zero t a b
  have h3 := compareByTypeThenDistance_neg t a b
  unfold compareDefault
  simp only []
  split_ifs <;> omega

theorem compareByTypeThenDistance_asymm (t : SortTables) (a b : Monster)
    (h : compareByTypeThenDistance t a b < 0) : ¬ compareByTypeThenDistance t b a < 0 := by
  rw [compareByTypeThenDistance_neg] at *
  omega

theorem compareByTypeThenDistance_trans (t : SortTables) (a b c : Monster)
    (hab : NotAfter (compareByTypeThenDistance t) a b)
    (hbc : NotAfter (compareByTypeThenDistance t) b c) :
    NotAfter (compareByTypeThenDistance t) a c := by
  unfold NotAfter at *
  rw [compareByTypeThenDistance_neg] at *
  omega

theorem compareMelee_asymm (t : SortTables) (a b : Monster)
    (h : compareMelee t a b < 0) : ¬ compareMelee t b a < 0 := by
  rw [compareMelee_neg] at *
  omega

theorem compareMelee_trans (t : SortTables) (a b c : Monster)
    (hab : NotAfter (compareMelee t) a b) (hbc : NotAfter (compareMelee t) b c) :
    NotAfter (compareMelee t) a c := by
  unfold NotAfter at *
  rw [compareMelee_neg] at *
  omega

theorem compareDefault_asymm (t : SortTables) (a b : Monster)
    (h : compareDefault t a b < 0) : ¬ compareDefault t b a < 0 := by
  rw [compareDefault_neg] at *
  omega

theorem compareDefault_trans (t : SortTables) (a b c : Monster)
    (hab : NotAfter (compareDefault t) a b) (hbc : NotAfter (compareDefault t) b c) :
    NotAfter (compareDefault t) a c := by
  unfold NotAfter at *
  rw [compareDefault_neg] at *
  omega

theorem compareByTypeThenDistance_zero_notAfter (t : SortTables) (a b : Monster)
    (h : compareByTypeThenDistance t a b = 0) : NotAfter (compareByTypeThenDistance t) a b := by
  have h1 := compareByTypeThenDistance_neg t b a
  unfold NotAfter
  rw [h1]
  unfold compareByTypeThenDistance compareByDistance at h
  simp only [] at h
  split_ifs at h <;> omega

theorem compareMelee_zero_notAfter (t : SortTables) (a b : Monster)
    (h : compareMelee t a b = 0) : NotAfter (compareMelee t) a b := by
  have h1 := compareMelee_neg t b a
  have h2 := compareByLineOfSight_zero t a b
  unfold NotAfter
  rw [h1]
  unfold compareMelee compareByDistance at h
  simp only [] at h
  split_ifs at h <;> omega

theorem compareDefault_zero_notAfter (t : SortTables) (a b : Monster)
    (h : compareDefault t a b = 0) : NotAfter (compareDefault t) a b := by
  have h1 := compareDefault_neg t b a
  have h2 := compareByLineOfSight_zero t a b
  unfold NotAfter
  rw [h1]
  unfold compareDefault compareByTypeThenDistance compareByDistance at h
  simp only [] at h
  split_ifs at h <;> omega

end Comparators

/-! ## What the side tables hold -/

section Tables

theorem fillTables_other (d : Data) (t : SortTables) (m : Monster) (k : Nat)
    (hk : k ≠ m.UnitID) :
    (fillTables d t m).distanceByID k = t.distanceByID k ∧
    (fillTables d t m).typeByID k = t.typeByID k ∧
    (fillTables d t m).raiserByID k = t.raiserByID k ∧
    (fillTables d t m).lineOfSightByID k = t.lineOfSightByID k := by
  unfold fillTables mapSet
  cases d.CanTeleport <;> simp [hk]

theorem fillTables_self (d : Data) (t : SortTables) (m : Monster) :
    TablesHold d (fillTables d t m) m := by
  unfold TablesHold fillTables mapSet tierRank raiserRank inLineOfSight
  cases d.CanTeleport <;> simp

theorem foldl_fillTables_other (d : Data) (l : List Monster) (t : SortTables) (k : Nat)
    (hk : k ∉ l.map Monster.UnitID) :
    (l.foldl (fillTables d) t).distanceByID k = t.distanceByID k ∧
    (l.foldl (fillTables d) t).typeByID k = t.typeByID k ∧
    (l.foldl (fillTables d) t).raiserByID k = t.raiserByID k ∧
    (l.foldl (fillTables d) t).lineOfSightByID k = t.lineOfSightByID k := by
  induction l generalizing t with
  | nil => simp
  | cons a l ih =>
    simp only [List.map_cons, List.mem_cons, not_or] at hk
    have h1 := ih (fillTables d t a) hk.2
    have h2 := fillTables_other d t a k hk.1
    simp only [List.foldl_cons]
    exact ⟨h1.1.trans h2.1, h1.2.1.trans h2.2.1, h1.2.2.1.trans h2.2.2.1,
      h1.2.2.2.trans h2.2.2.2⟩

/-- With pairwise distinct unit ids, the filled tables hold every listed monster's
own distance, tier rank, raiser rank and line-of-sight flag. -/
theorem foldl_fillTables_hold (d : Data) (l : List Monster) (t : SortTables)
    (hnd : (l.map Monster.UnitID).Nodup) (m : Monster) (hm : m ∈ l) :
    TablesHold d (l.foldl (fillTables d) t) m := by
  induction l generalizing t with
  | nil => simp at hm
  | cons a l ih =>
    simp only [List.map_cons, List.nodup_cons] at hnd
    simp only [List.foldl_cons]
    rcases List.mem_cons.mp hm with rfl | hm2
    · have h1 := foldl_fillTables_other d l (fillTables d t m) m.UnitID hnd.1
      have h2 := fillTables_self d t m
      unfold TablesHold at *
      exact ⟨h1.1.trans h2.1, h1.2.1.trans h2.2.1, h1.2.2.1.trans h2.2.2.1,
        fun hc => h1.2.2.2.trans (h2.2.2.2 hc)⟩
    · exact ih (fillTables d t a) hnd.2 hm2

/-- The melee tally counts the listed monsters within melee range when the agent
cannot teleport, and stays untouched when it can. -/
theorem foldl_fillTables_meleeCount (d : Data) (l : List Monster) (t : SortTables) :
    (l.foldl (fillTables d) t).meleeCount = t.meleeCount +
      (if d.CanTeleport then 0
       else (withinMelee d l : Int)) := by
  induction l generalizing t with
  | nil => simp [withinMelee]
  | cons a l ih =>
    simp only [List.foldl_cons]
    rw [ih (fillTables d t a)]
    unfold fillTables withinMelee
    cases hc : d.CanTeleport
    · by_cases hd : DistanceFromMe d a.Position ≤ MeleeRange
      · simp [hd, List.filter_cons]
        omega
      · simp [hd, List.filter_cons]
    · simp

end Tables

/-! ## Enemy prioritiser: stability and the three orders -/

section Prioritiser

theorem pairwise_of_length_lt_two {α : Type} {R : α → α → Prop} (l : List α)
    (h : l.length < 2) : l.Pairwise R := by
  match l, h with
  | [], _ => exact List.Pairwise.nil
  | [x], _ => exact List.pairwise_singleton R x
  | _ :: _ :: _, h => simp only [List.length_cons] at h; omega

theorem SortEnemiesByPriority_eq (d : Data) (mainSkillRange : Int) (enemies : List Monster)
    (h : ¬ enemies.length < 2) :
    SortEnemiesByPriority d mainSkillRange enemies
      = SortStableFunc (activeComparator d mainSkillRange enemies) enemies := by
  unfold SortEnemiesByPriority activeComparator
  simp only [h, if_false]
  split_ifs <;> rfl

theorem SortEnemiesByPriority_perm (d : Data) (mainSkillRange : Int) (enemies : List Monster) :
    (SortEnemiesByPriority d mainSkillRange enemies).Perm enemies := by
  by_cases h : enemies.length < 2
  · unfold SortEnemiesByPriority
    simp [h]
  · rw [SortEnemiesByPriority_eq d mainSkillRange enemies h]
    exact SortStableFunc_perm _ _

theorem activeComparator_zero_notAfter (d : Data) (mainSkillRange : Int)
    (enemies : List Monster) (a b : Monster)
    (h : activeComparator d mainSkillRange enemies a b = 0) :
    NotAfter (activeComparator d mainSkillRange enemies) a b := by
  unfold activeComparator at *
  simp only [] at *
  split_ifs at * with h1 h2
  · exact compareByTypeThenDistance_zero_notAfter _ a b h
  · exact compareMelee_zero_notAfter _ a b h
  · exact compareDefault_zero_notAfter _ a b h

theorem tableLosRank_eq (d : Data) (t : SortTables) (m : Monster) (h : TablesHold d t m)
    (ht : d.CanTeleport = false) : tableLosRank t m = losRank d m := by
  unfold tableLosRank losRank
  rw [h.2.2.2 ht]

theorem losRank_cases (d : Data) (m : Monster) :
    (inLineOfSight d m = true ∧ losRank d m = 0) ∨
      (inLineOfSight d m = false ∧ losRank d m = 1) := by
  unfold losRank
  cases inLineOfSight d m <;> simp

/-- With the agent able to teleport, the result is sorted by (tier, raiser, distance). -/
theorem sort_teleport_pairwise (d : Data) (mainSkillRange : Int) (enemies : List Monster)
    (hnd : (enemies.map Monster.UnitID).Nodup) (ht : d.CanTeleport = true) :
    (SortEnemiesByPriority d mainSkillRange enemies).Pairwise (TierRaiserDistanceLe d) := by
  by_cases hlen : enemies.length < 2
  · unfold SortEnemiesByPriority
    simp only [hlen, if_true]
    exact pairwise_of_length_lt_two _ hlen
  · have hperm := SortEnemiesByPriority_perm d mainSkillRange enemies
    rw [SortEnemiesByPriority_eq d mainSkillRange enemies hlen] at hperm ⊢
    unfold activeComparator at hperm ⊢
    simp only [ht, if_true] at hperm ⊢
    have hp := SortStableFunc_pairwise
      (compareByTypeThenDistance (enemies.foldl (fillTables d) emptyTables))
      (compareByTypeThenDistance_asymm _) (compareByTypeThenDistance_trans _) enemies
    refine hp.imp_of_mem ?_
    intro a b ha hb hab
    have ha2 := foldl_fillTables_hold d enemies emptyTables hnd a (hperm.mem_iff.mp ha)
    have hb2 := foldl_fillTables_hold d enemies emptyTables hnd b (hperm.mem_iff.mp hb)
    unfold NotAfter at hab
    rw [compareByTypeThenDistance_neg] at hab
    unfold TablesHold at ha2 hb2
    unfold TierRaiserDistanceLe
    omega

/-- Without teleport, with a melee build or a surrounded agent, the result is sorted
by (line of sight, distance). -/
theorem sort_melee_pairwise (d : Data) (mainSkillRange : Int) (enemies : List Monster)
    (hnd : (enemies.map Monster.UnitID).Nodup) (ht : d.CanTeleport = false)
    (hm : mainSkillRange ≤ MeleeRange ∨ 2 ≤ withinMelee d enemies) :
    (SortEnemiesByPriority d mainSkillRange enemies).Pairwise (SightDistanceLe d) := by
  by_cases hlen : enemies.length < 2
  · unfold SortEnemiesByPriority
    simp only [hlen, if_true]
    exact pairwise_of_length_lt_two _ hlen
  · have hperm := SortEnemiesByPriority_perm d mainSkillRange enemies
    have hcount := foldl_fillTables_meleeCount d enemies emptyTables
    have hbranch : mainSkillRange ≤ MeleeRange ∨
        (enemies.foldl (fillTables d) emptyTables).meleeCount ≥ 2 := by
      rcases hm with h | h
      · exact Or.inl h
      · right
        rw [hcount, ht]
        simp [emptyTables]
        exact_mod_cast h
    rw [SortEnemiesByPriority_eq d mainSkillRange enemies hlen] at hperm ⊢
    unfold activeComparator at hperm ⊢
    simp only [ht, hbranch, if_true, Bool.false_eq_true, if_false] at hperm ⊢
    have hp := SortStableFunc_pairwise
      (compareMelee (enemies.foldl (fillTables d) emptyTables))
      (compareMelee_asymm _) (compareMelee_trans _) enemies
    refine hp.imp_of_mem ?_
    intro a b ha hb hab
    have ha2 := foldl_fillTables_hold d enemies emptyTables hnd a (hperm.mem_iff.mp ha)
    have hb2 := foldl_fillTables_hold d enemies emptyTables hnd b (hperm.mem_iff.mp hb)
    have ha3 := tableLosRank_eq d _ a ha2 ht
    have hb3 := tableLosRank_eq d _ b hb2 ht
    unfold NotAfter at hab
    rw [compareMelee_neg] at hab
    unfold TablesHold at ha2 hb2
    unfold SightDistanceLe
    omega

/-- Without teleport, with a ranged build that is not surrounded, the result is sorted
by (line of sight, tier, raiser, distance). -/
theorem sort_default_pairwise (d : Data) (mainSkillRange : Int) (enemies : List Monster)
    (hnd : (enemies.map Monster.UnitID).Nodup) (ht : d.CanTeleport = false)
    (hr : MeleeRange < mainSkillRange) (hm : withinMelee d enemies < 2) :
    (SortEnemiesByPriority d mainSkillRange enemies).Pairwise
      (SightTierRaiserDistanceLe d) := by
  by_cases hlen : enemies.length < 2
  · unfold SortEnemiesByPriority
    simp only [hlen, if_true]
    exact pairwise_of_length_lt_two _ hlen
  · have hperm := SortEnemiesByPriority_perm d mainSkillRange enemies
    have hcount := foldl_fillTables_meleeCount d enemies emptyTables
    have hbranch : ¬ (mainSkillRange ≤ MeleeRange ∨
        (enemies.foldl (fillTables d) emptyTables).meleeCount ≥ 2) := by
      rw [hcount, ht]
      simp [emptyTables]
      exact ⟨hr, by exact_mod_cast hm⟩
    rw [SortEnemiesByPriority_eq d mainSkillRange enemies hlen] at hperm ⊢
    unfold activeComparator at hperm ⊢
    simp only [ht, hbranch, Bool.false_eq_true, if_false] at hperm ⊢
    have hp := SortStableFunc_pairwise
      (compareDefault (enemies.foldl (fillTables d) emptyTables))
      (compareDefault_asymm _) (compareDefault_trans _) enemies
    refine hp.imp_of_mem ?_
    intro a b ha hb hab
    have ha2 := foldl_fillTables_hold d enemies emptyTables hnd a (hperm.mem_iff.mp ha)
    have hb2 := foldl_fillTables_hold d enemies emptyTables hnd b (hperm.mem_iff.mp hb)
    have ha3 := tableLosRank_eq d _ a ha2 ht
    have hb3 := tableLosRank_eq d _ b hb2 ht
    unfold NotAfter at hab
    rw [compareDefault_neg] at hab
    unfold TablesHold at ha2 hb2
    unfold SightTierRaiserDistanceLe TierRaiserDistanceLe
    omega

end Prioritiser

/-! ## Claims on the enemy prioritiser -/

/-- C1: for every list of enemies with pairwise distinct unit ids and every capability
state, `SortEnemiesByPriority` returns a stable reordering of its input: the result is
a permutation of the input (so its unit ids stay pairwise distinct), and two entries
that the active comparator ranks as equal (comparator result 0) keep their original
relative order. -/
theorem C1_sort_stable_reordering (d : Data) (mainSkillRange : Int) (enemies : List Monster)
    (hnd : (enemies.map Monster.UnitID).Nodup) :
    (SortEnemiesByPriority d mainSkillRange enemies).Perm enemies ∧
    ((SortEnemiesByPriority d mainSkillRange enemies).map Monster.UnitID).Nodup ∧
    ∀ a b : Monster, [a, b].Sublist enemies →
      activeComparator d mainSkillRange enemies a b = 0 →
      [a, b].Sublist (SortEnemiesByPriority d mainSkillRange enemies) := by
  have hperm := SortEnemiesByPriority_perm d mainSkillRange enemies
  refine ⟨hperm, (hperm.map Monster.UnitID).nodup_iff.mpr hnd, ?_⟩
  intro a b hsub hzero
  by_cases hlen : enemies.length < 2
  · unfold SortEnemiesByPriority
    simp only [hlen, if_true]
    exact hsub
  · rw [SortEnemiesByPriority_eq d mainSkillRange enemies hlen]
    exact SortStableFunc_stable _ enemies a b
      (activeComparator_zero_notAfter d mainSkillRange enemies a b hzero) hsub

/-- Witness of C1: the sample pack, agent unable to teleport, ranged build. -/
theorem C1_sort_stable_reordering_witness :
    (SortEnemiesByPriority (openField false samplePack) 12 samplePack).Perm samplePack :=
  (C1_sort_stable_reordering (openField false samplePack) 12 samplePack (by decide)).1

set_option maxRecDepth 100000 in
/-- C2 as stated fails when a unit id is listed twice: the side tables are keyed by
unit id, so the super-unique entry of unit 1 is ranked with the tier and distance of
the later generic entry of unit 1, and the unique unit 2 is placed before it. -/
theorem C2_counterexample :
    (openField true sharedIdTierPack).CanTeleport = true ∧
    SortEnemiesByPriority (openField true sharedIdTierPack) 12 sharedIdTierPack
      = [monsterAt 2 .Unique 2 0 10 false, monsterAt 1 .SuperUnique 1 0 10 false,
         monsterAt 1 .None 3 0 10 false] ∧
    ¬ (SortEnemiesByPriority (openField true sharedIdTierPack) 12 sharedIdTierPack).Pairwise
        (TierRaiserDistanceLe (openField true sharedIdTierPack)) ∧
    monsterTypePriority MonsterType.SuperUnique < monsterTypePriority MonsterType.Unique ∧
    ¬ [monsterAt 1 .SuperUnique 1 0 10 false, monsterAt 2 .Unique 2 0 10 false].Sublist
        (SortEnemiesByPriority (openField true sharedIdTierPack) 12 sharedIdTierPack) := by
  decide

/-- C2 (amended): when the agent can teleport and the listed enemies have pairwise
distinct unit ids, the list `SortEnemiesByPriority` produces is a permutation of its
input sorted lexicographically by (tier rank ascending, raisers before non-raisers,
distance from the agent ascending), tier rank being `monsterTypePriority`; in
particular, of two listed enemies with different tier ranks the one with the lower
rank comes first, whatever their distances. -/
theorem C2_teleport_order (d : Data) (mainSkillRange : Int) (enemies : List Monster)
    (hnd : (enemies.map Monster.UnitID).Nodup) (ht : d.CanTeleport = true) :
    (SortEnemiesByPriority d mainSkillRange enemies).Perm enemies ∧
    (SortEnemiesByPriority d mainSkillRange enemies).Pairwise (TierRaiserDistanceLe d) ∧
    (∀ a b : Monster, a ∈ enemies → b ∈ enemies →
      monsterTypePriority a.MType < monsterTypePriority b.MType →
      [a, b].Sublist (SortEnemiesByPriority d mainSkillRange enemies)) ∧
    (monsterTypePriority .SuperUnique = 0 ∧ monsterTypePriority .Unique = 1 ∧
      monsterTypePriority .Minion = 2 ∧ monsterTypePriority .Champion = 3 ∧
      monsterTypePriority .None = 4 ∧ monsterTypePriority .Other = 5) := by
  have hp := sort_teleport_pairwise d mainSkillRange enemies hnd ht
  have hperm := SortEnemiesByPriority_perm d mainSkillRange enemies
  refine ⟨hperm, hp, ?_, by decide⟩
  intro a b ha hb hlt
  have hne : a ≠ b := by
    rintro rfl
    exact lt_irrefl _ hlt
  rcases pair_sublist_or _ a b (hperm.mem_iff.mpr ha) (hperm.mem_iff.mpr hb) hne with h | h
  · exact h
  · have hba := pairwise_of_pair_sublist hp h
    unfold TierRaiserDistanceLe tierRank at hba
    omega

set_option maxRecDepth 100000 in
/-- Witness of C2: the sample pack with a teleporting agent comes out as the
super-unique, the champion, the generic monster. -/
theorem C2_teleport_order_witness :
    (samplePack.map Monster.UnitID).Nodup ∧
    SortEnemiesByPriority (openField true samplePack) 12 samplePack
      = [monsterAt 2 .SuperUnique 9 0 10 false, monsterAt 3 .Champion 1 1 10 true,
         monsterAt 1 .None 2 0 10 false] ∧
    (SortEnemiesByPriority (openField true samplePack) 12 samplePack).Perm samplePack ∧
    (SortEnemiesByPriority (openField true samplePack) 12 samplePack).Pairwise
      (TierRaiserDistanceLe (openField true samplePack)) :=
  have h := C2_teleport_order (openField true samplePack) 12 samplePack (by decide) rfl
  ⟨by decide, by decide, h.1, h.2.1⟩

set_option maxRecDepth 100000 in
/-- C3 as stated fails when a unit id is listed twice: with a melee build and no
teleport, the entry of unit 1 at distance 1 is ranked with the distance 5 of the later
entry of unit 1, and unit 2 at distance 4 is placed before it, both in line of
sight. -/
theorem C3_counterexample :
    (openField false sharedIdNearPack).CanTeleport = false ∧ (1 : Int) ≤ MeleeRange ∧
    SortEnemiesByPriority (openField false sharedIdNearPack) 1 sharedIdNearPack
      = [monsterAt 2 .None 4 0 10 false, monsterAt 1 .None 1 0 10 false,
         monsterAt 1 .None 5 0 10 false] ∧
    inLineOfSight (openField false sharedIdNearPack) (monsterAt 2 .None 4 0 10 false)
      = inLineOfSight (openField false sharedIdNearPack) (monsterAt 1 .None 1 0 10 false) ∧
    DistanceFromMe (openField false sharedIdNearPack) (monsterAt 1 .None 1 0 10 false).Position
      < DistanceFromMe (openField false sharedIdNearPack)
          (monsterAt 2 .None 4 0 10 false).Position ∧
    ¬ (SortEnemiesByPriority (openField false sharedIdNearPack) 1 sharedIdNearPack).Pairwise
        (SightDistanceLe (openField false sharedIdNearPack)) := by
  decide

/-- C3 (amended): when the agent cannot teleport, the listed enemies have pairwise
distinct unit ids, and either the build's `MainSkillRange` is at most `MeleeRange` (3)
or at least two listed enemies are at distance at most `MeleeRange`, the list
`SortEnemiesByPriority` produces is a permutation of its input ordered by (in line of
sight first, distance ascending), tier and raiser flag playing no part: no enemy out
of line of sight precedes one in line of sight, and among enemies of the same
line-of-sight status distances are non-decreasing. -/
theorem C3_melee_order (d : Data) (mainSkillRange : Int) (enemies : List Monster)
    (hnd : (enemies.map Monster.UnitID).Nodup) (ht : d.CanTeleport = false)
    (hm : mainSkillRange ≤ MeleeRange ∨ 2 ≤ withinMelee d enemies) :
    (SortEnemiesByPriority d mainSkillRange enemies).Perm enemies ∧
    (SortEnemiesByPriority d mainSkillRange enemies).Pairwise (SightDistanceLe d) ∧
    (SortEnemiesByPriority d mainSkillRange enemies).Pairwise (fun a b =>
      ¬ (inLineOfSight d a = false ∧ inLineOfSight d b = true) ∧
      (inLineOfSight d a = inLineOfSight d b →
        DistanceFromMe d a.Position ≤ DistanceFromMe d b.Position)) := by
  have hp := sort_melee_pairwise d mainSkillRange enemies hnd ht hm
  refine ⟨SortEnemiesByPriority_perm d mainSkillRange enemies, hp, hp.imp ?_⟩
  intro a b hab
  unfold SightDistanceLe at hab
  rcases losRank_cases d a with ⟨ha1, ha2⟩ | ⟨ha1, ha2⟩ <;>
    rcases losRank_cases d b with ⟨hb1, hb2⟩ | ⟨hb1, hb2⟩ <;>
    simp only [ha1, hb1, ha2, hb2] at hab ⊢ <;> simp <;> omega

set_option maxRecDepth 100000 in
/-- Witness of C3: the sample pack (two enemies within melee range), no teleport,
comes out by distance: the champion, the generic monster, the super-unique. -/
theorem C3_melee_order_witness :
    (samplePack.map Monster.UnitID).Nodup ∧
    SortEnemiesByPriority (openField false samplePack) 12 samplePack
      = [monsterAt 3 .Champion 1 1 10 true, monsterAt 1 .None 2 0 10 false,
         monsterAt 2 .SuperUnique 9 0 10 false] ∧
    (SortEnemiesByPriority (openField false samplePack) 12 samplePack).Perm samplePack ∧
    (SortEnemiesByPriority (openField false samplePack) 12 samplePack).Pairwise
      (SightDistanceLe (openField false samplePack)) :=
  have h := C3_melee_order (openField false samplePack) 12 samplePack (by decide) rfl
    (Or.inr (by decide))
  ⟨by decide, by decide, h.1, h.2.1⟩

set_option maxRecDepth 100000 in
/-- C4 as stated fails when a unit id is listed twice: with a ranged build, no
teleport and no enemy within melee range, the entry of unit 1 at distance 6 is ranked
with the distance 9 of the later entry of unit 1, and unit 2 at distance 8, of the
same sight, tier and raiser rank, is placed before it. -/
theorem C4_counterexample :
    (openField false sharedIdFarPack).CanTeleport = false ∧ MeleeRange < (12 : Int) ∧
    withinMelee (openField false sharedIdFarPack) sharedIdFarPack < 2 ∧
    SortEnemiesByPriority (openField false sharedIdFarPack) 12 sharedIdFarPack
      = [monsterAt 2 .None 8 0 10 false, monsterAt 1 .None 6 0 10 false,
         monsterAt 1 .None 9 0 10 false] ∧
    DistanceFromMe (openField false sharedIdFarPack) (monsterAt 1 .None 6 0 10 false).Position
      < DistanceFromMe (openField false sharedIdFarPack)
          (monsterAt 2 .None 8 0 10 false).Position ∧
    ¬ (SortEnemiesByPriority (openField false sharedIdFarPack) 12 sharedIdFarPack).Pairwise
        (SightTierRaiserDistanceLe (openField false sharedIdFarPack)) := by
  decide

/-- C4 (amended): when the agent cannot teleport, the listed enemies have pairwise
distinct unit ids, the build's `MainSkillRange` exceeds `MeleeRange` (3) and fewer than
two listed enemies are within `MeleeRange`, the list `SortEnemiesByPriority` produces
is a permutation of its input sorted lexicographically by (in line of sight first,
tier rank ascending, raisers before non-raisers, distance ascending). -/
theorem C4_default_order (d : Data) (mainSkillRange : Int) (enemies : List Monster)
    (hnd : (enemies.map Monster.UnitID).Nodup) (ht : d.CanTeleport = false)
    (hr : MeleeRange < mainSkillRange) (hm : withinMelee d enemies < 2) :
    (SortEnemiesByPriority d mainSkillRange enemies).Perm enemies ∧
    (SortEnemiesByPriority d mainSkillRange enemies).Pairwise
      (SightTierRaiserDistanceLe d) :=
  ⟨SortEnemiesByPriority_perm d mainSkillRange enemies,
    sort_default_pairwise d mainSkillRange enemies hnd ht hr hm⟩

set_option maxRecDepth 100000 in
/-- Witness of C4: the spread pack, no teleport, main skill range 12, comes out by
tier: the super-unique, the champion, the generic monster. -/
theorem C4_default_order_witness :
    (spreadPack.map Monster.UnitID).Nodup ∧
    SortEnemiesByPriority (openField false spreadPack) 12 spreadPack
      = [monsterAt 2 .SuperUnique 9 0 10 false, monsterAt 3 .Champion 1 1 10 true,
         monsterAt 1 .None 5 0 10 false] ∧
    (SortEnemiesByPriority (openField false spreadPack) 12 spreadPack).Perm spreadPack ∧
    (SortEnemiesByPriority (openField false spreadPack) 12 spreadPack).Pairwise
      (SightTierRaiserDistanceLe (openField false spreadPack)) :=
  have h := C4_default_order (openField false spreadPack) 12 spreadPack (by decide) rfl
    (by decide) (by decide)
  ⟨by decide, by decide, h.1, h.2⟩

/-! ## Claims on the retargeting heuristic -/

section Retargeting

theorem blocksLine_true (d : Data) (target candidate : Monster)
    (h : blocksLine d target (DistanceFromMe d target.Position) candidate = true) :
    candidate.UnitID ≠ target.UnitID ∧ 0 < candidate.Life ∧
      DistanceFromMe d candidate.Position < DistanceFromMe d target.Position ∧
      onLineToTarget d target candidate = true := by
  unfold blocksLine at h
  simp only [] at h
  split_ifs at h with h1 h2 h3 h4
  unfold onLineToTarget pathBlockerPadding at *
  simp only [decide_eq_true_eq] at h ⊢
  refine ⟨h1, by omega, by omega, by omega, by omega, h⟩

theorem blocksPath_true (d : Data) (target candidate : Monster) (path : Path)
    (h : blocksPath d target path candidate = true) :
    candidate.UnitID ≠ target.UnitID ∧ 0 < candidate.Life ∧
      d.Intersects path candidate.Position pathBlockerPadding = true := by
  unfold blocksPath at h
  split_ifs at h with h1 h2
  exact ⟨h1, by omega, h⟩

/-- A blocked target has a blocker: another living enemy that is closer and on the
line, or another living enemy in the path. -/
theorem targetBlocked_true (d : Data) (target : Monster) (h : targetBlocked d target = true) :
    ∃ c ∈ d.Enemies, c.UnitID ≠ target.UnitID ∧ 0 < c.Life ∧
      ((DistanceFromMe d c.Position < DistanceFromMe d target.Position ∧
          onLineToTarget d target c = true) ∨ inPathToTarget d target c = true) := by
  unfold targetBlocked at h
  simp only [] at h
  split_ifs at h with hline
  · unfold blockedInPath at h
    unfold inPathToTarget
    cases hp : d.GetPath target.Position with
    | none => simp [hp] at h
    | some path =>
      simp only [hp, Bool.and_eq_true, List.any_eq_true] at h
      obtain ⟨hlen, c, hc, hb⟩ := h
      have hb2 := blocksPath_true d target c path hb
      exact ⟨c, hc, hb2.1, hb2.2.1, Or.inr (by simp only [Bool.and_eq_true]; exact ⟨hlen, hb2.2.2⟩)⟩
  · unfold blockedInLine at h
    simp only [Bool.and_eq_true, List.any_eq_true] at h
    obtain ⟨_, c, hc, hb⟩ := h
    have hb2 := blocksLine_true d target c hb
    exact ⟨c, hc, hb2.1, hb2.2.1, Or.inl ⟨hb2.2.2.1, hb2.2.2.2⟩⟩

theorem pickClosest_closestOf (d : Data) (l : List Monster) (c : Closest) (a : Monster)
    (h : ClosestOf d l c) : ClosestOf d (l ++ [a]) (pickClosest d c a) := by
  unfold pickClosest
  obtain ⟨hn, hf⟩ := h
  by_cases hlife : a.Life ≤ 0
  · rw [if_pos hlife]
    refine ⟨fun h0 x hx => ?_, fun h1 => ?_⟩
    · rcases List.mem_append.mp hx with hx | hx
      · exact hn h0 x hx
      · simp only [List.mem_singleton] at hx
        subst hx
        intro hh
        omega
    · obtain ⟨m1, m2, m3, m4, m5⟩ := hf h1
      refine ⟨List.mem_append_left _ m1, m2, m3, m4, fun x hx hl hs => ?_⟩
      rcases List.mem_append.mp hx with hx | hx
      · exact m5 x hx hl hs
      · simp only [List.mem_singleton] at hx
        subst hx
        omega
  by_cases hlos : LineOfSight d.IsWalkable d.PlayerPosition a.Position = false
  · rw [if_neg hlife, if_pos hlos]
    refine ⟨fun h0 x hx => ?_, fun h1 => ?_⟩
    · rcases List.mem_append.mp hx with hx | hx
      · exact hn h0 x hx
      · simp only [List.mem_singleton] at hx
        subst hx
        intro hh
        unfold inLineOfSight at hh
        rw [hlos] at hh
        exact absurd hh.2 (by simp)
    · obtain ⟨m1, m2, m3, m4, m5⟩ := hf h1
      refine ⟨List.mem_append_left _ m1, m2, m3, m4, fun x hx hl hs => ?_⟩
      rcases List.mem_append.mp hx with hx | hx
      · exact m5 x hx hl hs
      · simp only [List.mem_singleton] at hx
        subst hx
        unfold inLineOfSight at hs
        rw [hlos] at hs
        exact absurd hs (by simp)
  have hlos2 : inLineOfSight d a = true := by
    unfold inLineOfSight
    simpa using hlos
  rw [if_neg hlife, if_neg hlos]
  simp only []
  by_cases hbetter : c.closestFound = false ∨
      DistanceFromMe d a.Position < c.closestDistance
  · rw [if_pos hbetter]
    refine ⟨fun h0 => by simp at h0, fun _ => ?_⟩
    refine ⟨by simp, by show 0 < a.Life; omega, hlos2, rfl, fun x hx hl hs => ?_⟩
    rcases List.mem_append.mp hx with hx | hx
    · rcases hbetter with hb | hb
      · exact absurd ⟨hl, hs⟩ (hn hb x hx)
      · cases hcf : c.closestFound with
        | false => exact absurd ⟨hl, hs⟩ (hn hcf x hx)
        | true =>
          have := (hf hcf).2.2.2.2 x hx hl hs
          simp only []
          omega
    · simp only [List.mem_singleton] at hx
      subst hx
      exact le_refl _
  · rw [if_neg hbetter]
    push_neg at hbetter
    have hcf : c.closestFound = true := by simpa using hbetter.1
    refine ⟨fun h0 => by rw [hcf] at h0; simp at h0, fun _ => ?_⟩
    obtain ⟨m1, m2, m3, m4, m5⟩ := hf hcf
    refine ⟨List.mem_append_left _ m1, m2, m3, m4, fun x hx hl hs => ?_⟩
    rcases List.mem_append.mp hx with hx | hx
    · exact m5 x hx hl hs
    · simp only [List.mem_singleton] at hx
      subst hx
      exact hbetter.2

/-- The selection loop ends holding a nearest living enemy in line of sight, or
nothing when there is none. -/
theorem foldl_pickClosest_closestOf (d : Data) (l : List Monster) :
    ClosestOf d l (l.foldl (pickClosest d)
      { closestFound := false, closestDistance := 0, closest := zeroMonster }) := by
  induction l using List.reverseRecOn with
  | nil =>
    refine ⟨fun _ x hx => by simp at hx, fun h => by simp at h⟩
  | append_singleton l a ih =>
    rw [List.foldl_append]
    exact pickClosest_closestOf d l _ a ih

/-- Not being judged blocked ends the retargeting with no change. -/
theorem retarget_not_blocked (d : Data) (target : Monster) (mainSkillRange : Int)
    (h : targetBlocked d target = false) :
    RetargetIfBlockedBeyondRange d target mainSkillRange = (zeroMonster, false) := by
  unfold RetargetIfBlockedBeyondRange
  simp only [h, if_true]
  split_ifs <;> rfl

/-- A target strictly inside the main skill range is never replaced. -/
theorem retarget_in_range (d : Data) (target : Monster) (mainSkillRange : Int)
    (h : DistanceFromMe d target.Position < mainSkillRange) :
    RetargetIfBlockedBeyondRange d target mainSkillRange = (zeroMonster, false) := by
  unfold RetargetIfBlockedBeyondRange
  simp only [h, if_true]
  split_ifs <;> rfl

/-- A reported change comes out of the selection loop, after a blocked verdict. -/
theorem retarget_changed (d : Data) (target : Monster) (mainSkillRange : Int)
    (h : (RetargetIfBlockedBeyondRange d target mainSkillRange).2 = true) :
    targetBlocked d target = true ∧
    (d.Enemies.foldl (pickClosest d)
      { closestFound := false, closestDistance := 0, closest := zeroMonster }).closestFound = true ∧
    (RetargetIfBlockedBeyondRange d target mainSkillRange).1 =
      (d.Enemies.foldl (pickClosest d)
        { closestFound := false, closestDistance := 0, closest := zeroMonster }).closest := by
  unfold RetargetIfBlockedBeyondRange at h ⊢
  simp only [] at h ⊢
  split_ifs at h ⊢ with h1 h2 h3 h4
  exact ⟨by simpa using h3, by simpa using h4, rfl⟩

/-- C5: for every target, snapshot and range value, `RetargetIfBlockedBeyondRange`
reports no change (second result false) whenever the agent can teleport, and also
whenever `mainSkillRange` is zero or negative. -/
theorem C5_no_retarget_when_teleport_or_no_range (d : Data) (target : Monster)
    (mainSkillRange : Int) (h : d.CanTeleport = true ∨ mainSkillRange ≤ 0) :
    (RetargetIfBlockedBeyondRange d target mainSkillRange).2 = false := by
  unfold RetargetIfBlockedBeyondRange
  rw [if_pos h]

/-- Witness of C5: a teleporting agent with an enemy on the line to its target. -/
theorem C5_no_retarget_when_teleport_or_no_range_witness :
    (RetargetIfBlockedBeyondRange
      (openField true [monsterAt 1 .None 10 0 10 false, monsterAt 2 .None 5 0 10 false])
      (monsterAt 1 .None 10 0 10 false) 1).2 = false :=
  C5_no_retarget_when_teleport_or_no_range _ _ 1 (Or.inl rfl)

/-- C6 as stated fails: in `pathBlocker` no other living enemy is closer than the
target (enemy 2 is at distance 3, like the target), yet enemy 2 stands in the path
to the target and the retargeting reports a change. -/
theorem C6_counterexample :
    (∀ c ∈ pathBlocker.Enemies, c.UnitID ≠ (monsterAt 1 .None 3 0 10 false).UnitID →
      0 < c.Life →
      ¬ (DistanceFromMe pathBlocker c.Position
            < DistanceFromMe pathBlocker (monsterAt 1 .None 3 0 10 false).Position ∧
          (inPathToTarget pathBlocker (monsterAt 1 .None 3 0 10 false) c = true ∨
            onLineToTarget pathBlocker (monsterAt 1 .None 3 0 10 false) c = true))) ∧
    (RetargetIfBlockedBeyondRange pathBlocker (monsterAt 1 .None 3 0 10 false) 1).2 = true := by
  decide

/-- C6 (amended): for every snapshot, `RetargetIfBlockedBeyondRange` reports no change
whenever there is no other living enemy (unit id different from the target's,
life > 0) that is either closer to the agent than the target and on the line to the
target, or in the path found to the target. -/
theorem C6_no_blocker_no_change (d : Data) (target : Monster) (mainSkillRange : Int)
    (h : ∀ c ∈ d.Enemies, c.UnitID ≠ target.UnitID → 0 < c.Life →
      ¬ ((DistanceFromMe d c.Position < DistanceFromMe d target.Position ∧
            onLineToTarget d target c = true) ∨ inPathToTarget d target c = true)) :
    (RetargetIfBlockedBeyondRange d target mainSkillRange).2 = false := by
  cases hb : targetBlocked d target with
  | false => rw [retarget_not_blocked d target mainSkillRange hb]
  | true =>
    obtain ⟨c, hc, hid, hlife, hblock⟩ := targetBlocked_true d target hb
    exact absurd hblock (h c hc hid hlife)

/-- Witness of C6 (amended): a lone target out of range in an open field. -/
theorem C6_no_blocker_no_change_witness :
    (RetargetIfBlockedBeyondRange (openField false [monsterAt 1 .None 10 0 10 false])
      (monsterAt 1 .None 10 0 10 false) 1).2 = false :=
  C6_no_blocker_no_change (openField false [monsterAt 1 .None 10 0 10 false])
    (monsterAt 1 .None 10 0 10 false) 1 (by decide)

/-- C7 fails on the code: in `hiddenBlocker` the retargeting reports a change and
returns the original target itself (same unit id, not closer); in `pathBlocker` it
returns another unit that is not strictly closer than the target. -/
theorem C7_change_may_return_target :
    RetargetIfBlockedBeyondRange hiddenBlocker (monsterAt 1 .None 10 0 10 false) 1
      = (monsterAt 1 .None 10 0 10 false, true) ∧
    (RetargetIfBlockedBeyondRange pathBlocker (monsterAt 1 .None 3 0 10 false) 1).2 = true ∧
    ¬ (DistanceFromMe pathBlocker
        (RetargetIfBlockedBeyondRange pathBlocker (monsterAt 1 .None 3 0 10 false) 1).1.Position
      < DistanceFromMe pathBlocker (monsterAt 1 .None 3 0 10 false).Position) := by
  decide

/-- C8: whenever `RetargetIfBlockedBeyondRange` reports a change, the returned enemy
is one of the snapshot's enemies, is living (life > 0), is in line of sight of the
agent, and no living enemy in line of sight is strictly nearer to the agent; and when
the target is judged blocked but no living enemy is in line of sight, it reports no
change. -/
theorem C8_change_returns_nearest_visible (d : Data) (target : Monster)
    (mainSkillRange : Int) :
    ((RetargetIfBlockedBeyondRange d target mainSkillRange).2 = true →
      (RetargetIfBlockedBeyondRange d target mainSkillRange).1 ∈ d.Enemies ∧
      0 < (RetargetIfBlockedBeyondRange d target mainSkillRange).1.Life ∧
      inLineOfSight d (RetargetIfBlockedBeyondRange d target mainSkillRange).1 = true ∧
      ∀ c ∈ d.Enemies, 0 < c.Life → inLineOfSight d c = true →
        ¬ (DistanceFromMe d c.Position <
          DistanceFromMe d (RetargetIfBlockedBeyondRange d target mainSkillRange).1.Position)) ∧
    (targetBlocked d target = true →
      (∀ c ∈ d.Enemies, ¬ (0 < c.Life ∧ inLineOfSight d c = true)) →
      (RetargetIfBlockedBeyondRange d target mainSkillRange).2 = false) := by
  have hsel := foldl_pickClosest_closestOf d d.Enemies
  constructor
  · intro hchg
    obtain ⟨_, hfound, heq⟩ := retarget_changed d target mainSkillRange hchg
    obtain ⟨m1, m2, m3, m4, m5⟩ := hsel.2 hfound
    rw [heq]
    refine ⟨m1, m2, m3, fun c hc hl hs => ?_⟩
    have := m5 c hc hl hs
    omega
  · intro _ hnone
    cases hr : (RetargetIfBlockedBeyondRange d target mainSkillRange).2 with
    | false => rfl
    | true =>
      obtain ⟨_, hfound, _⟩ := retarget_changed d target mainSkillRange hr
      obtain ⟨m1, m2, m3, _, _⟩ := hsel.2 hfound
      exact absurd ⟨m2, m3⟩ (hnone _ m1)

/-- Witness of C8: in `lineBlocker` a change is reported and the enemy returned is
alive. -/
theorem C8_change_returns_nearest_visible_witness :
    0 < (RetargetIfBlockedBeyondRange lineBlocker (monsterAt 1 .None 12 0 10 false) 1).1.Life :=
  ((C8_change_returns_nearest_visible lineBlocker (monsterAt 1 .None 12 0 10 false) 1).1
    (by decide)).2.1

/-- C9 fails on the code at the boundary: in `lineBlocker` the agent cannot teleport,
`mainSkillRange` is the default 12 and the target is at distance exactly 12, yet the
retargeting goes on to the blocking tests and reports a change (enemy 2 replaces the
target). -/
theorem C9_boundary_distance_retargets :
    lineBlocker.CanTeleport = false ∧ 0 < DefaultMainSkillRange ∧
    DistanceFromMe lineBlocker (monsterAt 1 .None 12 0 10 false).Position
      = DefaultMainSkillRange ∧
    RetargetIfBlockedBeyondRange lineBlocker (monsterAt 1 .None 12 0 10 false)
        DefaultMainSkillRange
      = (monsterAt 2 .None 5 0 10 false, true) := by
  decide

end Retargeting

/-! ## Claims on the engagement loop -/

section EngagementLoop

/-- C10: for each build's `KillMonsterSequence` (PaladinDefault, PaladinLeveling,
PaladinDragon): if the selector reports no target on the first tick, the loop returns
nil on that tick after only the priority yield and the selector call (the deferred
`resetTeleportOverride` runs as the function returns), without running
`RetargetIfBlockedBeyondRange`, `PreBattleChecks` or any rotation, whatever the later
ticks would bring. -/
theorem C10_no_target_returns_on_first_tick (skipOnImmunities : List Resist) (t : Tick)
    (later : List Tick) (h : t.selected = none) :
    PaladinDefault.KillMonsterSequence skipOnImmunities (t :: later)
      = ([Event.PauseIfNotPriority, Event.monsterSelector, Event.resetTeleportOverride],
          some GoError.nil) ∧
    PaladinLeveling.KillMonsterSequence skipOnImmunities (t :: later)
      = ([Event.PauseIfNotPriority, Event.monsterSelector, Event.resetTeleportOverride],
          some GoError.nil) ∧
    PaladinDragon.KillMonsterSequence skipOnImmunities (t :: later)
      = ([Event.PauseIfNotPriority, Event.monsterSelector, Event.resetTeleportOverride],
          some GoError.nil) := by
  unfold PaladinDefault.KillMonsterSequence PaladinLeveling.KillMonsterSequence
    PaladinDragon.KillMonsterSequence
  simp [runLoop, retargetingTick, dragonTick, h]

/-- Witness of C10: the default build on an idle first tick followed by another. -/
theorem C10_no_target_returns_on_first_tick_witness :
    PaladinDefault.KillMonsterSequence [] [idleTick, idleTick]
      = ([Event.PauseIfNotPriority, Event.monsterSelector, Event.resetTeleportOverride],
          some GoError.nil) :=
  (C10_no_target_returns_on_first_tick [] idleTick [idleTick] rfl).1

end EngagementLoop

/-! ## Claims on the engagement loop: timeout, transient miss, rotation result -/

section EngagementGates

/-- The loop body of the default and leveling builds once the selected id is found in
the snapshot, written with `effectiveTargetId` and `recordTarget`. -/
theorem retargetingTick_found (rotation : Tick → Nat → Event) (skipOnImmunities : List Resist)
    (s : Session) (t : Tick) (selectedId : Nat) (found : Monster)
    (hsel : t.selected = some selectedId)
    (hfound : FindByID t.data.Monsters selectedId = some found) :
    retargetingTick rotation skipOnImmunities s t =
      if PreBattleChecks t.data (effectiveTargetId t.data selectedId found) skipOnImmunities
          = false then
        ([Event.PauseIfNotPriority, Event.monsterSelector, Event.RetargetIfBlockedBeyondRange,
          Event.PreBattleChecks, Event.LogEnded EndReason.pre_battle_checks_failed], none)
      else if timedOut t.clock
          (recordTarget s (effectiveTargetId t.data selectedId found) t.now).targetStart then
        ([Event.PauseIfNotPriority, Event.monsterSelector, Event.RetargetIfBlockedBeyondRange,
          Event.PreBattleChecks, Event.LogEnded EndReason.target_timeout], none)
      else
        ([Event.PauseIfNotPriority, Event.monsterSelector, Event.RetargetIfBlockedBeyondRange,
          Event.PreBattleChecks,
          rotation t (if (RetargetIfBlockedBeyondRange t.data found paladinMainSkillRange).2
            then (RetargetIfBlockedBeyondRange t.data found paladinMainSkillRange).1
            else found).UnitID],
          some (recordTarget s (effectiveTargetId t.data selectedId found) t.now)) := by
  unfold retargetingTick
  simp only [hsel, hfound]
  unfold effectiveTargetId recordTarget
  split_ifs <;> simp_all

/-- A tick of the default and leveling loops whose selected id is missing from the
snapshot makes no further call and keeps the bookkeeping. -/
theorem retargetingTick_missing (rotation : Tick → Nat → Event)
    (skipOnImmunities : List Resist) (s : Session) (t : Tick) (selectedId : Nat)
    (hsel : t.selected = some selectedId)
    (hmiss : FindByID t.data.Monsters selectedId = none) :
    retargetingTick rotation skipOnImmunities s t
      = ([Event.PauseIfNotPriority, Event.monsterSelector], some s) := by
  unfold retargetingTick
  simp only [hsel, hmiss]

/-- A kill sequence never returns an error other than nil. -/
theorem runLoop_error_nil {σ : Type} (tick : σ → Tick → List Event × Option σ)
    (ticks : List Tick) :
    ∀ s : σ, (runLoop tick s ticks).2 = none ∨ (runLoop tick s ticks).2 = some GoError.nil := by
  induction ticks with
  | nil => intro s; exact Or.inl rfl
  | cons t ts ih =>
    intro s
    unfold runLoop
    rcases h : tick s t with ⟨events, _ | s2⟩
    · exact Or.inr rfl
    · exact ih s2

/-- The timeout gate of the dragon build: a living, engageable target that stays
selected past the timeout ends the loop body with the timeout reason. -/
theorem dragonTick_timeout (skipOnImmunities : List Resist) (s : DragonSession) (t : Tick)
    (id : Nat) (monster : Monster) (start : Int)
    (hsel : t.selected = some id) (hsame : id = s.lastTargetID)
    (hstart : s.targetStart = some start)
    (hfound : FindByID t.data.Monsters id = some monster) (hlife : 0 < monster.Life)
    (hkeep : PaladinDragon.ShouldIgnoreMonster t.data monster = false)
    (hpre : PreBattleChecks t.data id skipOnImmunities = true)
    (helapsed : t.clock - start > TargetTimeout) :
    dragonTick skipOnImmunities s t =
      ([Event.PauseIfNotPriority, Event.monsterSelector, Event.PreBattleChecks,
        Event.LogEnded EndReason.target_timeout], none) := by
  subst hsame
  unfold dragonTick
  have hl : ¬ monster.Life ≤ 0 := by omega
  simp [hsel, hfound, hstart, hl, hkeep, hpre, timedOut, helapsed]

/-- C11: in `KillMonsterSequence` (default and leveling builds, any rotation), on a
tick where the effective target's unit id equals the id recorded on the previous
ticks, `PreBattleChecks` passes, and more than `TargetTimeout` (10 s) has elapsed since
that id was first recorded, the loop terminates on that tick with the `target_timeout`
reason and returns nil without running the rotation. Scenario: the selector always
returns unit 1, first seen at clock 0; the first tick runs the rotation and the tick
at 10.1 s ends the loop. -/
theorem C11_target_timeout_ends_loop (rotation : Tick → Nat → Event)
    (skipOnImmunities : List Resist) (s : Session) (t : Tick) (later : List Tick)
    (selectedId : Nat) (found : Monster) (start : Int)
    (hsel : t.selected = some selectedId)
    (hfound : FindByID t.data.Monsters selectedId = some found)
    (hsame : effectiveTargetId t.data selectedId found = s.lastTargetID)
    (hstart : s.targetStart = some start)
    (hpre : PreBattleChecks t.data (effectiveTargetId t.data selectedId found)
      skipOnImmunities = true)
    (helapsed : t.clock - start > TargetTimeout) :
    runLoop (retargetingTick rotation skipOnImmunities) s (t :: later)
      = ([Event.PauseIfNotPriority, Event.monsterSelector, Event.RetargetIfBlockedBeyondRange,
          Event.PreBattleChecks, Event.LogEnded EndReason.target_timeout,
          Event.resetTeleportOverride], some GoError.nil) ∧
    TargetTimeout = 10 * 1000 ∧
    PaladinDefault.KillMonsterSequence [] [engagedTick 1 0, engagedTick 1 10100]
      = ([Event.PauseIfNotPriority, Event.monsterSelector, Event.RetargetIfBlockedBeyondRange,
          Event.PreBattleChecks, Event.executeDefaultRotation 1,
          Event.PauseIfNotPriority, Event.monsterSelector, Event.RetargetIfBlockedBeyondRange,
          Event.PreBattleChecks, Event.LogEnded EndReason.target_timeout,
          Event.resetTeleportOverride], some GoError.nil) := by
  refine ⟨?_, by decide, by decide⟩
  have htick := retargetingTick_found rotation skipOnImmunities s t selectedId found hsel hfound
  have hrec : recordTarget s (effectiveTargetId t.data selectedId found) t.now = s := by
    unfold recordTarget
    simp [hsame]
  rw [hrec, hstart] at htick
  have hout : timedOut t.clock (some start) = true := by
    unfold timedOut
    simpa using helapsed
  rw [hpre, hout] at htick
  simp only [Bool.true_eq_false, if_false, if_true] at htick
  unfold runLoop
  rw [htick]
  rfl

/-- Witness of C11: unit 1 recorded at clock 0 and selected again at 10.1 s. -/
theorem C11_target_timeout_ends_loop_witness :
    runLoop (retargetingTick PaladinDefault.rotation [])
        { lastTargetID := 1, targetStart := some 0 } [engagedTick 1 10100]
      = ([Event.PauseIfNotPriority, Event.monsterSelector, Event.RetargetIfBlockedBeyondRange,
          Event.PreBattleChecks, Event.LogEnded EndReason.target_timeout,
          Event.resetTeleportOverride], some GoError.nil) :=
  (C11_target_timeout_ends_loop PaladinDefault.rotation []
    { lastTargetID := 1, targetStart := some 0 } (engagedTick 1 10100) [] 1
    (monsterAt 1 .None 1 0 10 false) 0 rfl (by decide) (by decide) rfl (by decide)
    (by decide)).1

/-- C12 fails on the dragon build: with unit 1 recorded since clock 0, a tick at clock
5000 on which the selector returns unit 7, absent from the snapshot, leaves the
bookkeeping of the default and leveling loops as it was, but the dragon loop records
unit 7 and restarts `targetStart` before it looks the id up. -/
theorem C12_dragon_records_missing_id :
    FindByID (engagedTick 7 5000).data.Monsters 7 = none ∧
    retargetingTick PaladinDefault.rotation []
        { lastTargetID := 1, targetStart := some 0 } (engagedTick 7 5000)
      = ([Event.PauseIfNotPriority, Event.monsterSelector],
          some { lastTargetID := 1, targetStart := some 0 }) ∧
    retargetingTick PaladinLeveling.rotation []
        { lastTargetID := 1, targetStart := some 0 } (engagedTick 7 5000)
      = ([Event.PauseIfNotPriority, Event.monsterSelector],
          some { lastTargetID := 1, targetStart := some 0 }) ∧
    dragonTick [] { outOfRangeAttempts := 0, lastTargetID := 1, targetStart := some 0 }
        (engagedTick 7 5000)
      = ([Event.PauseIfNotPriority, Event.monsterSelector],
          some { outOfRangeAttempts := 0, lastTargetID := 7, targetStart := some 5000 }) := by
  decide

/-- C13: in `PaladinDefault.KillMonsterSequence` and
`PaladinLeveling.KillMonsterSequence` the boolean returned by the rotation never
decides termination: for both results the tick has the same outcome and the loop goes
on with the same bookkeeping; the loop body returns only when the selector reports no
target, `PreBattleChecks` fails, or the target timeout has elapsed, and the kill
sequence never returns an error other than nil. -/
theorem C13_rotation_result_never_ends_loop (skipOnImmunities : List Resist) (s : Session)
    (t : Tick) (b : Bool) (ticks : List Tick) :
    retargetingTick PaladinDefault.rotation skipOnImmunities s { t with rotationResult := b }
      = retargetingTick PaladinDefault.rotation skipOnImmunities s t ∧
    retargetingTick PaladinLeveling.rotation skipOnImmunities s { t with rotationResult := b }
      = retargetingTick PaladinLeveling.rotation skipOnImmunities s t ∧
    (∀ rotation : Tick → Nat → Event,
      (retargetingTick rotation skipOnImmunities s t).2 = none ↔
        (t.selected = none ∨
          ∃ id found, t.selected = some id ∧ FindByID t.data.Monsters id = some found ∧
            (PreBattleChecks t.data (effectiveTargetId t.data id found) skipOnImmunities
                = false ∨
              timedOut t.clock
                (recordTarget s (effectiveTargetId t.data id found) t.now).targetStart
                = true))) ∧
    ((PaladinDefault.KillMonsterSequence skipOnImmunities ticks).2 = none ∨
      (PaladinDefault.KillMonsterSequence skipOnImmunities ticks).2 = some GoError.nil) ∧
    ((PaladinLeveling.KillMonsterSequence skipOnImmunities ticks).2 = none ∨
      (PaladinLeveling.KillMonsterSequence skipOnImmunities ticks).2 = some GoError.nil) := by
  refine ⟨?_, ?_, ?_, runLoop_error_nil _ ticks _, runLoop_error_nil _ ticks _⟩
  · unfold retargetingTick PaladinDefault.rotation
    simp
  · unfold retargetingTick PaladinLeveling.rotation
    simp
  · intro rotation
    cases hsel : t.selected with
    | none =>
      unfold retargetingTick
      simp [hsel]
    | some id =>
      cases hfound : FindByID t.data.Monsters id with
      | none =>
        rw [retargetingTick_missing rotation skipOnImmunities s t id hsel hfound]
        simp [hfound]
      | some found =>
        rw [retargetingTick_found rotation skipOnImmunities s t id found hsel hfound]
        constructor
        · intro h
          refine Or.inr ⟨id, found, rfl, hfound, ?_⟩
          split_ifs at h with h1 h2
          · exact Or.inl h1
          · exact Or.inr h2
        · rintro (h | ⟨id2, found2, hid, hf, h⟩)
          · simp at h
          · simp only [Option.some.injEq] at hid
            subst hid
            rw [hfound] at hf
            simp only [Option.some.injEq] at hf
            subst hf
            rcases h with h | h
            · rw [if_pos h]
            · split_ifs
              · rfl
              · rfl

end EngagementGates

/-! ## Claims on the door test -/

section Doors

/-- C14 as stated fails: in `doorInPath` the agent cannot teleport, the target is
alive and at distance 10, `HasDoorBetween` reports a door between agent and target,
and `PreBattleChecks` still accepts the target. -/
theorem C14_counterexample :
    doorInPath.CanTeleport = false ∧
    FindByID doorInPath.Monsters 1 = some (monsterAt 1 .None 10 0 10 false) ∧
    0 < (monsterAt 1 .None 10 0 10 false).Life ∧
    DistanceFromMe doorInPath (monsterAt 1 .None 10 0 10 false).Position ≤ 60 ∧
    (HasDoorBetween doorInPath doorInPath.PlayerPosition
      (monsterAt 1 .None 10 0 10 false).Position).1 = true ∧
    PreBattleChecks doorInPath 1 [] = true := by
  decide

/-- C14 (amended): when the agent cannot teleport, the selector filter `isValidEnemy`
of `ClearAreaAroundPosition` rejects (returns false for) a target whenever a closed
door lies between the agent and the target, i.e. whenever
`HasDoorBetween(agent position, target position)` is true; `PreBattleChecks` itself
makes no door test: its verdict does not depend on the objects, on `GetPathFrom` or on
the closest door. -/
theorem C14_selector_rejects_behind_door (d : Data) (m : Monster)
    (ht : d.CanTeleport = false)
    (hdoor : (HasDoorBetween d d.PlayerPosition m.Position).1 = true) :
    isValidEnemy d m = false ∧
    ∀ (objects : List Object) (pathFrom : Position → Position → Option Path)
      (closestDoor : Position → Option Object) (id : Nat) (skipOnImmunities : List Resist),
      PreBattleChecks
          { d with Objects := objects, GetPathFrom := pathFrom, GetClosestDoor := closestDoor }
          id skipOnImmunities
        = PreBattleChecks d id skipOnImmunities := by
  constructor
  · unfold isValidEnemy
    simp only [ht, hdoor, if_true]
    split_ifs <;> rfl
  · intro objects pathFrom closestDoor id skipOnImmunities
    rfl

/-- Witness of C14 (amended): the target behind the door of `doorInPath`. -/
theorem C14_selector_rejects_behind_door_witness :
    isValidEnemy doorInPath (monsterAt 1 .None 10 0 10 false) = false :=
  (C14_selector_rejects_behind_door doorInPath (monsterAt 1 .None 10 0 10 false) rfl
    (by decide)).1

end Doors

/-! ## Claims on `LineOfSight` -/

section LineOfSightClaims

/-- Whatever the loop returns is the conjunction of the walkability of the cells of
its trace. -/
theorem lineOfSightLoop_eq_all (walkable : Position → Bool) (destination : Position)
    (dx dy sx sy : Int) :
    ∀ (fuel : Nat) (err x y : Int) (b : Bool),
      lineOfSightLoop walkable destination dx dy sx sy fuel err x y = some b →
      b = (lineOfSightTraceLoop destination dx dy sx sy fuel err x y).all walkable := by
  intro fuel
  induction fuel with
  | zero => intro err x y b h; simp [lineOfSightLoop] at h
  | succ fuel ih =>
    intro err x y b h
    unfold lineOfSightLoop at h
    unfold lineOfSightTraceLoop
    by_cases hw : walkable ⟨x, y⟩ = false
    · rw [if_pos hw] at h
      simp only [Option.some.injEq] at h
      simp [hw, ← h]
    · rw [if_neg hw] at h
      have hw2 : walkable ⟨x, y⟩ = true := by simpa using hw
      by_cases hd : x = destination.X ∧ y = destination.Y
      · rw [if_pos hd] at h
        simp only [Option.some.injEq] at h
        rw [if_pos hd]
        simp [hw2, ← h]
      · rw [if_neg hd] at h
        rw [if_neg hd]
        have := ih _ _ _ b h
        simp only [List.all_cons, hw2, Bool.true_and]
        exact this

/-- On a fully walkable grid the loop can only return at the destination: the trace
ends there. -/
theorem lineOfSightTraceLoop_getLast (destination : Position) (dx dy sx sy : Int) :
    ∀ (fuel : Nat) (err x y : Int),
      (lineOfSightLoop (fun _ => true) destination dx dy sx sy fuel err x y).isSome = true →
      (lineOfSightTraceLoop destination dx dy sx sy fuel err x y).getLast? = some destination := by
  intro fuel
  induction fuel with
  | zero => intro err x y h; simp [lineOfSightLoop] at h
  | succ fuel ih =>
    intro err x y h
    unfold lineOfSightLoop at h
    unfold lineOfSightTraceLoop
    rw [if_neg (by simp)] at h
    by_cases hd : x = destination.X ∧ y = destination.Y
    · rw [if_pos hd]
      obtain ⟨h1, h2⟩ := hd
      subst h1 h2
      rfl
    · rw [if_neg hd] at h
      rw [if_neg hd]
      have hrest := ih _ _ _ h
      rw [List.getLast?_cons]
      simp only [hrest]
      rfl

/-- The method `LineOfSight` is the conjunction of the walkability of the cells of
its stepping trace. -/
theorem LineOfSight_eq_all (walkable : Position → Bool) (origin destination : Position) :
    LineOfSight walkable origin destination
      = (lineOfSightTrace origin destination).all walkable := by
  have hsome := lineOfSightRun_isSome walkable origin destination
  unfold LineOfSight
  cases hr : lineOfSightRun walkable origin destination with
  | none => simp [hr] at hsome
  | some b =>
    unfold lineOfSightRun at hr
    have := lineOfSightLoop_eq_all walkable destination _ _ _ _ _ _ _ _ b hr
    simpa [lineOfSightTrace] using this

theorem lineOfSightTrace_head (origin destination : Position) :
    (lineOfSightTrace origin destination).head? = some origin := by
  unfold lineOfSightTrace lineOfSightFuel
  simp only []
  unfold lineOfSightTraceLoop
  rfl

theorem lineOfSightTrace_getLast (origin destination : Position) :
    (lineOfSightTrace origin destination).getLast? = some destination := by
  have hsome := lineOfSightRun_isSome (fun _ => true) origin destination
  unfold lineOfSightRun at hsome
  unfold lineOfSightTrace
  exact lineOfSightTraceLoop_getLast destination _ _ _ _ _ _ _ _ hsome

/-- C15: for every walkability grid and every position `p`, `LineOfSight(p, p)` is
true exactly when `p` is walkable: true for a walkable `p`, false for a blocked `p`. -/
theorem C15_line_of_sight_to_self (walkable : Position → Bool) (p : Position) :
    LineOfSight walkable p p = walkable p := by
  unfold LineOfSight lineOfSightRun lineOfSightFuel
  simp only [sub_self, Int.natAbs_zero, Nat.zero_add]
  unfold lineOfSightLoop
  cases hw : walkable p <;> simp [hw]

/-- C16: for every grid, origin and destination, `LineOfSight(origin, destination)` is
true exactly when every cell on its integer stepping trace from origin (its first
cell) to destination (its last cell) is walkable; in particular a true result implies
that both the origin cell and the destination cell are walkable, and a blocked cell on
the trace makes the result false. -/
theorem C16_line_of_sight_iff_trace_walkable (walkable : Position → Bool)
    (origin destination : Position) :
    (LineOfSight walkable origin destination = true ↔
      ∀ c ∈ lineOfSightTrace origin destination, walkable c = true) ∧
    (lineOfSightTrace origin destination).head? = some origin ∧
    (lineOfSightTrace origin destination).getLast? = some destination ∧
    (LineOfSight walkable origin destination = true →
      walkable origin = true ∧ walkable destination = true) ∧
    (∀ c ∈ lineOfSightTrace origin destination, walkable c = false →
      LineOfSight walkable origin destination = false) := by
  have hall := LineOfSight_eq_all walkable origin destination
  have hhead := lineOfSightTrace_head origin destination
  have hlast := lineOfSightTrace_getLast origin destination
  have hiff : LineOfSight walkable origin destination = true ↔
      ∀ c ∈ lineOfSightTrace origin destination, walkable c = true := by
    rw [hall, List.all_eq_true]
  refine ⟨hiff, hhead, hlast, ?_, ?_⟩
  · intro h
    exact ⟨hiff.mp h _ (List.mem_of_mem_head? hhead),
      hiff.mp h _ (List.mem_of_getLast?_eq_some hlast)⟩
  · intro c hc hb
    cases hlos : LineOfSight walkable origin destination with
    | false => rfl
    | true =>
      have := hiff.mp hlos c hc
      rw [hb] at this
      exact absurd this (by simp)

/-- C17 as stated fails: the segment between the centres of (0,0) and (2,1) passes
through the open unit square of cell (1,1) (at parameter 3/5 it is at (1.2, 0.6)),
that cell is blocked, and `LineOfSight` is still true: its trace is (0,0), (1,0),
(2,1). -/
theorem C17_counterexample :
    segmentCrossesCell ⟨0, 0⟩ ⟨2, 1⟩ ⟨1, 1⟩ ∧
    blockedAtOneOne ⟨1, 1⟩ = false ∧
    lineOfSightTrace ⟨0, 0⟩ ⟨2, 1⟩ = [⟨0, 0⟩, ⟨1, 0⟩, ⟨2, 1⟩] ∧
    LineOfSight blockedAtOneOne ⟨0, 0⟩ ⟨2, 1⟩ = true := by
  refine ⟨⟨3 / 5, by norm_num, by norm_num, ?_, ?_⟩, by decide, by decide, by decide⟩
  · rw [abs_lt]
    constructor <;> norm_num
  · rw [abs_lt]
    constructor <;> norm_num

/-- C17 (amended): for every grid, origin and destination, `LineOfSight` tests the
cells of its integer stepping trace and no others: its result is whether every cell of
the trace is walkable, so a blocked cell on the trace always yields false, two grids
that agree on the trace give the same result, and blocking a cell off the trace
(whatever the ideal segment crosses) does not change the result. -/
theorem C17_tests_exactly_the_trace (walkable : Position → Bool)
    (origin destination : Position) :
    LineOfSight walkable origin destination
      = (lineOfSightTrace origin destination).all walkable ∧
    (∀ cell ∈ lineOfSightTrace origin destination, walkable cell = false →
      LineOfSight walkable origin destination = false) ∧
    (∀ other : Position → Bool,
      (∀ c ∈ lineOfSightTrace origin destination, other c = walkable c) →
      LineOfSight other origin destination = LineOfSight walkable origin destination) ∧
    (∀ cell : Position, cell ∉ lineOfSightTrace origin destination →
      LineOfSight (fun p => if p = cell then false else walkable p) origin destination
        = LineOfSight walkable origin destination) := by
  have hagree : ∀ other : Position → Bool,
      (∀ c ∈ lineOfSightTrace origin destination, other c = walkable c) →
      LineOfSight other origin destination = LineOfSight walkable origin destination := by
    intro other hagree
    rw [LineOfSight_eq_all, LineOfSight_eq_all, Bool.eq_iff_iff, List.all_eq_true,
      List.all_eq_true]
    constructor
    · intro h c hcm
      rw [← hagree c hcm]
      exact h c hcm
    · intro h c hcm
      rw [hagree c hcm]
      exact h c hcm
  refine ⟨LineOfSight_eq_all walkable origin destination, ?_, hagree, ?_⟩
  · intro cell hc hb
    rw [LineOfSight_eq_all, List.all_eq_false]
    exact ⟨cell, hc, by simp [hb]⟩
  · intro cell hcell
    apply hagree
    intro c hc
    have hne : c ≠ cell := by
      rintro rfl
      exact hcell hc
    show (if c = cell then false else walkable c) = walkable c
    rw [if_neg hne]

/-- Witness of C17 (amended): between (0,0) and (2,1) the blocked cell (1,0), on the
trace, yields false, and blocking the cell (1,1), off the trace, leaves the open grid's
result. -/
theorem C17_tests_exactly_the_trace_witness :
    LineOfSight (fun p => !(p.X == 1 && p.Y == 0)) ⟨0, 0⟩ ⟨2, 1⟩ = false ∧
    LineOfSight (fun p => if p = ⟨1, 1⟩ then false else true) ⟨0, 0⟩ ⟨2, 1⟩
      = LineOfSight (fun _ => true) ⟨0, 0⟩ ⟨2, 1⟩ :=
  ⟨(C17_tests_exactly_the_trace (fun p => !(p.X == 1 && p.Y == 0)) ⟨0, 0⟩ ⟨2, 1⟩).2.1
      ⟨1, 0⟩ (by decide) (by decide),
    (C17_tests_exactly_the_trace (fun _ => true) ⟨0, 0⟩ ⟨2, 1⟩).2.2.2 ⟨1, 1⟩ (by decide)⟩

end LineOfSightClaims

/-! ## Claims on `DistanceFromPoint` -/

section Distance

theorem floorSqrt_eq_zero_iff (n : Nat) : floorSqrt n = 0 ↔ n = 0 := by
  rw [floorSqrt_eq_sqrt, Nat.sqrt_eq_zero]

theorem DistanceFromPoint_nonneg (a b : Position) : 0 ≤ DistanceFromPoint a b := by
  unfold DistanceFromPoint
  exact Int.natCast_nonneg _

/-- C18: for all positions `a` and `b`,
`DistanceFromPoint(a, b) == DistanceFromPoint(b, a)`. -/
theorem C18_distance_symmetric (a b : Position) :
    DistanceFromPoint a b = DistanceFromPoint b a := by
  unfold DistanceFromPoint
  simp only []
  have h1 : (b.X - a.X) * (b.X - a.X) = (a.X - b.X) * (a.X - b.X) := by ring
  have h2 : (b.Y - a.Y) * (b.Y - a.Y) = (a.Y - b.Y) * (a.Y - b.Y) := by ring
  rw [h1, h2]

/-- C19: for all positions `a` and `b`, `DistanceFromPoint(a, b) == 0` if and only if
`a == b`: the floor-truncated Euclidean distance of two distinct grid positions is at
least 1, and `DistanceFromPoint(a, a)` is 0. -/
theorem C19_distance_zero_iff_equal (a b : Position) :
    (DistanceFromPoint a b = 0 ↔ a = b) ∧
    (a ≠ b → 1 ≤ DistanceFromPoint a b) ∧
    DistanceFromPoint a a = 0 := by
  have hiff : DistanceFromPoint a b = 0 ↔ a = b := by
    unfold DistanceFromPoint
    simp only []
    rw [Int.natCast_eq_zero, floorSqrt_eq_zero_iff, Int.toNat_eq_zero]
    constructor
    · intro h
      have hx : b.X - a.X = 0 := by nlinarith [mul_self_nonneg (b.X - a.X), mul_self_nonneg (b.Y - a.Y)]
      have hy : b.Y - a.Y = 0 := by nlinarith [mul_self_nonneg (b.X - a.X), mul_self_nonneg (b.Y - a.Y)]
      cases a
      cases b
      simp only [Position.mk.injEq]
      simp only at hx hy
      omega
    · rintro rfl
      simp
  refine ⟨hiff, ?_, ?_⟩
  · intro hne
    have h0 := DistanceFromPoint_nonneg a b
    have h1 : DistanceFromPoint a b ≠ 0 := fun h => hne (hiff.mp h)
    omega
  · unfold DistanceFromPoint
    simp [floorSqrt, floorSqrtFrom]

end Distance

/-! ## Claims on `lineSegmentIntersectsPosition` -/

section SegmentTest

/-- In exact arithmetic, the projection test and the distance test of the segment
test are the integer conditions of the reference. -/
theorem segment_exact_core (vX vY dX dY p2 : ℚ) (hD : 0 < dX * dX + dY * dY) :
    (¬ ((vX * dX + vY * dY) / (dX * dX + dY * dY) < 0 ∨
        (vX * dX + vY * dY) / (dX * dX + dY * dY) > 1) ∧
      (vX - (vX * dX + vY * dY) / (dX * dX + dY * dY) * dX) *
          (vX - (vX * dX + vY * dY) / (dX * dX + dY * dY) * dX) +
        (vY - (vX * dX + vY * dY) / (dX * dX + dY * dY) * dY) *
          (vY - (vX * dX + vY * dY) / (dX * dX + dY * dY) * dY) ≤ p2) ↔
    (0 ≤ vX * dX + vY * dY ∧ vX * dX + vY * dY ≤ dX * dX + dY * dY ∧
      (vX * dY - vY * dX) * (vX * dY - vY * dX) ≤ p2 * (dX * dX + dY * dY)) := by
  have hne : dX * dX + dY * dY ≠ 0 := ne_of_gt hD
  have hdist : (vX - (vX * dX + vY * dY) / (dX * dX + dY * dY) * dX) *
          (vX - (vX * dX + vY * dY) / (dX * dX + dY * dY) * dX) +
        (vY - (vX * dX + vY * dY) / (dX * dX + dY * dY) * dY) *
          (vY - (vX * dX + vY * dY) / (dX * dX + dY * dY) * dY)
      = (vX * dY - vY * dX) * (vX * dY - vY * dX) / (dX * dX + dY * dY) := by
    field_simp
    ring
  rw [hdist, not_or, not_lt, not_lt, div_le_iff₀ hD, le_div_iff₀ hD, div_le_iff₀ hD]
  constructor
  · rintro ⟨⟨h1, h2⟩, h3⟩
    exact ⟨by linarith, by linarith, h3⟩
  · rintro ⟨h1, h2, h3⟩
    exact ⟨⟨by linarith, by linarith⟩, h3⟩

/-- Read in exact arithmetic, `lineSegmentIntersectsPosition` is the integer
reference. -/
theorem lineSegmentIntersectsPositionExact_eq_reference (origin target pos : Position)
    (padding : Int) :
    lineSegmentIntersectsPositionExact origin target pos padding
      = segmentNearPointReference origin target pos padding := by
  unfold lineSegmentIntersectsPositionExact segmentNearPointReference
  by_cases h : origin = target
  · subst h
    simp only [sub_self, Int.cast_zero, mul_zero, add_zero, if_true]
    rw [Bool.eq_iff_iff, decide_eq_true_eq, decide_eq_true_eq]
    constructor
    · intro hq
      exact_mod_cast hq
    · intro hz
      exact_mod_cast hz
  · have hpos : (0 : ℚ) < ((target.X - origin.X : Int) : ℚ) * ((target.X - origin.X : Int) : ℚ)
        + ((target.Y - origin.Y : Int) : ℚ) * ((target.Y - origin.Y : Int) : ℚ) := by
      have hz : 0 < (target.X - origin.X) * (target.X - origin.X)
          + (target.Y - origin.Y) * (target.Y - origin.Y) := by
        have h1 := mul_self_nonneg (target.X - origin.X)
        have h2 := mul_self_nonneg (target.Y - origin.Y)
        rcases lt_or_eq_of_le (add_nonneg h1 h2) with h3 | h3
        · exact h3
        · exfalso
          apply h
          have hx : target.X - origin.X = 0 := by nlinarith
          have hy : target.Y - origin.Y = 0 := by nlinarith
          cases origin
          cases target
          simp only [Position.mk.injEq]
          simp only at hx hy
          omega
      exact_mod_cast hz
    have hcore := segment_exact_core ((pos.X - origin.X : Int) : ℚ) ((pos.Y - origin.Y : Int) : ℚ)
      ((target.X - origin.X : Int) : ℚ) ((target.Y - origin.Y : Int) : ℚ)
      ((padding * padding : Int) : ℚ) hpos
    simp only [h, if_false, ne_of_gt hpos]
    have hX : (pos.X : ℚ) - ((origin.X : ℚ) +
          (((pos.X - origin.X : Int) : ℚ) * ((target.X - origin.X : Int) : ℚ) +
            ((pos.Y - origin.Y : Int) : ℚ) * ((target.Y - origin.Y : Int) : ℚ)) /
          (((target.X - origin.X : Int) : ℚ) * ((target.X - origin.X : Int) : ℚ) +
            ((target.Y - origin.Y : Int) : ℚ) * ((target.Y - origin.Y : Int) : ℚ)) *
          ((target.X - origin.X : Int) : ℚ))
        = ((pos.X - origin.X : Int) : ℚ) -
          (((pos.X - origin.X : Int) : ℚ) * ((target.X - origin.X : Int) : ℚ) +
            ((pos.Y - origin.Y : Int) : ℚ) * ((target.Y - origin.Y : Int) : ℚ)) /
          (((target.X - origin.X : Int) : ℚ) * ((target.X - origin.X : Int) : ℚ) +
            ((target.Y - origin.Y : Int) : ℚ) * ((target.Y - origin.Y : Int) : ℚ)) *
          ((target.X - origin.X : Int) : ℚ) := by
      push_cast
      ring
    have hY : (pos.Y : ℚ) - ((origin.Y : ℚ) +
          (((pos.X - origin.X : Int) : ℚ) * ((target.X - origin.X : Int) : ℚ) +
            ((pos.Y - origin.Y : Int) : ℚ) * ((target.Y - origin.Y : Int) : ℚ)) /
          (((target.X - origin.X : Int) : ℚ) * ((target.X - origin.X : Int) : ℚ) +
            ((target.Y - origin.Y : Int) : ℚ) * ((target.Y - origin.Y : Int) : ℚ)) *
          ((target.Y - origin.Y : Int) : ℚ))
        = ((pos.Y - origin.Y : Int) : ℚ) -
          (((pos.X - origin.X : Int) : ℚ) * ((target.X - origin.X : Int) : ℚ) +
            ((pos.Y - origin.Y : Int) : ℚ) * ((target.Y - origin.Y : Int) : ℚ)) /
          (((target.X - origin.X : Int) : ℚ) * ((target.X - origin.X : Int) : ℚ) +
            ((target.Y - origin.Y : Int) : ℚ) * ((target.Y - origin.Y : Int) : ℚ)) *
          ((target.Y - origin.Y : Int) : ℚ) := by
      push_cast
      ring
    rw [hX, hY, Bool.eq_iff_iff]
    have href : (0 ≤ (pos.X - origin.X) * (target.X - origin.X)
          + (pos.Y - origin.Y) * (target.Y - origin.Y) ∧
        (pos.X - origin.X) * (target.X - origin.X) + (pos.Y - origin.Y) * (target.Y - origin.Y)
          ≤ (target.X - origin.X) * (target.X - origin.X)
            + (target.Y - origin.Y) * (target.Y - origin.Y) ∧
        ((pos.X - origin.X) * (target.Y - origin.Y) - (pos.Y - origin.Y) * (target.X - origin.X))
          * ((pos.X - origin.X) * (target.Y - origin.Y)
            - (pos.Y - origin.Y) * (target.X - origin.X))
          ≤ padding * padding * ((target.X - origin.X) * (target.X - origin.X)
            + (target.Y - origin.Y) * (target.Y - origin.Y))) ↔
        (0 ≤ ((pos.X - origin.X : Int) : ℚ) * ((target.X - origin.X : Int) : ℚ)
            + ((pos.Y - origin.Y : Int) : ℚ) * ((target.Y - origin.Y : Int) : ℚ) ∧
          ((pos.X - origin.X : Int) : ℚ) * ((target.X - origin.X : Int) : ℚ)
            + ((pos.Y - origin.Y : Int) : ℚ) * ((target.Y - origin.Y : Int) : ℚ)
            ≤ ((target.X - origin.X : Int) : ℚ) * ((target.X - origin.X : Int) : ℚ)
              + ((target.Y - origin.Y : Int) : ℚ) * ((target.Y - origin.Y : Int) : ℚ) ∧
          (((pos.X - origin.X : Int) : ℚ) * ((target.Y - origin.Y : Int) : ℚ)
              - ((pos.Y - origin.Y : Int) : ℚ) * ((target.X - origin.X : Int) : ℚ))
            * (((pos.X - origin.X : Int) : ℚ) * ((target.Y - origin.Y : Int) : ℚ)
              - ((pos.Y - origin.Y : Int) : ℚ) * ((target.X - origin.X : Int) : ℚ))
            ≤ ((padding * padding : Int) : ℚ)
              * (((target.X - origin.X : Int) : ℚ) * ((target.X - origin.X : Int) : ℚ)
                + ((target.Y - origin.Y : Int) : ℚ) * ((target.Y - origin.Y : Int) : ℚ))) := by
      constructor
      · rintro ⟨h1, h2, h3⟩
        exact ⟨by exact_mod_cast h1, by exact_mod_cast h2, by exact_mod_cast h3⟩
      · rintro ⟨h1, h2, h3⟩
        exact ⟨by exact_mod_cast h1, by exact_mod_cast h2, by exact_mod_cast h3⟩
    rw [decide_eq_true_eq, href, ← hcore]
    split_ifs with ht
    · constructor
      · intro hf
        exact absurd hf (by decide)
      · rintro ⟨hn, _⟩
        exact absurd ht hn
    · rw [decide_eq_true_eq]
      constructor
      · intro hd
        exact ⟨ht, hd⟩
      · rintro ⟨_, hd⟩
        exact hd

set_option maxRecDepth 100000 in
/-- C20 as stated fails on the float64 code: for origin (0,0), target (9,12),
pos (6,3), padding 3 the point lies exactly at distance 3 from the segment
(`v·d = 90`, `|d|² = 225`, `(v×d)² = 2025 = 9·225`), so the reference is true, but
the rounded computation (t = 0.4, squared distance 9.000000000000002) is false. -/
theorem C20_counterexample :
    segmentNearPointReference ⟨0, 0⟩ ⟨9, 12⟩ ⟨6, 3⟩ 3 = true ∧
    lineSegmentIntersectsPosition ⟨0, 0⟩ ⟨9, 12⟩ ⟨6, 3⟩ 3 = false := by
  decide

end SegmentTest

/-! ## Claims on the boss tests -/

section Bosses

/-- C30 fails on the code: of the five act bosses listed in the switch of `IsActBoss`
only `BaalCrab` gives true; for Andariel, Duriel, Mephisto and Diablo the empty case
bodies leave the switch and the function returns false, and `IsQuestEnemy` is false
for them as well (when they are not seal elites). -/
theorem C30_act_boss_switch_does_not_fall_through :
    IsActBoss (namedMonster .Andariel) = false ∧
    IsActBoss (namedMonster .Duriel) = false ∧
    IsActBoss (namedMonster .Mephisto) = false ∧
    IsActBoss (namedMonster .Diablo) = false ∧
    IsActBoss (namedMonster .BaalCrab) = true ∧
    IsQuestEnemy (namedMonster .Andariel) = false ∧
    IsQuestEnemy (namedMonster .Duriel) = false ∧
    IsQuestEnemy (namedMonster .Mephisto) = false ∧
    IsQuestEnemy (namedMonster .Diablo) = false ∧
    IsQuestEnemy (namedMonster .BaalCrab) = true := by
  decide

/-- What the code does: `IsActBoss` is true exactly for `BaalCrab`. -/
theorem IsActBoss_iff (m : Monster) : IsActBoss m = true ↔ m.Name = NpcName.BaalCrab := by
  unfold IsActBoss
  cases m.Name <;> simp

end Bosses

/-! ## Claims on the pre-battle gate -/

section PreBattle

theorem FindByID_some (monsters : List Monster) (id : Nat) (m : Monster)
    (h : FindByID monsters id = some m) : m ∈ monsters ∧ m.UnitID = id := by
  unfold FindByID at h
  refine ⟨List.mem_of_find?_eq_some h, ?_⟩
  have := List.find?_some h
  simpa using this

/-- C26: `PreBattleChecks(id, skip)` returns true if and only if a monster with that
id is in the snapshot (the one `FindByID` returns), its life is > 0, either it is the
Vizier (SuperUnique StormCaster), or its distance from the agent exceeds 60, or its
tile is walkable and (the agent can teleport or a path to it exists), and it is immune
to none of the resistances in `skip`. In particular a missing or dead target is always
rejected, and the reachability checks apply to nearby targets only. -/
theorem C26_pre_battle_checks_iff (d : Data) (id : Nat) (skipOnImmunities : List Resist) :
    (PreBattleChecks d id skipOnImmunities = true ↔
      ∃ m, FindByID d.Monsters id = some m ∧ m ∈ d.Monsters ∧ m.UnitID = id ∧ 0 < m.Life ∧
        ((m.MType = MonsterType.SuperUnique ∧ m.Name = NpcName.StormCaster) ∨
          60 < DistanceFromMe d m.Position ∨
          (d.IsWalkable m.Position = true ∧
            (d.CanTeleport = true ∨ (d.GetPath m.Position).isSome = true))) ∧
        ∀ r ∈ skipOnImmunities, r ∉ m.Immunities) ∧
    (FindByID d.Monsters id = none → PreBattleChecks d id skipOnImmunities = false) ∧
    (∀ m, FindByID d.Monsters id = some m → m.Life ≤ 0 →
      PreBattleChecks d id skipOnImmunities = false) := by
  refine ⟨?_, ?_, ?_⟩
  · unfold PreBattleChecks
    cases hf : FindByID d.Monsters id with
    | none => simp
    | some m =>
      have hm := FindByID_some d.Monsters id m hf
      simp only [Option.some.injEq, exists_eq_left', sanityRangeYards]
      by_cases hlife : m.Life ≤ 0
      · simp only [hlife, if_true]
        constructor
        · intro h
          exact absurd h (by decide)
        · rintro ⟨_, _, h0, _⟩
          omega
      · simp only [hlife, if_false]
        have hpos : 0 < m.Life := by omega
        have himm : (skipOnImmunities.any (fun i => m.Immunities.contains i) = true) ↔
            ¬ ∀ r ∈ skipOnImmunities, r ∉ m.Immunities := by
          simp [List.any_eq_true]
        cases hw : d.IsWalkable m.Position <;> cases ht : d.CanTeleport <;>
          cases hp : (d.GetPath m.Position).isNone <;>
          by_cases hv : (m.MType = MonsterType.SuperUnique ∧ m.Name = NpcName.StormCaster) <;>
          by_cases hd : DistanceFromMe d m.Position ≤ 60 <;>
          by_cases hi : (skipOnImmunities.any (fun i => m.Immunities.contains i) = true) <;>
          simp_all [Option.isSome_iff_ne_none, Option.isNone_iff_eq_none]
  · intro hf
    unfold PreBattleChecks
    simp [hf]
  · intro m hf hlife
    unfold PreBattleChecks
    simp [hf, hlife]

end PreBattle

/-! ## Claims on the out-of-range counter of the dragon build -/

section DragonCounter

theorem recordDragonTarget_attempts (s : DragonSession) (id : Nat) (now : Int) :
    (recordDragonTarget s id now).outOfRangeAttempts = s.outOfRangeAttempts := by
  unfold recordDragonTarget
  split_ifs <;> rfl

/-- The loop body of the dragon build once every gate is passed. -/
theorem dragonTick_engaged (skipOnImmunities : List Resist) (s : DragonSession) (t : Tick)
    (id : Nat) (monster : Monster) (h : DragonEngages skipOnImmunities s t id monster) :
    dragonTick skipOnImmunities s t =
      if DistanceFromMe t.data monster.Position > dragondinMeleeRange then
        if PaladinDragon.tryKillNearby t.data skipOnImmunities dragondinImmediateThreatRange
            t.zealResult = true then
          ([Event.PauseIfNotPriority, Event.monsterSelector, Event.PreBattleChecks,
            Event.tryKillNearby dragondinImmediateThreatRange],
            some (recordDragonTarget s id t.now))
        else if t.moveToFails = false then
          ([Event.PauseIfNotPriority, Event.monsterSelector, Event.PreBattleChecks,
            Event.tryKillNearby dragondinImmediateThreatRange, Event.MoveTo monster.UnitID],
            some { recordDragonTarget s id t.now with outOfRangeAttempts := 0 })
        else if PaladinDragon.tryKillNearby t.dataAfterMove skipOnImmunities
            (dragondinMeleeRange + 3) t.zealResultAfterMove = true then
          ([Event.PauseIfNotPriority, Event.monsterSelector, Event.PreBattleChecks,
            Event.tryKillNearby dragondinImmediateThreatRange, Event.MoveTo monster.UnitID,
            Event.tryKillNearby (dragondinMeleeRange + 3)],
            some { recordDragonTarget s id t.now with outOfRangeAttempts := 0 })
        else if s.outOfRangeAttempts + 1 ≥ dragondinMaxOutOfRangeAttempts then
          ([Event.PauseIfNotPriority, Event.monsterSelector, Event.PreBattleChecks,
            Event.tryKillNearby dragondinImmediateThreatRange, Event.MoveTo monster.UnitID,
            Event.tryKillNearby (dragondinMeleeRange + 3),
            Event.LogEnded EndReason.out_of_range_attempts], none)
        else
          ([Event.PauseIfNotPriority, Event.monsterSelector, Event.PreBattleChecks,
            Event.tryKillNearby dragondinImmediateThreatRange, Event.MoveTo monster.UnitID,
            Event.tryKillNearby (dragondinMeleeRange + 3)],
            some { recordDragonTarget s id t.now with
              outOfRangeAttempts := s.outOfRangeAttempts + 1 })
      else
        ([Event.PauseIfNotPriority, Event.monsterSelector, Event.PreBattleChecks,
          Event.useZeal monster.UnitID],
          some { recordDragonTarget s id t.now with outOfRangeAttempts := 0 }) := by
  obtain ⟨hsel, hfound, hlife, hkeep, hpre, htime⟩ := h
  have hl : ¬ monster.Life ≤ 0 := by omega
  have hatt := recordDragonTarget_attempts s id t.now
  have hfold : (if id ≠ s.lastTargetID then
      ({ s with lastTargetID := id, targetStart := some t.now } : DragonSession) else s)
      = recordDragonTarget s id t.now := rfl
  unfold dragonTick
  simp only [hsel, hfound, hfold, hl, hkeep, hpre, htime, if_false, Bool.false_eq_true, hatt]
  by_cases hdist : DistanceFromMe t.data monster.Position > dragondinMeleeRange
  · simp only [hdist, if_true]
    by_cases hk1 : PaladinDragon.tryKillNearby t.data skipOnImmunities
        dragondinImmediateThreatRange t.zealResult = true
    · simp only [hk1, if_true]
      rfl
    · simp only [hk1, if_false, Bool.false_eq_true]
      cases hmove : t.moveToFails
      · simp [dragondinMaxOutOfRangeAttempts]
      · cases hk2 : PaladinDragon.tryKillNearby t.dataAfterMove skipOnImmunities
            (dragondinMeleeRange + 3) t.zealResultAfterMove
        · by_cases h20 : s.outOfRangeAttempts + 1 ≥ dragondinMaxOutOfRangeAttempts
          · simp [h20]
          · simp [h20]
        · simp [dragondinMaxOutOfRangeAttempts]
  · simp only [hdist, if_false]
    rfl

/-- One tick of the dragon loop either returns, or continues with the counter
unchanged, reset to 0, or grown by one (below the ceiling) after a failed movement and
a failed follow-up kill on an out-of-range target. -/
theorem dragonTick_counter_step (skipOnImmunities : List Resist) (s : DragonSession)
    (t : Tick) :
    (dragonTick skipOnImmunities s t).2 = none ∨
    ∃ s2, (dragonTick skipOnImmunities s t).2 = some s2 ∧
      (s2.outOfRangeAttempts = s.outOfRangeAttempts ∨ s2.outOfRangeAttempts = 0 ∨
        (s2.outOfRangeAttempts = s.outOfRangeAttempts + 1 ∧
          s.outOfRangeAttempts + 1 < dragondinMaxOutOfRangeAttempts ∧
          t.moveToFails = true ∧
          PaladinDragon.tryKillNearby t.dataAfterMove skipOnImmunities
            (dragondinMeleeRange + 3) t.zealResultAfterMove = false ∧
          ∃ id monster, DragonEngages skipOnImmunities s t id monster ∧
            DistanceFromMe t.data monster.Position > dragondinMeleeRange)) := by
  have hfold : ∀ id, (if id ≠ s.lastTargetID then
      ({ s with lastTargetID := id, targetStart := some t.now } : DragonSession) else s)
      = recordDragonTarget s id t.now := fun _ => rfl
  cases hsel : t.selected with
  | none =>
    left
    unfold dragonTick
    simp only [hsel]
  | some id =>
    have hatt := recordDragonTarget_attempts s id t.now
    cases hfound : FindByID t.data.Monsters id with
    | none =>
      right
      refine ⟨recordDragonTarget s id t.now, ?_, Or.inl hatt⟩
      unfold dragonTick
      simp only [hsel, hfound, hfold]
    | some monster =>
      by_cases hlife : monster.Life ≤ 0
      · right
        refine ⟨recordDragonTarget s id t.now, ?_, Or.inl hatt⟩
        unfold dragonTick
        simp only [hsel, hfound, hfold, hlife, if_true]
      cases hkeep : PaladinDragon.ShouldIgnoreMonster t.data monster
      swap
      · right
        refine ⟨recordDragonTarget s id t.now, ?_, Or.inl hatt⟩
        unfold dragonTick
        simp only [hsel, hfound, hfold, hlife, hkeep, if_true, if_false]
      cases hpre : PreBattleChecks t.data id skipOnImmunities
      · left
        unfold dragonTick
        simp only [hsel, hfound, hfold, hlife, hkeep, hpre, if_true, if_false,
          Bool.false_eq_true]
      cases htime : timedOut t.clock (recordDragonTarget s id t.now).targetStart
      swap
      · left
        unfold dragonTick
        simp only [hsel, hfound, hfold, hlife, hkeep, hpre, htime, if_true, if_false,
          Bool.false_eq_true, Bool.true_eq_false]
      have heng : DragonEngages skipOnImmunities s t id monster :=
        ⟨hsel, hfound, by omega, hkeep, hpre, htime⟩
      rw [dragonTick_engaged skipOnImmunities s t id monster heng]
      by_cases hdist : DistanceFromMe t.data monster.Position > dragondinMeleeRange
      · rw [if_pos hdist]
        by_cases hk1 : PaladinDragon.tryKillNearby t.data skipOnImmunities
            dragondinImmediateThreatRange t.zealResult = true
        · rw [if_pos hk1]
          exact Or.inr ⟨_, rfl, Or.inl hatt⟩
        · rw [if_neg hk1]
          by_cases hmove : t.moveToFails = false
          · rw [if_pos hmove]
            exact Or.inr ⟨_, rfl, Or.inr (Or.inl rfl)⟩
          · rw [if_neg hmove]
            by_cases hk2 : PaladinDragon.tryKillNearby t.dataAfterMove skipOnImmunities
                (dragondinMeleeRange + 3) t.zealResultAfterMove = true
            · rw [if_pos hk2]
              exact Or.inr ⟨_, rfl, Or.inr (Or.inl rfl)⟩
            · rw [if_neg hk2]
              by_cases h20 : s.outOfRangeAttempts + 1 ≥ dragondinMaxOutOfRangeAttempts
              · rw [if_pos h20]
                exact Or.inl rfl
              · rw [if_neg h20]
                refine Or.inr ⟨_, rfl, Or.inr (Or.inr ⟨rfl, by omega, by simpa using hmove,
                  by simpa using hk2, id, monster, heng, hdist⟩)⟩
      · rw [if_neg hdist]
        exact Or.inr ⟨_, rfl, Or.inr (Or.inl rfl)⟩

/-- The counter stays within `0 ≤ outOfRangeAttempts < 20` along every run. -/
theorem sessionsReached_counter (skipOnImmunities : List Resist) (ticks : List Tick) :
    ∀ s : DragonSession,
      0 ≤ s.outOfRangeAttempts → s.outOfRangeAttempts < dragondinMaxOutOfRangeAttempts →
      ∀ r ∈ sessionsReached (dragonTick skipOnImmunities) s ticks,
        0 ≤ r.outOfRangeAttempts ∧ r.outOfRangeAttempts < dragondinMaxOutOfRangeAttempts := by
  induction ticks with
  | nil => intro s _ _ r hr; simp [sessionsReached] at hr
  | cons t ts ih =>
    intro s h0 h20 r hr
    unfold sessionsReached at hr
    rcases List.mem_cons.mp hr with rfl | hr2
    · exact ⟨h0, h20⟩
    · rcases dragonTick_counter_step skipOnImmunities s t with hnone | ⟨s2, hs2, hstep⟩
      · rw [hnone] at hr2
        simp at hr2
      · rw [hs2] at hr2
        simp only at hr2
        have hmax : dragondinMaxOutOfRangeAttempts = 20 := rfl
        refine ih s2 ?_ ?_ r hr2
        · rcases hstep with h | h | ⟨h, _⟩ <;> omega
        · rcases hstep with h | h | ⟨h, h1, _⟩ <;> omega

set_option maxRecDepth 100000 in
/-- C27: in `PaladinDragon.KillMonsterSequence` the out-of-range counter satisfies
`0 <= outOfRangeAttempts < dragondinMaxOutOfRangeAttempts` (20) at the start of every
tick; a tick that continues leaves it unchanged, resets it to 0, or grows it by one,
and it grows by one only on a tick whose movement toward the (out-of-range) target
fails and whose follow-up nearby kill also fails; it is reset to 0 by a successful
movement, by a successful nearby kill after a failed movement, and by an in-range
attack; and the loop returns nil, with the reason `out_of_range_attempts`, on the tick
where it reaches 20 (19 stuck ticks leave the loop running, the 20th ends it). -/
theorem C27_out_of_range_counter (skipOnImmunities : List Resist) (ticks : List Tick) :
    (∀ r ∈ sessionsReached (dragonTick skipOnImmunities)
        { outOfRangeAttempts := 0, lastTargetID := 0, targetStart := none } ticks,
      0 ≤ r.outOfRangeAttempts ∧ r.outOfRangeAttempts < dragondinMaxOutOfRangeAttempts) ∧
    dragondinMaxOutOfRangeAttempts = 20 ∧
    (∀ (s : DragonSession) (t : Tick),
      (dragonTick skipOnImmunities s t).2 = none ∨
      ∃ s2, (dragonTick skipOnImmunities s t).2 = some s2 ∧
        (s2.outOfRangeAttempts = s.outOfRangeAttempts ∨ s2.outOfRangeAttempts = 0 ∨
          (s2.outOfRangeAttempts = s.outOfRangeAttempts + 1 ∧
            s.outOfRangeAttempts + 1 < dragondinMaxOutOfRangeAttempts ∧
            t.moveToFails = true ∧
            PaladinDragon.tryKillNearby t.dataAfterMove skipOnImmunities
              (dragondinMeleeRange + 3) t.zealResultAfterMove = false ∧
            ∃ id monster, DragonEngages skipOnImmunities s t id monster ∧
              DistanceFromMe t.data monster.Position > dragondinMeleeRange))) ∧
    (∀ (s : DragonSession) (t : Tick) (id : Nat) (monster : Monster),
      DragonEngages skipOnImmunities s t id monster →
      (DistanceFromMe t.data monster.Position ≤ dragondinMeleeRange →
        (dragonTick skipOnImmunities s t).2
          = some { recordDragonTarget s id t.now with outOfRangeAttempts := 0 }) ∧
      (DistanceFromMe t.data monster.Position > dragondinMeleeRange →
        PaladinDragon.tryKillNearby t.data skipOnImmunities dragondinImmediateThreatRange
          t.zealResult = false →
        (t.moveToFails = false →
          (dragonTick skipOnImmunities s t).2
            = some { recordDragonTarget s id t.now with outOfRangeAttempts := 0 }) ∧
        (t.moveToFails = true →
          PaladinDragon.tryKillNearby t.dataAfterMove skipOnImmunities
            (dragondinMeleeRange + 3) t.zealResultAfterMove = true →
          (dragonTick skipOnImmunities s t).2
            = some { recordDragonTarget s id t.now with outOfRangeAttempts := 0 }) ∧
        (t.moveToFails = true →
          PaladinDragon.tryKillNearby t.dataAfterMove skipOnImmunities
            (dragondinMeleeRange + 3) t.zealResultAfterMove = false →
          s.outOfRangeAttempts + 1 ≥ dragondinMaxOutOfRangeAttempts →
          ∀ later : List Tick,
            runLoop (dragonTick skipOnImmunities) s (t :: later)
              = ([Event.PauseIfNotPriority, Event.monsterSelector, Event.PreBattleChecks,
                  Event.tryKillNearby dragondinImmediateThreatRange,
                  Event.MoveTo monster.UnitID,
                  Event.tryKillNearby (dragondinMeleeRange + 3),
                  Event.LogEnded EndReason.out_of_range_attempts,
                  Event.resetTeleportOverride], some GoError.nil)))) ∧
    (PaladinDragon.KillMonsterSequence [] (List.replicate 19 stuckTick)).2 = none ∧
    (PaladinDragon.KillMonsterSequence [] (List.replicate 20 stuckTick)).2
      = some GoError.nil ∧
    ((PaladinDragon.KillMonsterSequence [] (List.replicate 20 stuckTick)).1.reverse.take 2
      = [Event.resetTeleportOverride, Event.LogEnded EndReason.out_of_range_attempts]) := by
  refine ⟨sessionsReached_counter skipOnImmunities ticks _ (le_refl _) (by decide), rfl,
    dragonTick_counter_step skipOnImmunities, ?_, by decide, by decide, by decide⟩
  intro s t id monster heng
  have htick := dragonTick_engaged skipOnImmunities s t id monster heng
  refine ⟨?_, ?_⟩
  · intro hd
    rw [htick, if_neg (by omega)]
  · intro hd hk1
    have hk1n : ¬ PaladinDragon.tryKillNearby t.data skipOnImmunities
        dragondinImmediateThreatRange t.zealResult = true := by simp [hk1]
    rw [if_pos hd, if_neg hk1n] at htick
    refine ⟨?_, ?_, ?_⟩
    · intro hm
      rw [htick, if_pos hm]
    · intro hm hk2
      rw [htick, if_neg (by simp [hm]), if_pos hk2]
    · intro hm hk2 h20 later
      rw [if_neg (by simp [hm]), if_neg (by simp [hk2]), if_pos h20] at htick
      unfold runLoop
      rw [htick]
      rfl

end DragonCounter

/-! ## Claims on the steps of `LineOfSight` -/

section LineOfSightSteps

/-- With x as major axis the loop steps in x on every iteration: from step counts
`(i, j)` the trace has `dx - i + 1` cells, each one step from the previous. -/
theorem lineOfSightTraceLoop_x_major (destination : Position) (ox oy dx dy sx sy : Int)
    (hdy : 0 ≤ dy) (hmajor : dy ≤ dx)
    (hX : destination.X = ox + sx * dx) (hY : destination.Y = oy + sy * dy)
    (hsx : sx = 1 ∨ sx = -1) (hsy : sy = 1 ∨ sy = -1) :
    ∀ (fuel : Nat) (i j err : Int), 0 ≤ i → i ≤ dx → 0 ≤ j → j ≤ dy →
      err = dx - dy - i * dy + j * dx →
      ((i = dx ∧ j = dy) ∨ (2 * err > -dy ∧ (dx = dy → err = 0))) →
      dx - i + 1 ≤ (fuel : Int) →
      ((lineOfSightTraceLoop destination dx dy sx sy fuel err (ox + sx * i) (oy + sy * j)).length
          : Int) = dx - i + 1 ∧
      List.Chain' StepAlongX
        (lineOfSightTraceLoop destination dx dy sx sy fuel err (ox + sx * i) (oy + sy * j)) ∧
      (lineOfSightTraceLoop destination dx dy sx sy fuel err (ox + sx * i) (oy + sy * j)).head?
        = some ⟨ox + sx * i, oy + sy * j⟩ := by
  intro fuel
  induction fuel with
  | zero => intro i j err _ hi _ _ _ _ hf; simp at hf; omega
  | succ fuel ih =>
    intro i j err hi0 hi hj0 hj herr hinv hf
    unfold lineOfSightTraceLoop
    have hdestiff : (ox + sx * i = destination.X ∧ oy + sy * j = destination.Y) ↔
        (i = dx ∧ j = dy) := by
      rw [hX, hY]
      constructor
      · rintro ⟨h1, h2⟩
        constructor
        · rcases hsx with h | h <;> subst h <;> omega
        · rcases hsy with h | h <;> subst h <;> omega
      · rintro ⟨h1, h2⟩
        subst h1 h2
        exact ⟨rfl, rfl⟩
    by_cases hdest : ox + sx * i = destination.X ∧ oy + sy * j = destination.Y
    · rw [if_pos hdest]
      have := hdestiff.mp hdest
      refine ⟨?_, ?_, rfl⟩
      · simp only [List.length_singleton]
        omega
      · exact List.chain'_singleton _
    · rw [if_neg hdest]
      have hnot : ¬ (i = dx ∧ j = dy) := fun h => hdest (hdestiff.mpr h)
      obtain ⟨he, heq⟩ := hinv.resolve_left hnot
      simp only [he, if_true]
      have hi2 : i < dx := by
        rcases lt_or_eq_of_le hi with h | h
        · exact h
        · exfalso
          subst h
          have hj2 : j < dy := by
            rcases lt_or_eq_of_le hj with h2 | h2
            · exact h2
            · exact absurd ⟨rfl, h2⟩ hnot
          have := mul_nonneg hi0 (by omega : 0 ≤ dy - 1 - j)
          nlinarith
      by_cases hys : 2 * err < dx
      · have hj2 : j < dy := by
          rcases lt_or_eq_of_le hj with h | h
          · exact h
          · exfalso
            subst h
            have := mul_nonneg hj0 (by omega : 0 ≤ dx - 1 - i)
            nlinarith
        simp only [hys, if_true]
        have hrec := ih (i + 1) (j + 1) (err - dy + dx) (by omega) (by omega) (by omega)
          (by omega) (by rw [herr]; ring)
          (Or.inr ⟨by omega, fun h => by have := heq h; omega⟩) (by push_cast at hf; omega)
        have hx1 : ox + sx * i + sx = ox + sx * (i + 1) := by ring
        have hy1 : oy + sy * j + sy = oy + sy * (j + 1) := by ring
        rw [hx1, hy1]
        obtain ⟨hlen, hchain, hhead⟩ := hrec
        refine ⟨?_, ?_, rfl⟩
        · simp only [List.length_cons]
          push_cast
          omega
        · rw [List.chain'_cons']
          refine ⟨?_, hchain⟩
          intro b hb
          rw [hhead] at hb
          simp only [Option.mem_def, Option.some.injEq] at hb
          subst hb
          unfold StepAlongX
          constructor
          · rcases hsx with h | h <;> subst h <;> simp
          · rcases hsy with h | h <;> subst h <;> simp
      · simp only [hys, if_false]
        have hrec := ih (i + 1) j (err - dy) (by omega) (by omega) (by omega)
          (by omega) (by rw [herr]; ring)
          (Or.inr ⟨by omega, fun h => by have := heq h; omega⟩) (by push_cast at hf; omega)
        have hx1 : ox + sx * i + sx = ox + sx * (i + 1) := by ring
        rw [hx1]
        obtain ⟨hlen, hchain, hhead⟩ := hrec
        refine ⟨?_, ?_, rfl⟩
        · simp only [List.length_cons]
          push_cast
          omega
        · rw [List.chain'_cons']
          refine ⟨?_, hchain⟩
          intro b hb
          rw [hhead] at hb
          simp only [Option.mem_def, Option.some.injEq] at hb
          subst hb
          unfold StepAlongX
          constructor
          · rcases hsx with h | h <;> subst h <;> simp
          · simp

/-- With y as major axis the loop steps in y on every iteration: from step counts
`(i, j)` the trace has `dy - j + 1` cells, each one step from the previous. -/
theorem lineOfSightTraceLoop_y_major (destination : Position) (ox oy dx dy sx sy : Int)
    (hdx : 0 ≤ dx) (hmajor : dx < dy)
    (hX : destination.X = ox + sx * dx) (hY : destination.Y = oy + sy * dy)
    (hsx : sx = 1 ∨ sx = -1) (hsy : sy = 1 ∨ sy = -1) :
    ∀ (fuel : Nat) (i j err : Int), 0 ≤ i → i ≤ dx → 0 ≤ j → j ≤ dy →
      err = dx - dy - i * dy + j * dx →
      2 * err < dx →
      dy - j + 1 ≤ (fuel : Int) →
      ((lineOfSightTraceLoop destination dx dy sx sy fuel err (ox + sx * i) (oy + sy * j)).length
          : Int) = dy - j + 1 ∧
      List.Chain' StepAlongY
        (lineOfSightTraceLoop destination dx dy sx sy fuel err (ox + sx * i) (oy + sy * j)) ∧
      (lineOfSightTraceLoop destination dx dy sx sy fuel err (ox + sx * i) (oy + sy * j)).head?
        = some ⟨ox + sx * i, oy + sy * j⟩ := by
  intro fuel
  induction fuel with
  | zero => intro i j err _ _ _ hj _ _ hf; simp at hf; omega
  | succ fuel ih =>
    intro i j err hi0 hi hj0 hj herr hinv hf
    unfold lineOfSightTraceLoop
    have hdestiff : (ox + sx * i = destination.X ∧ oy + sy * j = destination.Y) ↔
        (i = dx ∧ j = dy) := by
      rw [hX, hY]
      constructor
      · rintro ⟨h1, h2⟩
        constructor
        · rcases hsx with h | h <;> subst h <;> omega
        · rcases hsy with h | h <;> subst h <;> omega
      · rintro ⟨h1, h2⟩
        subst h1 h2
        exact ⟨rfl, rfl⟩
    by_cases hdest : ox + sx * i = destination.X ∧ oy + sy * j = destination.Y
    · rw [if_pos hdest]
      have := hdestiff.mp hdest
      refine ⟨?_, ?_, rfl⟩
      · simp only [List.length_singleton]
        omega
      · exact List.chain'_singleton _
    · rw [if_neg hdest]
      have hnot : ¬ (i = dx ∧ j = dy) := fun h => hdest (hdestiff.mpr h)
      simp only [hinv, if_true]
      have hj2 : j < dy := by
        rcases lt_or_eq_of_le hj with h | h
        · exact h
        · exfalso
          subst h
          have hi2 : i < dx := by
            rcases lt_or_eq_of_le hi with h2 | h2
            · exact h2
            · exact absurd ⟨h2, rfl⟩ hnot
          have := mul_nonneg hj0 (by omega : 0 ≤ dx - 1 - i)
          nlinarith
      by_cases hxs : 2 * err > -dy
      · have hi2 : i < dx := by
          rcases lt_or_eq_of_le hi with h | h
          · exact h
          · exfalso
            subst h
            have := mul_nonneg hi0 (by omega : 0 ≤ dy - 1 - j)
            nlinarith
        simp only [hxs, if_true]
        have hrec := ih (i + 1) (j + 1) (err - dy + dx) (by omega) (by omega) (by omega)
          (by omega) (by rw [herr]; ring) (by omega) (by push_cast at hf; omega)
        have hx1 : ox + sx * i + sx = ox + sx * (i + 1) := by ring
        have hy1 : oy + sy * j + sy = oy + sy * (j + 1) := by ring
        rw [hx1, hy1]
        obtain ⟨hlen, hchain, hhead⟩ := hrec
        refine ⟨?_, ?_, rfl⟩
        · simp only [List.length_cons]
          push_cast
          omega
        · rw [List.chain'_cons']
          refine ⟨?_, hchain⟩
          intro b hb
          rw [hhead] at hb
          simp only [Option.mem_def, Option.some.injEq] at hb
          subst hb
          unfold StepAlongY
          constructor
          · rcases hsy with h | h <;> subst h <;> simp
          · rcases hsx with h | h <;> subst h <;> simp
      · simp only [hxs, if_false]
        have hrec := ih i (j + 1) (err + dx) (by omega) (by omega) (by omega)
          (by omega) (by rw [herr]; ring) (by omega) (by push_cast at hf; omega)
        have hy1 : oy + sy * j + sy = oy + sy * (j + 1) := by ring
        rw [hy1]
        obtain ⟨hlen, hchain, hhead⟩ := hrec
        refine ⟨?_, ?_, rfl⟩
        · simp only [List.length_cons]
          push_cast
          omega
        · rw [List.chain'_cons']
          refine ⟨?_, hchain⟩
          intro b hb
          rw [hhead] at hb
          simp only [Option.mem_def, Option.some.injEq] at hb
          subst hb
          unfold StepAlongY
          constructor
          · rcases hsy with h | h <;> subst h <;> simp
          · simp

/-- The trace from origin to destination has `max(|dx|, |dy|) + 1` cells and every
step of it is a step along the major axis. -/
theorem lineOfSightTrace_steps (origin destination : Position) :
    (lineOfSightTrace origin destination).length
        = max (destination.X - origin.X).natAbs (destination.Y - origin.Y).natAbs + 1 ∧
      List.Chain' (StepAlongMajor origin destination) (lineOfSightTrace origin destination) := by
  have hsx : (if origin.X > destination.X then (-1 : Int) else 1) = 1 ∨
      (if origin.X > destination.X then (-1 : Int) else 1) = -1 := by
    split_ifs <;> simp
  have hsy : (if origin.Y > destination.Y then (-1 : Int) else 1) = 1 ∨
      (if origin.Y > destination.Y then (-1 : Int) else 1) = -1 := by
    split_ifs <;> simp
  have hX : destination.X = origin.X + (if origin.X > destination.X then (-1 : Int) else 1)
      * ((destination.X - origin.X).natAbs : Int) := by split_ifs <;> omega
  have hY : destination.Y = origin.Y + (if origin.Y > destination.Y then (-1 : Int) else 1)
      * ((destination.Y - origin.Y).natAbs : Int) := by split_ifs <;> omega
  unfold lineOfSightTrace lineOfSightFuel
  simp only []
  by_cases hle : (destination.Y - origin.Y).natAbs ≤ (destination.X - origin.X).natAbs
  · have h := lineOfSightTraceLoop_x_major destination origin.X origin.Y
      ((destination.X - origin.X).natAbs : Int) ((destination.Y - origin.Y).natAbs : Int)
      (if origin.X > destination.X then -1 else 1) (if origin.Y > destination.Y then -1 else 1)
      (Int.natCast_nonneg _) (by exact_mod_cast hle) hX hY hsx hsy
      ((destination.X - origin.X).natAbs + (destination.Y - origin.Y).natAbs + 1) 0 0
      (((destination.X - origin.X).natAbs : Int) - ((destination.Y - origin.Y).natAbs : Int))
      le_rfl (Int.natCast_nonneg _) le_rfl (Int.natCast_nonneg _) (by ring)
      (by
        by_cases h0 : (destination.X - origin.X).natAbs = 0
        · left; omega
        · right; omega)
      (by omega)
    simp only [mul_zero, add_zero, sub_zero] at h
    obtain ⟨hlen, hchain, -⟩ := h
    have hfun : StepAlongMajor origin destination = StepAlongX := by
      funext a b
      unfold StepAlongMajor
      rw [if_pos hle]
    rw [hfun]
    refine ⟨?_, hchain⟩
    rw [max_eq_left hle]
    exact_mod_cast hlen
  · have h := lineOfSightTraceLoop_y_major destination origin.X origin.Y
      ((destination.X - origin.X).natAbs : Int) ((destination.Y - origin.Y).natAbs : Int)
      (if origin.X > destination.X then -1 else 1) (if origin.Y > destination.Y then -1 else 1)
      (Int.natCast_nonneg _) (by exact_mod_cast not_le.mp hle) hX hY hsx hsy
      ((destination.X - origin.X).natAbs + (destination.Y - origin.Y).natAbs + 1) 0 0
      (((destination.X - origin.X).natAbs : Int) - ((destination.Y - origin.Y).natAbs : Int))
      le_rfl (Int.natCast_nonneg _) le_rfl (Int.natCast_nonneg _) (by ring)
      (by have := not_le.mp hle; omega)
      (by omega)
    simp only [mul_zero, add_zero, sub_zero] at h
    obtain ⟨hlen, hchain, -⟩ := h
    have hfun : StepAlongMajor origin destination = StepAlongY := by
      funext a b
      unfold StepAlongMajor
      rw [if_neg hle]
    rw [hfun]
    refine ⟨?_, hchain⟩
    rw [max_eq_right (le_of_lt (not_le.mp hle))]
    exact_mod_cast hlen

end LineOfSightSteps

/-- C28: for every grid, origin and destination the stepping loop of `LineOfSight`
returns; on a fully walkable grid it answers true, its trace starts at the origin, ends
at the destination and tests exactly `max(|dx|, |dy|) + 1` cells (so it takes
`max(|dx|, |dy|)` steps), and each step moves by one cell along the major axis and by
at most one cell along the other. -/
theorem C28_line_of_sight_terminates_in_major_axis_steps (walkable : Position → Bool)
    (origin destination : Position) :
    (lineOfSightRun walkable origin destination).isSome = true ∧
      LineOfSight (fun _ => true) origin destination = true ∧
      (lineOfSightTrace origin destination).head? = some origin ∧
      (lineOfSightTrace origin destination).getLast? = some destination ∧
      (lineOfSightTrace origin destination).length
        = max (destination.X - origin.X).natAbs (destination.Y - origin.Y).natAbs + 1 ∧
      List.Chain' (StepAlongMajor origin destination) (lineOfSightTrace origin destination) := by
  refine ⟨lineOfSightRun_isSome walkable origin destination, ?_,
    lineOfSightTrace_head origin destination, lineOfSightTrace_getLast origin destination,
    (lineOfSightTrace_steps origin destination).1, (lineOfSightTrace_steps origin destination).2⟩
  rw [LineOfSight_eq_all]
  simp

/-! ## Claims on the Charge gate -/

/-- C23: whenever `tryChargeMove` returns true for the target position taken by
`firstWorldPos` from the supplied world positions, the left skill is Charge, the area
is neither a town nor UberTristram, a first world position was supplied and is not the
zero position, mana is found and at least 9, the distance from the player to the target
is at least `MovementSkillMinDistance` (7), `LineOfSight` from the player to the target
holds, no enemy is within padding 3 of the segment by `lineSegmentIntersectsPosition`,
and no object that has collision or is selectable (doors included) is. -/
theorem C23_charge_gate_true_implies_conditions (d : Data) (worldPos : List Position)
    (targetPos : Position) (hasTargetPos : Bool)
    (hfirst : firstWorldPos worldPos = (targetPos, hasTargetPos))
    (h : tryChargeMove d targetPos hasTargetPos = true) :
    d.LeftSkill = SkillID.Charge ∧ d.AreaIsTown = false ∧ d.AreaIsUberTristram = false ∧
      (worldPos.head? = some targetPos ∧ ¬ (targetPos.X = 0 ∧ targetPos.Y = 0)) ∧
      (∃ mana, d.Mana = some mana ∧ 9 ≤ mana) ∧
      MovementSkillMinDistance = 7 ∧
      MovementSkillMinDistance ≤ DistanceFromPoint d.PlayerPosition targetPos ∧
      LineOfSight d.IsWalkable d.PlayerPosition targetPos = true ∧
      (∀ m ∈ d.Enemies,
        lineSegmentIntersectsPosition d.PlayerPosition targetPos m.Position 3 = false) ∧
      (∀ o ∈ d.Objects, o.HasCollision = true ∨ o.Selectable = true →
        lineSegmentIntersectsPosition d.PlayerPosition targetPos o.Position 3 = false) := by
  unfold tryChargeMove at h
  by_cases h1 : d.LeftSkill ≠ SkillID.Charge
  · rw [if_pos h1] at h; exact absurd h (by decide)
  rw [if_neg h1] at h
  by_cases h2 : (d.AreaIsTown || d.AreaIsUberTristram) = true
  · rw [if_pos h2] at h; exact absurd h (by decide)
  rw [if_neg h2] at h
  by_cases h3 : (!hasTargetPos) = true
  · rw [if_pos h3] at h; exact absurd h (by decide)
  rw [if_neg h3] at h
  cases hm : d.Mana with
  | none => rw [hm] at h; simp at h
  | some mana =>
    rw [hm] at h
    simp only [] at h
    by_cases h4 : mana < chargeMinMana
    · rw [if_pos h4] at h; exact absurd h (by decide)
    rw [if_neg h4] at h
    by_cases h5 : chargeWeaponUnusable (chargeWeapon d) = true
    · rw [if_pos h5] at h; exact absurd h (by decide)
    rw [if_neg h5] at h
    by_cases h6 : DistanceFromPoint d.PlayerPosition targetPos < MovementSkillMinDistance
    · rw [if_pos h6] at h; exact absurd h (by decide)
    rw [if_neg h6] at h
    by_cases h7 : (!LineOfSight d.IsWalkable d.PlayerPosition targetPos) = true
    · rw [if_pos h7] at h; exact absurd h (by decide)
    rw [if_neg h7] at h
    by_cases h8 : d.Enemies.any (fun m =>
        lineSegmentIntersectsPosition d.PlayerPosition targetPos m.Position chargePathPadding)
        = true
    · rw [if_pos h8] at h; exact absurd h (by decide)
    rw [if_neg h8] at h
    by_cases h9 : d.Objects.any (fun o => (o.HasCollision || o.Selectable)
        && lineSegmentIntersectsPosition d.PlayerPosition targetPos o.Position chargePathPadding)
        = true
    · rw [if_pos h9] at h; exact absurd h (by decide)
    have hhas : hasTargetPos = true := by
      cases hasTargetPos
      · exact absurd rfl h3
      · rfl
    subst hhas
    have hpos : worldPos.head? = some targetPos ∧ ¬ (targetPos.X = 0 ∧ targetPos.Y = 0) := by
      unfold firstWorldPos at hfirst
      cases worldPos with
      | nil => simp at hfirst
      | cons p rest =>
        simp only [] at hfirst
        by_cases hz : p.X = 0 ∧ p.Y = 0
        · rw [if_pos hz] at hfirst; simp at hfirst
        · rw [if_neg hz] at hfirst
          have hp : p = targetPos := (Prod.mk.inj hfirst).1
          subst hp
          exact ⟨rfl, hz⟩
    refine ⟨not_not.mp h1, ?_, ?_, hpos, ⟨mana, rfl, ?_⟩, rfl, not_lt.mp h6, ?_, ?_, ?_⟩
    · cases ht : d.AreaIsTown
      · rfl
      · rw [ht] at h2; exact absurd rfl h2
    · cases hu : d.AreaIsUberTristram
      · rfl
      · rw [hu, Bool.or_true] at h2; exact absurd rfl h2
    · unfold chargeMinMana at h4; omega
    · cases hl : LineOfSight d.IsWalkable d.PlayerPosition targetPos
      · rw [hl] at h7; exact absurd rfl h7
      · rfl
    · intro m hmem
      cases hi : lineSegmentIntersectsPosition d.PlayerPosition targetPos m.Position 3
      · rfl
      · exact absurd (List.any_eq_true.mpr ⟨m, hmem, hi⟩) h8
    · intro o hmem ho
      cases hi : lineSegmentIntersectsPosition d.PlayerPosition targetPos o.Position 3
      · rfl
      · refine absurd (List.any_eq_true.mpr ⟨o, hmem, ?_⟩) h9
        show ((o.HasCollision || o.Selectable)
          && lineSegmentIntersectsPosition d.PlayerPosition targetPos o.Position 3) = true
        rw [hi, Bool.and_true]
        rcases ho with ho | ho <;> rw [ho] <;> simp

set_option maxRecDepth 100000 in
/-- Witness for C23: a paladin with 20 mana and a sound blade charges 10 cells along an
open field with an enemy and a door well off the segment. -/
theorem C23_charge_gate_true_implies_conditions_witness :
    firstWorldPos [⟨10, 0⟩, ⟨4, 4⟩] = (⟨10, 0⟩, true) ∧
      tryChargeMove (chargeField [bladeWith false false (some 12)]
        [monsterAt 1 .None 5 9 10 false] [⟨⟨3, -8⟩, true, true, true⟩]) ⟨10, 0⟩ true = true ∧
      (chargeField [bladeWith false false (some 12)]
        [monsterAt 1 .None 5 9 10 false] [⟨⟨3, -8⟩, true, true, true⟩]).LeftSkill
        = SkillID.Charge ∧
      MovementSkillMinDistance ≤ DistanceFromPoint ⟨0, 0⟩ ⟨10, 0⟩ :=
  have h := C23_charge_gate_true_implies_conditions
    (chargeField [bladeWith false false (some 12)]
      [monsterAt 1 .None 5 9 10 false] [⟨⟨3, -8⟩, true, true, true⟩])
    [⟨10, 0⟩, ⟨4, 4⟩] ⟨10, 0⟩ true (by decide) (by decide)
  ⟨by decide, by decide, h.1, h.2.2.2.2.2.2.1⟩

set_option maxRecDepth 100000 in
/-- C24, counterexample: with a blade in the active slot that has offensive stats, is
flagged broken and carries the Indestructible stat, `tryChargeMove` returns true on an
open field with the target 10 cells away. -/
theorem C24_counterexample :
    chargeWeapon (chargeField [bladeWith true true none] [] []) = bladeWith true true none ∧
      isWeapon (bladeWith true true none) = true ∧
      (bladeWith true true none).IsBroken = true ∧
      (bladeWith true true none).Indestructible = true ∧
      tryChargeMove (chargeField [bladeWith true true none] [] []) ⟨10, 0⟩ true = true := by
  decide

/-- C24, amended: `tryChargeMove` returns false whenever the item found in the active
weapon slot (unit id not zero) has offensive stats, is flagged broken and does not
carry the Indestructible stat. -/
theorem C24_broken_destructible_weapon_rejects (d : Data) (targetPos : Position)
    (hasTargetPos : Bool) (hid : (chargeWeapon d).UnitID ≠ 0)
    (hweapon : isWeapon (chargeWeapon d) = true) (hbroken : (chargeWeapon d).IsBroken = true)
    (hind : (chargeWeapon d).Indestructible = false) :
    tryChargeMove d targetPos hasTargetPos = false := by
  have hun : chargeWeaponUnusable (chargeWeapon d) = true := by
    unfold chargeWeaponUnusable
    rw [if_pos hid, if_pos hweapon, hind, hbroken]
    rfl
  unfold tryChargeMove
  by_cases h1 : d.LeftSkill ≠ SkillID.Charge
  · rw [if_pos h1]
  rw [if_neg h1]
  by_cases h2 : (d.AreaIsTown || d.AreaIsUberTristram) = true
  · rw [if_pos h2]
  rw [if_neg h2]
  by_cases h3 : (!hasTargetPos) = true
  · rw [if_pos h3]
  rw [if_neg h3]
  cases hm : d.Mana with
  | none => rfl
  | some mana =>
    simp only []
    by_cases h4 : mana < chargeMinMana
    · rw [if_pos h4]
    rw [if_neg h4, if_pos hun]

set_option maxRecDepth 100000 in
/-- Witness for the amended C24: a broken blade without the Indestructible stat. -/
theorem C24_broken_destructible_weapon_rejects_witness :
    (chargeWeapon (chargeField [bladeWith true false (some 5)] [] [])).UnitID ≠ 0 ∧
      tryChargeMove (chargeField [bladeWith true false (some 5)] [] []) ⟨10, 0⟩ true = false :=
  ⟨by decide, C24_broken_destructible_weapon_rejects
    (chargeField [bladeWith true false (some 5)] [] []) ⟨10, 0⟩ true
    (by decide) (by decide) (by decide) (by decide)⟩

/-! ## Claims on the inline blocking test -/

set_option maxRecDepth 100000 in
/-- C25, counterexample: the inline test of `RetargetIfBlockedBeyondRange` and
`lineSegmentIntersectsPosition` with padding 3 disagree in both directions. A living
enemy two cells beside the agent, closer than the target at (12, 0), is accepted by the
primitive and not by the inline test (its projection is the segment end); an enemy at
(6, 3) with the target at (9, 12) lies exactly at distance 3 from the line and is
accepted by the inline test and not by the primitive. -/
theorem C25_counterexample :
    (lineSegmentIntersectsPosition ⟨0, 0⟩ ⟨12, 0⟩ ⟨0, 2⟩ 3 = true ∧
      blocksLine (openField false [monsterAt 1 .None 0 2 10 false, monsterAt 2 .None 12 0 10 false])
        (monsterAt 2 .None 12 0 10 false) 12 (monsterAt 1 .None 0 2 10 false) = false) ∧
    (lineSegmentIntersectsPosition ⟨0, 0⟩ ⟨9, 12⟩ ⟨6, 3⟩ 3 = false ∧
      blocksLine (openField false [monsterAt 1 .None 6 3 10 false, monsterAt 2 .None 9 12 10 false])
        (monsterAt 2 .None 9 12 10 false) 15 (monsterAt 1 .None 6 3 10 false) = true) := by
  decide

/-- C25, amended: for every snapshot, target and candidate, the candidate sets
`blocked` in the first test of `RetargetIfBlockedBeyondRange` exactly when it is
another living enemy closer than the target, its projection falls strictly inside the
segment agent→target (`0 < dot < lineLenSq`), and `lineSegmentIntersectsPosition`
with padding 3, read in exact arithmetic, accepts it. -/
theorem C25_inline_test_is_exact_primitive_strictly_inside (d : Data) (target : Monster)
    (targetDistance : Int) (candidate : Monster) :
    blocksLine d target targetDistance candidate
      = (decide (candidate.UnitID ≠ target.UnitID) && decide (0 < candidate.Life)
          && decide (DistanceFromMe d candidate.Position < targetDistance)
          && projectsStrictlyInside d.PlayerPosition target.Position candidate.Position
          && lineSegmentIntersectsPositionExact d.PlayerPosition target.Position
              candidate.Position 3) := by
  rw [lineSegmentIntersectsPositionExact_eq_reference]
  unfold blocksLine projectsStrictlyInside segmentNearPointReference pathBlockerPadding
  simp only []
  by_cases hid : candidate.UnitID = target.UnitID
  · simp [hid]
  by_cases hlife : candidate.Life ≤ 0
  · have : ¬ 0 < candidate.Life := not_lt.mpr hlife
    simp [hid, hlife, this]
  by_cases hdist : DistanceFromMe d candidate.Position ≥ targetDistance
  · have : ¬ DistanceFromMe d candidate.Position < targetDistance := not_lt.mpr hdist
    simp [hid, hlife, hdist, this]
  have hlife2 : 0 < candidate.Life := not_le.mp hlife
  have hdist2 : DistanceFromMe d candidate.Position < targetDistance := not_le.mp hdist
  rw [if_neg hid, if_neg hlife, if_neg hdist]
  simp only [hid, hlife2, hdist2, ne_eq, not_false_eq_true, decide_True, Bool.true_and]
  by_cases heq : d.PlayerPosition = target.Position
  · rw [if_pos heq]
    have hX : target.Position.X - d.PlayerPosition.X = 0 := by rw [heq]; omega
    have hY : target.Position.Y - d.PlayerPosition.Y = 0 := by rw [heq]; omega
    simp [hX, hY]
  · rw [if_neg heq]
    by_cases hdot : (candidate.Position.X - d.PlayerPosition.X)
          * (target.Position.X - d.PlayerPosition.X)
        + (candidate.Position.Y - d.PlayerPosition.Y)
          * (target.Position.Y - d.PlayerPosition.Y) ≤ 0
        ∨ (candidate.Position.X - d.PlayerPosition.X)
          * (target.Position.X - d.PlayerPosition.X)
        + (candidate.Position.Y - d.PlayerPosition.Y)
          * (target.Position.Y - d.PlayerPosition.Y)
        ≥ (target.Position.X - d.PlayerPosition.X) * (target.Position.X - d.PlayerPosition.X)
          + (target.Position.Y - d.PlayerPosition.Y) * (target.Position.Y - d.PlayerPosition.Y)
    · rw [if_pos hdot]
      symm
      rw [Bool.and_eq_false_iff]
      left
      rw [decide_eq_false_iff_not]
      rintro ⟨h1, h2⟩
      rcases hdot with h | h <;> omega
    · rw [if_neg hdot]
      rw [not_or, not_le, not_le] at hdot
      rw [Bool.eq_iff_iff]
      simp only [Bool.and_eq_true, decide_eq_true_eq]
      constructor
      · intro h
        exact ⟨⟨hdot.1, hdot.2⟩, le_of_lt hdot.1, le_of_lt hdot.2, h⟩
      · intro h
        exact h.2.2.2

/-! ## Claims on the float conversions -/

theorem bitLengthFrom_le (fuel : Nat) : ∀ (n k : Nat), n < 2 ^ k → bitLengthFrom fuel n ≤ k := by
  induction fuel with
  | zero => intro n k _; exact Nat.zero_le _
  | succ fuel ih =>
    intro n k h
    unfold bitLengthFrom
    by_cases hn : n = 0
    · rw [if_pos hn]; exact Nat.zero_le _
    · rw [if_neg hn]
      cases k with
      | zero => simp at h; exact absurd h hn
      | succ k =>
        have : n / 2 < 2 ^ k := by
          rw [Nat.div_lt_iff_lt_mul (by decide)]
          rw [pow_succ] at h
          exact h
        exact Nat.succ_le_succ (ih _ _ this)

theorem bitLength_le_of_lt (n k : Nat) (h : n < 2 ^ k) : bitLength n ≤ k :=
  bitLengthFrom_le n n k h

theorem roundNearestEven_of_lt (prec : Nat) (mant expo : Int) (h : mant.natAbs < 2 ^ prec) :
    roundNearestEven prec mant expo = ⟨mant, expo⟩ := by
  unfold roundNearestEven
  simp only []
  rw [if_pos (bitLength_le_of_lt _ _ h)]

theorem truncRat_intCast (n : Int) : truncRat (n : ℚ) = n := by
  unfold truncRat
  split_ifs <;> simp

theorem Binary64.toInt_eq_truncRat (x : Binary64) : x.toInt = truncRat x.toRat := by
  unfold Binary64.toInt Binary64.toRat
  by_cases he : 0 ≤ x.expo
  · rw [if_pos he]
    obtain ⟨n, hn⟩ := Int.eq_ofNat_of_zero_le he
    rw [hn]
    simp only [Int.toNat_ofNat, zpow_natCast]
    have : ((x.mant : ℚ) * 2 ^ n) = ((x.mant * 2 ^ n : Int) : ℚ) := by push_cast; ring
    rw [this, truncRat_intCast]
  · rw [if_neg he]
    have hneg : x.expo = -((-x.expo).toNat : Int) := by
      rw [Int.toNat_of_nonneg (by omega)]; ring
    generalize (-x.expo).toNat = n at hneg
    rw [hneg, zpow_neg, zpow_natCast]
    have hval : (x.mant : ℚ) * ((2 : ℚ) ^ n)⁻¹ = (x.mant : ℚ) / ((2 ^ n : Nat) : ℚ) := by
      push_cast; rw [div_eq_mul_inv]
    rw [hval]
    have hpow : ((2 : Int) ^ n) = ((2 ^ n : Nat) : Int) := by push_cast; rfl
    rw [hpow]
    unfold truncRat
    have hpos : (0 : ℚ) < ((2 ^ n : Nat) : ℚ) := by positivity
    by_cases hm : 0 ≤ x.mant
    · have : (0 : ℚ) ≤ (x.mant : ℚ) / ((2 ^ n : Nat) : ℚ) :=
        div_nonneg (by exact_mod_cast hm) (le_of_lt hpos)
      rw [if_pos this, Rat.floor_intCast_div_natCast]
      exact Int.tdiv_eq_ediv hm (Int.natCast_nonneg _)
    · have hm2 : x.mant < 0 := not_le.mp hm
      have : ¬ (0 : ℚ) ≤ (x.mant : ℚ) / ((2 ^ n : Nat) : ℚ) := by
        rw [not_le]
        exact div_neg_of_neg_of_pos (by exact_mod_cast hm2) hpos
      rw [if_neg this]
      have h1 : (x.mant : ℚ) / ((2 ^ n : Nat) : ℚ) = -(((-x.mant : Int) : ℚ) / ((2 ^ n : Nat) : ℚ)) := by
        push_cast; ring
      rw [h1, Int.ceil_neg, Rat.floor_intCast_div_natCast]
      have h2 : x.mant = -(-x.mant) := by ring
      conv_lhs => rw [h2]
      rw [Int.neg_tdiv, Int.tdiv_eq_ediv (by omega) (Int.natCast_nonneg _)]

theorem roundNearestEven_toRat_of_dvd (prec : Nat) (mant expo : Int)
    (h : bitLength mant.natAbs ≤ prec ∨ 2 ^ (bitLength mant.natAbs - prec) ∣ mant.natAbs) :
    (roundNearestEven prec mant expo).toRat = (mant : ℚ) * (2 : ℚ) ^ expo := by
  unfold roundNearestEven
  simp only []
  by_cases hlen : bitLength mant.natAbs ≤ prec
  · rw [if_pos hlen]
    rfl
  · rw [if_neg hlen]
    have hdvd := h.resolve_left hlen
    have hs : 0 < bitLength mant.natAbs - prec := by omega
    generalize bitLength mant.natAbs - prec = s at hdvd hs
    obtain ⟨q, hq⟩ := hdvd
    have hpos : 0 < 2 ^ s := Nat.two_pow_pos s
    have hr : mant.natAbs % 2 ^ s = 0 := by rw [hq]; exact Nat.mul_mod_right _ _
    have hdiv : mant.natAbs / 2 ^ s = q := by rw [hq]; exact Nat.mul_div_cancel_left _ hpos
    have hhalf : 0 < 2 ^ (s - 1) := Nat.two_pow_pos _
    have hno : ¬ (mant.natAbs % 2 ^ s > 2 ^ (s - 1)
        ∨ (mant.natAbs % 2 ^ s = 2 ^ (s - 1) ∧ mant.natAbs / 2 ^ s % 2 = 1)) := by
      rw [hr]
      rintro (h1 | ⟨h1, -⟩) <;> omega
    rw [if_neg hno, hdiv]
    unfold Binary64.toRat
    simp only []
    have h2 : (2 : ℚ) ^ (expo + (s : Int)) = (2 : ℚ) ^ expo * (2 : ℚ) ^ s := by
      rw [zpow_add₀ (by norm_num), zpow_natCast]
    rw [h2]
    by_cases hneg : mant < 0
    · rw [if_pos hneg]
      have hm : mant = -((2 ^ s * q : Nat) : Int) := by
        rw [← hq]; omega
      rw [hm]
      push_cast
      ring
    · rw [if_neg hneg]
      have hm : mant = ((2 ^ s * q : Nat) : Int) := by
        rw [← hq]; omega
      rw [hm]
      push_cast
      ring

theorem Binary32.add_zero_mant_toRat (e : Int) (half : Int) (hh : half.natAbs < 2 ^ 24) :
    (Binary32.add ⟨0, e⟩ ⟨half, 0⟩).toRat = (half : ℚ) := by
  unfold Binary32.add Binary64.mantAt
  simp only [zero_mul, zero_add]
  generalize hn : (0 - min e 0).toNat = n
  have hexp : min e 0 = -(n : Int) := by
    rw [← hn, Int.toNat_of_nonneg (by have := min_le_right e 0; omega)]
    ring
  have habs : (half * 2 ^ n).natAbs = half.natAbs * 2 ^ n := by
    rw [Int.natAbs_mul, Int.natAbs_pow]
    rfl
  have hlt : (half * 2 ^ n).natAbs < 2 ^ (24 + n) := by
    rw [habs, pow_add]
    exact Nat.mul_lt_mul_of_lt_of_le hh le_rfl (Nat.two_pow_pos n)
  have hbl := bitLength_le_of_lt _ _ hlt
  rw [roundNearestEven_toRat_of_dvd, hexp]
  · push_cast
    rw [zpow_neg, zpow_natCast, mul_assoc, mul_inv_cancel₀ (by positivity), mul_one]
  · by_cases hle : bitLength (half * 2 ^ n).natAbs ≤ 24
    · exact Or.inl hle
    · right
      rw [habs] at hbl ⊢
      exact Dvd.dvd.mul_left (pow_dvd_pow 2 (by omega)) _

theorem screenCoordValue_zero (scaleNum half : Int) (hh : half.natAbs < 2 ^ 24) :
    (screenCoordValue 0 scaleNum half).toInt = half := by
  rw [Binary64.toInt_eq_truncRat]
  unfold screenCoordValue
  have h0 : Binary32.ofInt 0 = ⟨0, 0⟩ := rfl
  have hmul : Binary32.mul ⟨0, 0⟩ (Binary32.ofRatio scaleNum 10)
      = ⟨0, (Binary32.ofRatio scaleNum 10).expo⟩ := by
    unfold Binary32.mul
    simp only [zero_mul, zero_add]
    exact roundNearestEven_of_lt 24 0 _ (by decide)
  have hh2 : Binary32.ofInt half = ⟨half, 0⟩ := roundNearestEven_of_lt 24 half 0 hh
  rw [h0, hmul, hh2, Binary32.add_zero_mant_toRat _ _ hh, truncRat_intCast]

theorem bitLengthFrom_pos (fuel n : Nat) (hn : n ≠ 0) (hf : n ≤ fuel) :
    0 < bitLengthFrom fuel n := by
  cases fuel with
  | zero => omega
  | succ fuel =>
    unfold bitLengthFrom
    rw [if_neg hn]
    exact Nat.succ_pos _

theorem bitLengthFrom_lower (fuel : Nat) :
    ∀ n : Nat, n ≠ 0 → n ≤ fuel → 2 ^ (bitLengthFrom fuel n - 1) ≤ n := by
  induction fuel with
  | zero => intro n hn hf; omega
  | succ fuel ih =>
    intro n hn hf
    unfold bitLengthFrom
    rw [if_neg hn, Nat.add_sub_cancel]
    by_cases h2 : n / 2 = 0
    · rw [h2]
      have : bitLengthFrom fuel 0 = 0 := by
        cases fuel <;> simp [bitLengthFrom]
      rw [this]
      simp
      omega
    · have hle : n / 2 ≤ fuel := by omega
      have h := ih (n / 2) h2 hle
      have hpos := bitLengthFrom_pos fuel (n / 2) h2 hle
      have hpow : 2 ^ bitLengthFrom fuel (n / 2) = 2 * 2 ^ (bitLengthFrom fuel (n / 2) - 1) := by
        rw [← pow_succ']
        congr 1
        omega
      rw [hpow]
      omega

theorem bitLength_lower (n : Nat) (hn : n ≠ 0) : 2 ^ (bitLength n - 1) ≤ n :=
  bitLengthFrom_lower n n hn le_rfl

/-- Rounding to `prec` bits moves a value by at most `2 ^ (-prec)` of its size. -/
theorem roundNearestEven_error (prec : Nat) (mant expo : Int) :
    |(roundNearestEven prec mant expo).toRat - (mant : ℚ) * (2 : ℚ) ^ expo| * (2 : ℚ) ^ prec
      ≤ |(mant : ℚ) * (2 : ℚ) ^ expo| := by
  have hexp : (0 : ℚ) < (2 : ℚ) ^ expo := by positivity
  unfold roundNearestEven
  simp only []
  by_cases hlen : bitLength mant.natAbs ≤ prec
  · rw [if_pos hlen]
    unfold Binary64.toRat
    simp only [sub_self, abs_zero, zero_mul]
    exact abs_nonneg _
  · rw [if_neg hlen]
    have hne : mant.natAbs ≠ 0 := by
      intro h0
      rw [h0] at hlen
      exact hlen (Nat.zero_le _)
    have hlow := bitLength_lower mant.natAbs hne
    have hs : 0 < bitLength mant.natAbs - prec := by omega
    have hsum : bitLength mant.natAbs - 1 = (bitLength mant.natAbs - prec - 1) + prec := by omega
    rw [hsum, pow_add] at hlow
    generalize bitLength mant.natAbs - prec = s at hs hlow
    have hsplit : mant.natAbs = 2 ^ s * (mant.natAbs / 2 ^ s) + mant.natAbs % 2 ^ s :=
      (Nat.div_add_mod _ _).symm
    have hrlt : mant.natAbs % 2 ^ s < 2 ^ s := Nat.mod_lt _ (Nat.two_pow_pos s)
    have hpow : 2 ^ s = 2 * 2 ^ (s - 1) := by
      rw [← pow_succ']
      congr 1
      omega
    generalize mant.natAbs / 2 ^ s = q at hsplit
    generalize mant.natAbs % 2 ^ s = r at hsplit hrlt
    generalize hh : 2 ^ (s - 1) = half at hlow hpow
    -- the rounded mantissa q1 satisfies |q1 * 2^s - a| ≤ half
    have hq1 : ∀ q1 : Nat, q1 = (if r > half ∨ (r = half ∧ q % 2 = 1) then q + 1 else q) →
        |((q1 : ℚ) * (2 : ℚ) ^ s - (mant.natAbs : ℚ))| ≤ (half : ℚ) := by
      intro q1 hq1
      have hsq : ((2 : ℚ) ^ s) = 2 * (half : ℚ) := by
        have := congrArg (fun n : Nat => (n : ℚ)) hpow
        simpa using this
      have ha : (mant.natAbs : ℚ) = 2 * (half : ℚ) * q + r := by
        have := congrArg (fun n : Nat => (n : ℚ)) hsplit
        simp only [Nat.cast_add, Nat.cast_mul, Nat.cast_pow, Nat.cast_ofNat] at this
        rw [this, hsq]
      rw [hsq, ha]
      have hr0 : (0 : ℚ) ≤ r := Nat.cast_nonneg r
      have hr2 : (r : ℚ) < 2 * half := by
        have : r < 2 * half := by omega
        exact_mod_cast this
      by_cases hc : r > half ∨ (r = half ∧ q % 2 = 1)
      · rw [if_pos hc] at hq1
        have hge : (half : ℚ) ≤ r := by
          have : half ≤ r := by rcases hc with h | ⟨h, -⟩ <;> omega
          exact_mod_cast this
        rw [hq1, abs_le]
        push_cast
        constructor <;> nlinarith
      · rw [if_neg hc] at hq1
        have hle : (r : ℚ) ≤ half := by
          have : r ≤ half := by
            by_contra hcon
            exact hc (Or.inl (by omega))
          exact_mod_cast this
        rw [hq1, abs_le]
        constructor <;> nlinarith
    have hq := hq1 _ rfl
    generalize (if r > half ∨ (r = half ∧ q % 2 = 1) then q + 1 else q) = q1 at hq
    have hlowq : (half : ℚ) * (2 : ℚ) ^ prec ≤ (mant.natAbs : ℚ) := by
      exact_mod_cast hlow
    unfold Binary64.toRat
    simp only []
    have h2 : (2 : ℚ) ^ (expo + (s : Int)) = (2 : ℚ) ^ expo * (2 : ℚ) ^ s := by
      rw [zpow_add₀ (by norm_num), zpow_natCast]
    rw [h2]
    have habs : |(mant : ℚ)| = (mant.natAbs : ℚ) := by
      rw [Nat.cast_natAbs, Int.cast_abs]
    have hkey : ∀ sg : ℚ, (sg = 1 ∨ sg = -1) → (mant : ℚ) = sg * (mant.natAbs : ℚ) →
        |sg * (q1 : ℚ) * ((2 : ℚ) ^ expo * (2 : ℚ) ^ s) - (mant : ℚ) * (2 : ℚ) ^ expo|
          * (2 : ℚ) ^ prec ≤ |(mant : ℚ) * (2 : ℚ) ^ expo| := by
      intro sg hsg hm
      have e1 : sg * (q1 : ℚ) * ((2 : ℚ) ^ expo * (2 : ℚ) ^ s) - (mant : ℚ) * (2 : ℚ) ^ expo
          = sg * (((q1 : ℚ) * (2 : ℚ) ^ s - (mant.natAbs : ℚ)) * (2 : ℚ) ^ expo) := by
        rw [hm]; ring
      rw [e1, abs_mul, abs_mul, abs_mul, habs, abs_of_pos hexp]
      have hsg1 : |sg| = 1 := by rcases hsg with h | h <;> rw [h] <;> simp
      rw [hsg1, one_mul]
      have hp : (0 : ℚ) < (2 : ℚ) ^ prec := by positivity
      calc |(q1 : ℚ) * (2 : ℚ) ^ s - (mant.natAbs : ℚ)| * (2 : ℚ) ^ expo * (2 : ℚ) ^ prec
          ≤ (half : ℚ) * (2 : ℚ) ^ expo * (2 : ℚ) ^ prec := by
            apply mul_le_mul_of_nonneg_right _ (le_of_lt hp)
            exact mul_le_mul_of_nonneg_right hq (le_of_lt hexp)
        _ = (half : ℚ) * (2 : ℚ) ^ prec * (2 : ℚ) ^ expo := by ring
        _ ≤ (mant.natAbs : ℚ) * (2 : ℚ) ^ expo :=
            mul_le_mul_of_nonneg_right hlowq (le_of_lt hexp)
    by_cases hneg : mant < 0
    · rw [if_pos hneg]
      have := hkey (-1) (Or.inr rfl) (by
        rw [Nat.cast_natAbs, Int.cast_abs, abs_of_neg (by exact_mod_cast hneg)]; ring)
      simpa using this
    · rw [if_neg hneg]
      have := hkey 1 (Or.inl rfl) (by
        rw [Nat.cast_natAbs, Int.cast_abs, abs_of_nonneg (by exact_mod_cast not_lt.mp hneg)]; ring)
      simpa using this

theorem Binary64.mantAt_toRat (x : Binary64) (e : Int) (he : e ≤ x.expo) :
    ((x.mantAt e : Int) : ℚ) * (2 : ℚ) ^ e = x.toRat := by
  unfold Binary64.mantAt Binary64.toRat
  have hx : x.expo = e + ((x.expo - e).toNat : Int) := by
    rw [Int.toNat_of_nonneg (by omega)]; ring
  generalize (x.expo - e).toNat = n at hx
  rw [hx, zpow_add₀ (by norm_num), zpow_natCast]
  push_cast
  ring

theorem Binary32.add_error (x y : Binary32) :
    |(Binary32.add x y).toRat - (x.toRat + y.toRat)| * (2 : ℚ) ^ 24 ≤ |x.toRat + y.toRat| := by
  unfold Binary32.add
  simp only []
  have h := roundNearestEven_error 24
    (Binary64.mantAt x (min x.expo y.expo) + Binary64.mantAt y (min x.expo y.expo))
    (min x.expo y.expo)
  have hsum : ((Binary64.mantAt x (min x.expo y.expo)
      + Binary64.mantAt y (min x.expo y.expo) : Int) : ℚ) * (2 : ℚ) ^ (min x.expo y.expo)
      = x.toRat + y.toRat := by
    rw [Int.cast_add, add_mul, Binary64.mantAt_toRat x _ (min_le_left _ _),
      Binary64.mantAt_toRat y _ (min_le_right _ _)]
  rw [hsum] at h
  exact h

theorem Binary32.mul_error (x y : Binary32) :
    |(Binary32.mul x y).toRat - x.toRat * y.toRat| * (2 : ℚ) ^ 24 ≤ |x.toRat * y.toRat| := by
  unfold Binary32.mul
  have h := roundNearestEven_error 24 (x.mant * y.mant) (x.expo + y.expo)
  have hprod : ((x.mant * y.mant : Int) : ℚ) * (2 : ℚ) ^ (x.expo + y.expo)
      = x.toRat * y.toRat := by
    unfold Binary64.toRat
    rw [zpow_add₀ (by norm_num)]
    push_cast
    ring
  rw [hprod] at h
  exact h

theorem Binary32.ofInt_toRat (n : Int) (h : n.natAbs < 2 ^ 24) :
    (Binary32.ofInt n).toRat = (n : ℚ) := by
  unfold Binary32.ofInt
  rw [roundNearestEven_of_lt 24 n 0 h]
  unfold Binary64.toRat
  simp

/-- The float32 value of the projection is within 1/4 of the exact value when the
delta and the half size are at most `2 ^ 15` and the constant is the float32 nearest
to `scaleNum / 10`, at most 20. -/
theorem screenCoordValue_error (diff scaleNum half : Int)
    (hd : |(diff : ℚ)| ≤ 2 ^ 15) (hh : |(half : ℚ)| ≤ 2 ^ 15)
    (hc1 : |(Binary32.ofRatio scaleNum 10).toRat| ≤ 20)
    (hc2 : |(Binary32.ofRatio scaleNum 10).toRat - (scaleNum : ℚ) / 10| ≤ 1 / 2 ^ 20) :
    |(screenCoordValue diff scaleNum half).toRat
        - ((diff : ℚ) * ((scaleNum : ℚ) / 10) + (half : ℚ))| < 1 / 4 := by
  have hdn : diff.natAbs < 2 ^ 24 := by
    have h1 : |diff| ≤ 2 ^ 15 := by exact_mod_cast hd
    have h2 : (diff.natAbs : Int) = |diff| := Int.natCast_natAbs diff
    have h3 : (diff.natAbs : Int) < 2 ^ 24 := by rw [h2]; omega
    exact_mod_cast h3
  have hhn : half.natAbs < 2 ^ 24 := by
    have h1 : |half| ≤ 2 ^ 15 := by exact_mod_cast hh
    have h2 : (half.natAbs : Int) = |half| := Int.natCast_natAbs half
    have h3 : (half.natAbs : Int) < 2 ^ 24 := by rw [h2]; omega
    exact_mod_cast h3
  unfold screenCoordValue
  generalize hcdef : Binary32.ofRatio scaleNum 10 = c at hc1 hc2
  have e1 := Binary32.mul_error (Binary32.ofInt diff) c
  generalize hP : Binary32.mul (Binary32.ofInt diff) c = P at e1
  have e2 := Binary32.add_error P (Binary32.ofInt half)
  generalize Binary32.add P (Binary32.ofInt half) = Q at e2
  rw [Binary32.ofInt_toRat diff hdn] at e1
  rw [Binary32.ofInt_toRat half hhn] at e2
  generalize Binary64.toRat c = cv at *
  generalize Binary64.toRat P = pv at *
  generalize Binary64.toRat Q = qv at *
  have hkc : |(diff : ℚ) * cv| ≤ 2 ^ 15 * 20 := by
    rw [abs_mul]
    exact mul_le_mul hd hc1 (abs_nonneg _) (by norm_num)
  have e1b : |pv - (diff : ℚ) * cv| ≤ 1 / 16 := by
    have := e1.trans hkc
    norm_num at this ⊢
    linarith
  have hpv : |pv| ≤ 655361 := by
    have h1 : |pv| ≤ |pv - (diff : ℚ) * cv| + |(diff : ℚ) * cv| := by
      have := abs_add (pv - (diff : ℚ) * cv) ((diff : ℚ) * cv)
      simpa using this
    norm_num at hkc
    linarith
  have hsum : |pv + (half : ℚ)| ≤ 655361 + 32768 := by
    have := abs_add pv (half : ℚ)
    norm_num at hh
    linarith
  have e2b : |qv - (pv + (half : ℚ))| ≤ 1 / 16 := by
    have := e2.trans hsum
    norm_num at this ⊢
    linarith
  have e3 : |(diff : ℚ) * cv - (diff : ℚ) * ((scaleNum : ℚ) / 10)| ≤ 1 / 32 := by
    rw [← mul_sub, abs_mul]
    have := mul_le_mul hd hc2 (abs_nonneg _) (by norm_num)
    norm_num at this ⊢
    linarith
  rw [abs_le] at e1b e2b e3
  rw [abs_lt]
  constructor <;> linarith [e1b.1, e1b.2, e2b.1, e2b.2, e3.1, e3.2]

theorem truncRat_mono {a b : ℚ} (h : a ≤ b) : truncRat a ≤ truncRat b := by
  unfold truncRat
  by_cases ha : 0 ≤ a
  · rw [if_pos ha, if_pos (ha.trans h)]
    exact Int.floor_mono h
  · rw [if_neg ha]
    by_cases hb : 0 ≤ b
    · rw [if_pos hb]
      have h1 : ⌈a⌉ ≤ 0 := Int.ceil_le.mpr (by push_cast; linarith)
      have h2 : 0 ≤ ⌊b⌋ := Int.floor_nonneg.mpr hb
      omega
    · rw [if_neg hb]
      exact Int.ceil_mono h

theorem truncRat_add_one_le (a : ℚ) : truncRat (a + 1) ≤ truncRat a + 1 := by
  unfold truncRat
  by_cases ha : 0 ≤ a
  · rw [if_pos ha, if_pos (by linarith), Int.floor_add_one]
  · rw [if_neg ha]
    by_cases hb : 0 ≤ a + 1
    · rw [if_pos hb]
      have h1 : ⌊a + 1⌋ ≤ 0 := by
        have : ⌊a + 1⌋ < 1 := Int.floor_lt.mpr (by push_cast; linarith)
        omega
      have h2 : ⌈((-1 : Int) : ℚ)⌉ ≤ ⌈a⌉ := Int.ceil_mono (by push_cast; linarith)
      rw [Int.ceil_intCast] at h2
      omega
    · rw [if_neg hb, Int.ceil_add_one]

theorem truncRat_near {a b : ℚ} (h : |a - b| < 1) : |truncRat a - truncRat b| ≤ 1 := by
  rw [abs_lt] at h
  rw [abs_le]
  constructor
  · have h1 : truncRat b ≤ truncRat (a + 1) := truncRat_mono (by linarith)
    have h2 := truncRat_add_one_le a
    omega
  · have h1 : truncRat a ≤ truncRat (b + 1) := truncRat_mono (by linarith)
    have h2 := truncRat_add_one_le b
    omega

theorem ofRatio_198 : (Binary32.ofRatio 198 10).toRat = 10380902 / 2 ^ 19 := by
  have h1 : (Binary32.ofRatio 198 10).mant = 10380902 := by decide
  have h2 : (Binary32.ofRatio 198 10).expo = -19 := by decide
  unfold Binary64.toRat
  rw [h1, h2]
  norm_num

theorem ofRatio_99 : (Binary32.ofRatio 99 10).toRat = 10380902 / 2 ^ 20 := by
  have h1 : (Binary32.ofRatio 99 10).mant = 10380902 := by decide
  have h2 : (Binary32.ofRatio 99 10).expo = -20 := by decide
  unfold Binary64.toRat
  rw [h1, h2]
  norm_num

theorem tdiv_two_abs_le (n : Int) (h : |n| ≤ 2 ^ 16) : |((Int.tdiv n 2 : Int) : ℚ)| ≤ 2 ^ 15 := by
  have hz : |Int.tdiv n 2| ≤ 2 ^ 15 := by
    by_cases hn : 0 ≤ n
    · rw [Int.tdiv_eq_ediv hn (by decide)]
      rw [abs_of_nonneg hn] at h
      rw [abs_of_nonneg (by omega)]
      omega
    · have hneg : n = -(-n) := by ring
      rw [hneg, Int.neg_tdiv, Int.tdiv_eq_ediv (by omega) (by decide), abs_neg]
      rw [abs_of_neg (by omega)] at h
      rw [abs_of_nonneg (by omega)]
      omega
  exact_mod_cast hz

theorem truncRat_eq_of_neg (q : ℚ) (z : Int) (h0 : q < 0) (h1 : (z : ℚ) - 1 < q)
    (h2 : q ≤ (z : ℚ)) : truncRat q = z := by
  unfold truncRat
  rw [if_neg (not_le.mpr h0)]
  exact Int.ceil_eq_iff.mpr ⟨h1, h2⟩

/-- C21, counterexample: with a 1280 by 720 game area, the player at (0, 0) and the
destination at (-45, 0), `gameCoordsToScreenCords` returns sx = -250, while
`trunc((dx - dy) * 19.8 + W/2) = trunc(-891 + 640) = -251`. -/
theorem C21_counterexample :
    gameCoordsToScreenCords 1280 720 0 0 (-45) 0 = (-250, -85) ∧
      screenCoordsReference 1280 720 0 0 (-45) 0 = (-251, -85) := by
  constructor
  · decide
  · have h1 : Int.tdiv 1280 2 = 640 := by decide
    have h2 : Int.tdiv 720 2 = 360 := by decide
    unfold screenCoordsReference
    simp only [h1, h2, Prod.mk.injEq]
    constructor
    · apply truncRat_eq_of_neg <;> norm_num
    · apply truncRat_eq_of_neg <;> norm_num

/-- C21, amended: for every player position, destination and game-area size with
`|dx - dy|, |dx + dy| ≤ 2^15` and `|W|, |H| ≤ 2^16`, `gameCoordsToScreenCords` returns
the truncations toward zero of the float32 values of `(dx - dy) * 19.8 + W/2` and
`(dx + dy) * 9.9 + H/2`, where the constants are the float32 numbers
`10380902 / 2^19` and `10380902 / 2^20`, every operation is rounded to float32 and
`W/2`, `H/2` are integer halves; each coordinate is within one of
`trunc((dx - dy) * 19.8 + W/2)`, `trunc((dx + dy) * 9.9 + H/2)`; and a destination
equal to the player position maps to the screen centre `(W/2, H/2)`. -/
theorem C21_projection_truncates_float32_value (GameAreaSizeX GameAreaSizeY : Int)
    (playerX playerY destinationX destinationY : Int)
    (hx : |destinationX - playerX - (destinationY - playerY)| ≤ 2 ^ 15)
    (hy : |destinationX - playerX + (destinationY - playerY)| ≤ 2 ^ 15)
    (hW : |GameAreaSizeX| ≤ 2 ^ 16) (hH : |GameAreaSizeY| ≤ 2 ^ 16) :
    gameCoordsToScreenCords GameAreaSizeX GameAreaSizeY playerX playerY destinationX destinationY
        = (truncRat (screenCoordValue (destinationX - playerX - (destinationY - playerY)) 198
              (Int.tdiv GameAreaSizeX 2)).toRat,
           truncRat (screenCoordValue (destinationX - playerX + (destinationY - playerY)) 99
              (Int.tdiv GameAreaSizeY 2)).toRat) ∧
      (Binary32.ofRatio 198 10).toRat = 10380902 / 2 ^ 19 ∧
      (Binary32.ofRatio 99 10).toRat = 10380902 / 2 ^ 20 ∧
      |(gameCoordsToScreenCords GameAreaSizeX GameAreaSizeY playerX playerY destinationX
            destinationY).1
          - (screenCoordsReference GameAreaSizeX GameAreaSizeY playerX playerY destinationX
            destinationY).1| ≤ 1 ∧
      |(gameCoordsToScreenCords GameAreaSizeX GameAreaSizeY playerX playerY destinationX
            destinationY).2
          - (screenCoordsReference GameAreaSizeX GameAreaSizeY playerX playerY destinationX
            destinationY).2| ≤ 1 ∧
      gameCoordsToScreenCords GameAreaSizeX GameAreaSizeY playerX playerY playerX playerY
        = (Int.tdiv GameAreaSizeX 2, Int.tdiv GameAreaSizeY 2) := by
  have hWq := tdiv_two_abs_le GameAreaSizeX hW
  have hHq := tdiv_two_abs_le GameAreaSizeY hH
  have hxq : |((destinationX - playerX - (destinationY - playerY) : Int) : ℚ)| ≤ 2 ^ 15 := by
    exact_mod_cast hx
  have hyq : |((destinationX - playerX + (destinationY - playerY) : Int) : ℚ)| ≤ 2 ^ 15 := by
    exact_mod_cast hy
  have hc198a : |(Binary32.ofRatio 198 10).toRat| ≤ 20 := by
    rw [ofRatio_198, abs_le]; constructor <;> norm_num
  have hc198b : |(Binary32.ofRatio 198 10).toRat - ((198 : Int) : ℚ) / 10| ≤ 1 / 2 ^ 20 := by
    rw [ofRatio_198, abs_le]; constructor <;> norm_num
  have hc99a : |(Binary32.ofRatio 99 10).toRat| ≤ 20 := by
    rw [ofRatio_99, abs_le]; constructor <;> norm_num
  have hc99b : |(Binary32.ofRatio 99 10).toRat - ((99 : Int) : ℚ) / 10| ≤ 1 / 2 ^ 20 := by
    rw [ofRatio_99, abs_le]; constructor <;> norm_num
  have hwn : (Int.tdiv GameAreaSizeX 2).natAbs < 2 ^ 24 := by
    have h1 : |Int.tdiv GameAreaSizeX 2| ≤ 2 ^ 15 := by exact_mod_cast hWq
    have h2 : ((Int.tdiv GameAreaSizeX 2).natAbs : Int) = |Int.tdiv GameAreaSizeX 2| :=
      Int.natCast_natAbs _
    have h3 : ((Int.tdiv GameAreaSizeX 2).natAbs : Int) < 2 ^ 24 := by rw [h2]; omega
    exact_mod_cast h3
  have hhn : (Int.tdiv GameAreaSizeY 2).natAbs < 2 ^ 24 := by
    have h1 : |Int.tdiv GameAreaSizeY 2| ≤ 2 ^ 15 := by exact_mod_cast hHq
    have h2 : ((Int.tdiv GameAreaSizeY 2).natAbs : Int) = |Int.tdiv GameAreaSizeY 2| :=
      Int.natCast_natAbs _
    have h3 : ((Int.tdiv GameAreaSizeY 2).natAbs : Int) < 2 ^ 24 := by rw [h2]; omega
    exact_mod_cast h3
  refine ⟨?_, ofRatio_198, ofRatio_99, ?_, ?_, ?_⟩
  · unfold gameCoordsToScreenCords
    simp only [Binary64.toInt_eq_truncRat]
  · unfold gameCoordsToScreenCords screenCoordsReference
    simp only [Binary64.toInt_eq_truncRat]
    apply truncRat_near
    have := screenCoordValue_error _ 198 _ hxq hWq hc198a hc198b
    rw [abs_lt] at this ⊢
    push_cast at this ⊢
    constructor <;> linarith [this.1, this.2]
  · unfold gameCoordsToScreenCords screenCoordsReference
    simp only [Binary64.toInt_eq_truncRat]
    apply truncRat_near
    have := screenCoordValue_error _ 99 _ hyq hHq hc99a hc99b
    rw [abs_lt] at this ⊢
    push_cast at this ⊢
    constructor <;> linarith [this.1, this.2]
  · unfold gameCoordsToScreenCords
    simp only [sub_self, add_zero]
    rw [screenCoordValue_zero 198 _ hwn, screenCoordValue_zero 99 _ hhn]

/-- Witness for the amended C21: a 1280 by 720 game area with the destination 45 cells
to the west of the player. -/
theorem C21_projection_truncates_float32_value_witness :
    |(gameCoordsToScreenCords 1280 720 0 0 (-45) 0).1
        - (screenCoordsReference 1280 720 0 0 (-45) 0).1| ≤ 1 ∧
      gameCoordsToScreenCords 1280 720 0 0 0 0 = (Int.tdiv 1280 2, Int.tdiv 720 2) :=
  have h := C21_projection_truncates_float32_value 1280 720 0 0 (-45) 0
    (by decide) (by decide) (by decide) (by decide)
  ⟨h.2.2.2.1, h.2.2.2.2.2⟩

theorem Binary64.toInt_zero_mant (e : Int) : Binary64.toInt ⟨0, e⟩ = 0 := by
  unfold Binary64.toInt
  split_ifs <;> simp

theorem beyondPositionLength_self (p : Position) : beyondPositionLength p p = ⟨0, 0⟩ := by
  unfold beyondPositionLength
  simp only [sub_self]
  rfl

theorem Binary64.one_mul_ofInt_toInt (d : Int) (hd : d.natAbs ≤ 2 ^ 53) :
    (Binary64.ofInt 1 * Binary64.ofInt d).toInt = d := by
  rcases Nat.lt_or_eq_of_le hd with hlt | heq
  · have h1 : Binary64.ofInt d = ⟨d, 0⟩ := roundNearestEven_of_lt 53 d 0 hlt
    have h2 : Binary64.ofInt 1 = ⟨1, 0⟩ := rfl
    rw [h1, h2]
    show (Binary64.mul ⟨1, 0⟩ ⟨d, 0⟩).toInt = d
    unfold Binary64.mul
    simp only [one_mul, add_zero]
    rw [roundNearestEven_of_lt 53 d 0 hlt]
    unfold Binary64.toInt
    simp
  · have hcases : d = 2 ^ 53 ∨ d = -(2 ^ 53) := by omega
    rcases hcases with h | h <;> subst h <;> decide

theorem Binary64.zero_mul_ofInt_toInt (d : Int) :
    (Binary64.ofInt 0 * Binary64.ofInt d).toInt = 0 := by
  have h2 : Binary64.ofInt 0 = ⟨0, 0⟩ := rfl
  rw [h2]
  show (Binary64.mul ⟨0, 0⟩ (Binary64.ofInt d)).toInt = 0
  unfold Binary64.mul
  simp only [zero_mul, zero_add]
  rw [roundNearestEven_of_lt 53 0 _ (by decide)]
  exact Binary64.toInt_zero_mant _

/-- C22, counterexample: for the distance 2^53 + 1 = 9007199254740993 the conversion
`float64(distance)` rounds to 2^53, and `BeyondPosition(p, p, distance)` at p = (0, 0)
returns (9007199254740992, 0), not (p.X + distance, p.Y). -/
theorem C22_counterexample :
    BeyondPosition ⟨0, 0⟩ ⟨0, 0⟩ 9007199254740993 = ⟨9007199254740992, 0⟩ ∧
      BeyondPosition ⟨0, 0⟩ ⟨0, 0⟩ 9007199254740993 ≠ ⟨0 + 9007199254740993, 0⟩ := by
  decide

/-- C22, amended: for every position `p` and every integer distance `d` with
`|d| ≤ 2^53`, `BeyondPosition(p, p, d)` finds the length zero, so it does not execute
the division, and returns `(p.X + d, p.Y)`: when start and target coincide the +x
direction is used. -/
theorem C22_coincident_positions_extend_along_x (p : Position) (d : Int) (hd : d.natAbs ≤ 2 ^ 53) :
    (beyondPositionLength p p).isZero = true ∧ BeyondPosition p p d = ⟨p.X + d, p.Y⟩ := by
  constructor
  · rw [beyondPositionLength_self]; rfl
  · unfold BeyondPosition
    simp only [beyondPositionLength_self]
    have hz : Binary64.isZero ⟨0, 0⟩ = true := rfl
    rw [if_pos hz]
    simp only []
    rw [Binary64.one_mul_ofInt_toInt d hd, Binary64.zero_mul_ofInt_toInt]
    simp

/-- Witness for the amended C22: distance 5 from (3, 4). -/
theorem C22_coincident_positions_extend_along_x_witness :
    (5 : Int).natAbs ≤ 2 ^ 53 ∧ BeyondPosition ⟨3, 4⟩ ⟨3, 4⟩ 5 = ⟨3 + 5, 4⟩ :=
  ⟨by decide, (C22_coincident_positions_extend_along_x ⟨3, 4⟩ 5 (by decide)).2⟩

/-! ## Claims on the room traversal order -/

/-- The outer loop stops with an order as long as the room list (or as long as the
order it started from, when that is longer): the iterations given are enough. -/
theorem traverseLoop_length (rooms : List Room) (GetCenter : Room → Position) :
    ∀ (fuel : Nat) (order : List Room) (visited : Room → Bool) (currentRoom : Room),
      rooms.length ≤ order.length + fuel →
      (traverseLoop rooms GetCenter fuel order visited currentRoom).length
        = max order.length rooms.length := by
  intro fuel
  induction fuel with
  | zero =>
    intro order visited currentRoom h
    unfold traverseLoop
    omega
  | succ fuel ih =>
    intro order visited currentRoom h
    unfold traverseLoop
    by_cases hlt : order.length < rooms.length
    · rw [if_pos hlt]
      simp only []
      rw [ih _ _ _ (by simp only [List.length_append, List.length_singleton]; omega)]
      simp only [List.length_append, List.length_singleton]
      omega
    · rw [if_neg hlt]
      omega

set_option maxRecDepth 100000 in
/-- C29, failing inputs: with two distinct rooms and the player outside both, the
returned order starts with the zero room, which is not a room of the level, and leaves
the second room out; with no rooms at all the returned order holds the zero room. -/
theorem C29_player_outside_every_room_gets_zero_room :
    (OptimizeRoomsTraverseOrder (levelWith twoRooms ⟨50, 50⟩) rectangleCenter rectangleContains
        = [zeroRoom, { Position := ⟨100, 100⟩, Width := 20, Height := 20 }]) ∧
      twoRooms.Nodup ∧ zeroRoom ∉ twoRooms ∧
      (OptimizeRoomsTraverseOrder (levelWith [] ⟨50, 50⟩) rectangleCenter rectangleContains
        = [zeroRoom]) ∧
      (OptimizeRoomsTraverseOrder (levelWith twoRooms ⟨105, 105⟩) rectangleCenter
          rectangleContains = twoRooms) := by
  decide

/-! ## Claims on the float64 segment test -/

theorem bitLengthFrom_upper (fuel : Nat) :
    ∀ n : Nat, n ≤ fuel → n < 2 ^ bitLengthFrom fuel n := by
  induction fuel with
  | zero =>
    intro n hf
    have : n = 0 := by omega
    subst this
    simp [bitLengthFrom]
  | succ fuel ih =>
    intro n hf
    unfold bitLengthFrom
    by_cases hn : n = 0
    · rw [if_pos hn, hn]; simp
    · rw [if_neg hn, pow_succ]
      have h := ih (n / 2) (by omega)
      omega

theorem lt_two_pow_bitLength (n : Nat) : n < 2 ^ bitLength n :=
  bitLengthFrom_upper n n le_rfl

theorem Binary64.ofInt_eq (n : Int) (h : n.natAbs < 2 ^ 53) : Binary64.ofInt n = ⟨n, 0⟩ :=
  roundNearestEven_of_lt 53 n 0 h

theorem Binary64.mul_int (a b : Int) (h : (a * b).natAbs < 2 ^ 53) :
    ((⟨a, 0⟩ : Binary64) * ⟨b, 0⟩) = ⟨a * b, 0⟩ := by
  show Binary64.mul ⟨a, 0⟩ ⟨b, 0⟩ = ⟨a * b, 0⟩
  unfold Binary64.mul
  simp only [add_zero]
  exact roundNearestEven_of_lt 53 _ 0 h

theorem Binary64.add_int (a b : Int) (h : (a + b).natAbs < 2 ^ 53) :
    ((⟨a, 0⟩ : Binary64) + ⟨b, 0⟩) = ⟨a + b, 0⟩ := by
  show Binary64.add ⟨a, 0⟩ ⟨b, 0⟩ = ⟨a + b, 0⟩
  unfold Binary64.add Binary64.mantAt
  simp only [min_self, sub_self, Int.toNat_zero, pow_zero, mul_one]
  exact roundNearestEven_of_lt 53 _ 0 h

theorem Binary64.int_toRat (n : Int) : Binary64.toRat ⟨n, 0⟩ = (n : ℚ) := by
  unfold Binary64.toRat
  simp

theorem Binary64.add_round_error (x y : Binary64) :
    |(x + y).toRat - (x.toRat + y.toRat)| * (2 : ℚ) ^ 53 ≤ |x.toRat + y.toRat| := by
  show |(Binary64.add x y).toRat - (x.toRat + y.toRat)| * (2 : ℚ) ^ 53 ≤ _
  unfold Binary64.add
  simp only []
  have h := roundNearestEven_error 53
    (Binary64.mantAt x (min x.expo y.expo) + Binary64.mantAt y (min x.expo y.expo))
    (min x.expo y.expo)
  have hsum : ((Binary64.mantAt x (min x.expo y.expo)
      + Binary64.mantAt y (min x.expo y.expo) : Int) : ℚ) * (2 : ℚ) ^ (min x.expo y.expo)
      = x.toRat + y.toRat := by
    rw [Int.cast_add, add_mul, Binary64.mantAt_toRat x _ (min_le_left _ _),
      Binary64.mantAt_toRat y _ (min_le_right _ _)]
  rw [hsum] at h
  exact h

theorem Binary64.sub_round_error (x y : Binary64) :
    |(x - y).toRat - (x.toRat - y.toRat)| * (2 : ℚ) ^ 53 ≤ |x.toRat - y.toRat| := by
  show |(Binary64.sub x y).toRat - (x.toRat - y.toRat)| * (2 : ℚ) ^ 53 ≤ _
  unfold Binary64.sub
  simp only []
  have h := roundNearestEven_error 53
    (Binary64.mantAt x (min x.expo y.expo) - Binary64.mantAt y (min x.expo y.expo))
    (min x.expo y.expo)
  have hsum : ((Binary64.mantAt x (min x.expo y.expo)
      - Binary64.mantAt y (min x.expo y.expo) : Int) : ℚ) * (2 : ℚ) ^ (min x.expo y.expo)
      = x.toRat - y.toRat := by
    rw [Int.cast_sub, sub_mul, Binary64.mantAt_toRat x _ (min_le_left _ _),
      Binary64.mantAt_toRat y _ (min_le_right _ _)]
  rw [hsum] at h
  exact h

theorem Binary64.mul_round_error (x y : Binary64) :
    |(x * y).toRat - x.toRat * y.toRat| * (2 : ℚ) ^ 53 ≤ |x.toRat * y.toRat| := by
  show |(Binary64.mul x y).toRat - x.toRat * y.toRat| * (2 : ℚ) ^ 53 ≤ _
  unfold Binary64.mul
  have h := roundNearestEven_error 53 (x.mant * y.mant) (x.expo + y.expo)
  have hprod : ((x.mant * y.mant : Int) : ℚ) * (2 : ℚ) ^ (x.expo + y.expo)
      = x.toRat * y.toRat := by
    unfold Binary64.toRat
    rw [zpow_add₀ (by norm_num)]
    push_cast
    ring
  rw [hprod] at h
  exact h

theorem Binary64.le_iff (x y : Binary64) : x.le y = true ↔ x.toRat ≤ y.toRat := by
  unfold Binary64.le
  simp only [decide_eq_true_eq]
  rw [← Binary64.mantAt_toRat x _ (min_le_left x.expo y.expo),
    ← Binary64.mantAt_toRat y _ (min_le_right x.expo y.expo)]
  have hpos : (0 : ℚ) < (2 : ℚ) ^ (min x.expo y.expo) := by positivity
  rw [mul_le_mul_right hpos]
  exact Int.cast_le.symm

theorem Binary64.lt_iff (x y : Binary64) : x.lt y = true ↔ x.toRat < y.toRat := by
  unfold Binary64.lt
  simp only [decide_eq_true_eq]
  rw [← Binary64.mantAt_toRat x _ (min_le_left x.expo y.expo),
    ← Binary64.mantAt_toRat y _ (min_le_right x.expo y.expo)]
  have hpos : (0 : ℚ) < (2 : ℚ) ^ (min x.expo y.expo) := by positivity
  rw [mul_lt_mul_right hpos]
  exact Int.cast_lt.symm

/-- A value rounded from a quotient kept to 56 bits with a sticky bit is within
`2 ^ (-52)` of the quotient. -/
theorem sticky_round_error (fl sg m W P : ℚ) (hsg : sg = 1 ∨ sg = -1) (hP : 0 < P)
    (hW : (2 : ℚ) ^ 56 ≤ W) (hm : |W - m| ≤ 1)
    (hfl : |fl - sg * m * P| * (2 : ℚ) ^ 53 ≤ |sg * m * P|) :
    |fl - sg * W * P| * (2 : ℚ) ^ 52 ≤ |sg * W * P| := by
  have hsg1 : |sg| = 1 := by rcases hsg with h | h <;> rw [h] <;> simp
  have hWpos : 0 < W := lt_of_lt_of_le (by norm_num) hW
  rw [abs_le] at hm
  have hmpos : 0 < m := by norm_num at hW; linarith [hm.2]
  have e1 : |sg * m * P| = m * P := by
    rw [abs_mul, abs_mul, hsg1, one_mul, abs_of_pos hmpos, abs_of_pos hP]
  have e2 : |sg * W * P| = W * P := by
    rw [abs_mul, abs_mul, hsg1, one_mul, abs_of_pos hWpos, abs_of_pos hP]
  rw [e1] at hfl
  rw [e2]
  have e3 : |sg * m * P - sg * W * P| ≤ P := by
    have : sg * m * P - sg * W * P = sg * ((m - W) * P) := by ring
    rw [this, abs_mul, hsg1, one_mul, abs_mul, abs_of_pos hP]
    have hmw : |m - W| ≤ 1 := by rw [abs_le]; constructor <;> linarith [hm.1, hm.2]
    calc |m - W| * P ≤ 1 * P := mul_le_mul_of_nonneg_right hmw (le_of_lt hP)
      _ = P := one_mul P
  have htri : |fl - sg * W * P| ≤ |fl - sg * m * P| + |sg * m * P - sg * W * P| := by
    have := abs_add (fl - sg * m * P) (sg * m * P - sg * W * P)
    simpa using this
  have hmP : m * P ≤ (W + 1) * P := mul_le_mul_of_nonneg_right (by linarith [hm.1]) (le_of_lt hP)
  have hWP : (2 : ℚ) ^ 56 * P ≤ W * P := mul_le_mul_of_nonneg_right hW (le_of_lt hP)
  norm_num at hfl hWP ⊢
  nlinarith [abs_nonneg (fl - sg * m * P), abs_nonneg (fl - sg * W * P)]

theorem Binary64.div_error (x y : Binary64) (hy : y.mant ≠ 0) :
    |(x / y).toRat - x.toRat / y.toRat| * (2 : ℚ) ^ 52 ≤ |x.toRat / y.toRat| := by
  show |(Binary64.div x y).toRat - x.toRat / y.toRat| * (2 : ℚ) ^ 52 ≤ _
  unfold Binary64.div
  simp only []
  by_cases hx : x.mant = 0
  · have hx0 : x.toRat = 0 := by unfold Binary64.toRat; rw [hx]; simp
    rw [hx0, hx]
    simp only [Int.natAbs_zero, zero_mul, Nat.zero_div, Nat.zero_mod, if_true, mul_zero,
      add_zero, Nat.cast_zero, zero_div, abs_zero]
    rw [roundNearestEven_of_lt 53 0 _ (by decide)]
    unfold Binary64.toRat
    simp
  · generalize hk : 53 + 2 + bitLength y.mant.natAbs = k
    have hym : 0 < y.mant.natAbs := Int.natAbs_pos.mpr hy
    have hxm : 0 < x.mant.natAbs := Int.natAbs_pos.mpr hx
    have hyup := lt_two_pow_bitLength y.mant.natAbs
    have hsplit := Nat.div_add_mod (x.mant.natAbs * 2 ^ k) y.mant.natAbs
    have hrlt := Nat.mod_lt (x.mant.natAbs * 2 ^ k) hym
    generalize hq : x.mant.natAbs * 2 ^ k / y.mant.natAbs = q at hsplit
    generalize hr : x.mant.natAbs * 2 ^ k % y.mant.natAbs = r at hsplit hrlt
    generalize hsgn : (if decide (x.mant < 0) = decide (y.mant < 0) then (1 : Int) else -1)
      = sign
    have hfl := roundNearestEven_error 53
      (sign * ((2 * q + (if r = 0 then 0 else 1) : Nat) : Int))
      (x.expo - y.expo - (k : Int) - 1)
    generalize roundNearestEven 53 (sign * ((2 * q + (if r = 0 then 0 else 1) : Nat) : Int))
      (x.expo - y.expo - (k : Int) - 1) = res at hfl
    -- the quotient in rationals
    have hymq : (0 : ℚ) < (y.mant.natAbs : ℚ) := by exact_mod_cast hym
    have hxmq : (0 : ℚ) < (x.mant.natAbs : ℚ) := by exact_mod_cast hxm
    have hsplitq : (x.mant.natAbs : ℚ) * (2 : ℚ) ^ k = (y.mant.natAbs : ℚ) * q + r := by
      have := congrArg (fun n : Nat => (n : ℚ)) hsplit
      simp only [Nat.cast_add, Nat.cast_mul, Nat.cast_pow, Nat.cast_ofNat] at this
      linarith
    have hrq : (r : ℚ) < (y.mant.natAbs : ℚ) := by exact_mod_cast hrlt
    have hr0 : (0 : ℚ) ≤ (r : ℚ) := Nat.cast_nonneg r
    have hsg : ((sign : Int) : ℚ) = 1 ∨ ((sign : Int) : ℚ) = -1 := by
      rw [← hsgn]
      split_ifs <;> simp
    have hP : (0 : ℚ) < (2 : ℚ) ^ (x.expo - y.expo - (k : Int) - 1) := by positivity
    have hkey := sticky_round_error res.toRat (sign : ℚ)
      ((2 * q + (if r = 0 then 0 else 1) : Nat) : ℚ)
      (2 * ((x.mant.natAbs : ℚ) * (2 : ℚ) ^ k) / (y.mant.natAbs : ℚ))
      ((2 : ℚ) ^ (x.expo - y.expo - (k : Int) - 1)) hsg hP ?_ ?_ ?_
    · have hval : x.toRat / y.toRat
          = (sign : ℚ) * (2 * ((x.mant.natAbs : ℚ) * (2 : ℚ) ^ k) / (y.mant.natAbs : ℚ))
            * (2 : ℚ) ^ (x.expo - y.expo - (k : Int) - 1) := by
        unfold Binary64.toRat
        have h2 : (2 : ℚ) ≠ 0 := by norm_num
        rw [zpow_sub₀ h2, zpow_sub₀ h2, zpow_sub₀ h2, zpow_natCast, zpow_one]
        have hxabs : (x.mant : ℚ) = (if x.mant < 0 then -1 else 1) * (x.mant.natAbs : ℚ) := by
          rw [Nat.cast_natAbs, Int.cast_abs]
          split_ifs with h
          · rw [abs_of_neg (by exact_mod_cast h)]; ring
          · rw [abs_of_nonneg (by exact_mod_cast not_lt.mp h)]; ring
        have hyabs : (y.mant : ℚ) = (if y.mant < 0 then -1 else 1) * (y.mant.natAbs : ℚ) := by
          rw [Nat.cast_natAbs, Int.cast_abs]
          split_ifs with h
          · rw [abs_of_neg (by exact_mod_cast h)]; ring
          · rw [abs_of_nonneg (by exact_mod_cast not_lt.mp h)]; ring
        rw [hxabs, hyabs, ← hsgn]
        have hpk : (0 : ℚ) < (2 : ℚ) ^ k := by positivity
        have hpy : (0 : ℚ) < (2 : ℚ) ^ y.expo := by positivity
        by_cases h1 : x.mant < 0 <;> by_cases h3 : y.mant < 0 <;>
          simp only [h1, h3, if_true, if_false, decide_True, decide_False, Int.cast_one,
            Int.cast_neg, Bool.true_eq_false, Bool.false_eq_true] <;>
          field_simp <;> ring
      rw [hval]
      exact hkey
    · -- 2 ^ 56 ≤ W
      rw [le_div_iff₀ hymq]
      have h1 : (y.mant.natAbs : ℚ) ≤ (2 : ℚ) ^ bitLength y.mant.natAbs := by
        exact_mod_cast le_of_lt hyup
      have h2 : (2 : ℚ) ^ k = (2 : ℚ) ^ 55 * (2 : ℚ) ^ bitLength y.mant.natAbs := by
        rw [← hk, pow_add]
      have h3 : (1 : ℚ) ≤ (x.mant.natAbs : ℚ) := by exact_mod_cast hxm
      have h4 : (0 : ℚ) < (2 : ℚ) ^ bitLength y.mant.natAbs := by positivity
      rw [h2]
      nlinarith
    · -- |W - m'| ≤ 1
      have hW : 2 * ((x.mant.natAbs : ℚ) * (2 : ℚ) ^ k) / (y.mant.natAbs : ℚ)
          = 2 * q + 2 * r / (y.mant.natAbs : ℚ) := by
        rw [hsplitq]; field_simp; ring
      rw [hW]
      by_cases hr00 : r = 0
      · rw [if_pos hr00, hr00]
        simp
      · rw [if_neg hr00]
        have hrpos : (0 : ℚ) < (r : ℚ) := by
          have : 0 < r := Nat.pos_of_ne_zero hr00
          exact_mod_cast this
        have hfrac1 : 2 * (r : ℚ) / (y.mant.natAbs : ℚ) < 2 := by
          rw [div_lt_iff₀ hymq]; linarith
        have hfrac0 : 0 < 2 * (r : ℚ) / (y.mant.natAbs : ℚ) := by positivity
        push_cast
        rw [abs_le]
        constructor <;> linarith
    · have hcast : (((sign * ((2 * q + (if r = 0 then 0 else 1) : Nat) : Int)) : Int) : ℚ)
          = (sign : ℚ) * ((2 * q + (if r = 0 then 0 else 1) : Nat) : ℚ) := by
        push_cast; ring
      rw [hcast] at hfl
      exact hfl

theorem Binary64.div_self_int (n : Int) (hn : n ≠ 0) :
    ((⟨n, 0⟩ : Binary64) / ⟨n, 0⟩).toRat = 1 := by
  show (Binary64.div ⟨n, 0⟩ ⟨n, 0⟩).toRat = 1
  unfold Binary64.div
  simp only []
  have hpos : 0 < n.natAbs := Int.natAbs_pos.mpr hn
  generalize 53 + 2 + bitLength n.natAbs = k
  have hq : n.natAbs * 2 ^ k / n.natAbs = 2 ^ k := Nat.mul_div_cancel_left _ hpos
  have hr : n.natAbs * 2 ^ k % n.natAbs = 0 := Nat.mul_mod_right _ _
  rw [hq, hr]
  simp only [if_true, add_zero, one_mul, sub_self, zero_sub]
  have hm : (((2 * 2 ^ k : Nat) : Int)).natAbs = 2 ^ (k + 1) := by
    rw [Int.natAbs_ofNat, pow_succ]; ring
  rw [roundNearestEven_toRat_of_dvd]
  · push_cast
    have h2 : (2 : ℚ) ^ (-(k : Int) - 1) = ((2 : ℚ) ^ k)⁻¹ * 2⁻¹ := by
      rw [zpow_sub₀ (by norm_num), zpow_neg, zpow_natCast, zpow_one, div_eq_mul_inv]
    rw [h2]
    have hk : (2 : ℚ) ^ k ≠ 0 := by positivity
    field_simp
    ring
  · rw [hm]
    by_cases hle : bitLength (2 ^ (k + 1)) ≤ 53
    · exact Or.inl hle
    · right
      have hbl := bitLength_le_of_lt (2 ^ (k + 1)) (k + 2)
        (Nat.pow_lt_pow_right (by decide) (by omega))
      exact pow_dvd_pow 2 (by omega)

theorem abs_mul_le_of_abs_le {a b A B : ℚ} (ha : |a| ≤ A) (hb : |b| ≤ B) : |a * b| ≤ A * B := by
  rw [abs_mul]
  exact mul_le_mul ha hb (abs_nonneg _) (le_trans (abs_nonneg _) ha)

theorem round_error_le {f v V p : ℚ} (hp : 0 < p) (h : |f - v| * p ≤ |v|) (hv : |v| ≤ V) :
    |f - v| ≤ V / p := by
  rw [le_div_iff₀ hp]
  exact h.trans hv

/-- The rounding error of one axis of the segment test: the square of the rounded
offset from the closest point is within `297879555 * 2 ^ (-53)` of the exact square. -/
theorem axis_error (o d p t th m c e s : ℚ)
    (ho : |o| ≤ 65536) (hd : |d| ≤ 1024) (hp : |p| ≤ 1024)
    (ht0 : 0 ≤ t) (ht1 : t ≤ 1) (hth0 : 0 ≤ th) (hth1 : th ≤ 1)
    (h1 : |th - t| * 2 ^ 52 ≤ |t|)
    (h2 : |m - th * d| * 2 ^ 53 ≤ |th * d|)
    (h3 : |c - (o + m)| * 2 ^ 53 ≤ |o + m|)
    (h4 : |e - (o + p - c)| * 2 ^ 53 ≤ |o + p - c|)
    (h5 : |s - e * e| * 2 ^ 53 ≤ |e * e|) :
    |s - (p - t * d) * (p - t * d)| ≤ 297879555 / 2 ^ 53 ∧ |s| ≤ 4194305 := by
  have hta : |t| ≤ 1 := by rw [abs_le]; constructor <;> linarith
  have htha : |th| ≤ 1 := by rw [abs_le]; constructor <;> linarith
  have ha : |th - t| ≤ 1 / 2 ^ 52 := round_error_le (by positivity) h1 hta
  have hb : |th * d - t * d| ≤ 1 / 2 ^ 52 * 1024 := by
    have : th * d - t * d = (th - t) * d := by ring
    rw [this]
    exact abs_mul_le_of_abs_le ha hd
  have hc : |th * d| ≤ 1 * 1024 := abs_mul_le_of_abs_le htha hd
  have hdd : |t * d| ≤ 1 * 1024 := abs_mul_le_of_abs_le hta hd
  have he : |m - th * d| ≤ 1 * 1024 / 2 ^ 53 := round_error_le (by positivity) h2 hc
  generalize th * d = thd at *
  generalize t * d = td at *
  rw [abs_le] at ho hd hp hb hc hdd he
  have hf : |o + m| ≤ 66561 := by
    rw [abs_le]; norm_num at he hc ⊢; constructor <;> linarith [he.1, he.2, hc.1, hc.2, ho.1, ho.2]
  have hg : |c - (o + m)| ≤ 66561 / 2 ^ 53 := round_error_le (by positivity) h3 hf
  rw [abs_le] at hg
  have hh : |o + p - c| ≤ 2049 := by
    rw [abs_le]
    norm_num at he hb hg hdd ⊢
    constructor <;>
      linarith [he.1, he.2, hb.1, hb.2, hg.1, hg.2, hdd.1, hdd.2, hp.1, hp.2]
  have hi : |e - (o + p - c)| ≤ 2049 / 2 ^ 53 := round_error_le (by positivity) h4 hh
  rw [abs_le] at hi
  have hj : |e - (p - td)| ≤ 71682 / 2 ^ 53 := by
    rw [abs_le]
    norm_num at he hb hg hi ⊢
    constructor <;> linarith [he.1, he.2, hb.1, hb.2, hg.1, hg.2, hi.1, hi.2]
  have hx : |p - td| ≤ 2048 := by
    rw [abs_le]
    norm_num at hdd ⊢
    constructor <;> linarith [hdd.1, hdd.2, hp.1, hp.2]
  generalize p - td = x at *
  have hk : |e| ≤ 2049 := by
    rw [abs_le] at hj hx ⊢
    norm_num at hj ⊢
    constructor <;> linarith [hj.1, hj.2, hx.1, hx.2]
  have hk2 : |e + x| ≤ 4097 := by
    rw [abs_le] at hk hx ⊢
    constructor <;> linarith [hk.1, hk.2, hx.1, hx.2]
  have hl : |e * e - x * x| ≤ 71682 / 2 ^ 53 * 4097 := by
    have : e * e - x * x = (e - x) * (e + x) := by ring
    rw [this]
    exact abs_mul_le_of_abs_le hj hk2
  have hm : |e * e| ≤ 2049 * 2049 := abs_mul_le_of_abs_le hk hk
  have hn : |s - e * e| ≤ 2049 * 2049 / 2 ^ 53 := round_error_le (by positivity) h5 hm
  have hxx : |x * x| ≤ 2048 * 2048 := abs_mul_le_of_abs_le hx hx
  generalize e * e = ee at *
  generalize x * x = xx at *
  rw [abs_le] at hl hn hxx
  have htot : |s - xx| ≤ 297879555 / 2 ^ 53 := by
    rw [abs_le]
    norm_num at hl hn ⊢
    constructor <;> linarith [hl.1, hl.2, hn.1, hn.2]
  refine ⟨htot, ?_⟩
  rw [abs_le] at htot ⊢
  norm_num at htot ⊢
  constructor <;> linarith [htot.1, htot.2, hxx.1, hxx.2]

theorem sum_error (sx sy S xx yy : ℚ)
    (hx : |sx - xx| ≤ 297879555 / 2 ^ 53) (hxb : |sx| ≤ 4194305)
    (hy : |sy - yy| ≤ 297879555 / 2 ^ 53) (hyb : |sy| ≤ 4194305)
    (hS : |S - (sx + sy)| * 2 ^ 53 ≤ |sx + sy|) :
    |S - (xx + yy)| ≤ 604147720 / 2 ^ 53 := by
  have hsum : |sx + sy| ≤ 8388610 := by
    rw [abs_le] at hxb hyb ⊢
    constructor <;> linarith [hxb.1, hxb.2, hyb.1, hyb.2]
  have h := round_error_le (by positivity) hS hsum
  rw [abs_le] at hx hy h ⊢
  norm_num at hx hy h ⊢
  constructor <;> linarith [hx.1, hx.2, hy.1, hy.2, h.1, h.2]

/-- The squared distance from a point to its projection on a line, by Lagrange's
identity. -/
theorem closest_point_distance (px py dx dy : ℚ) (h : dx * dx + dy * dy ≠ 0) :
    (px - (px * dx + py * dy) / (dx * dx + dy * dy) * dx)
        * (px - (px * dx + py * dy) / (dx * dx + dy * dy) * dx)
      + (py - (px * dx + py * dy) / (dx * dx + dy * dy) * dy)
        * (py - (px * dx + py * dy) / (dx * dx + dy * dy) * dy)
      = (px * dy - py * dx) * (px * dy - py * dx) / (dx * dx + dy * dy) := by
  field_simp
  ring

/-- Off the boundary the rounded squared distance decides as the exact integers do. -/
theorem distance_decision (S : ℚ) (cross2 pp denom : Int)
    (hden0 : 0 < denom) (hden : denom ≤ 2097152) (hne : cross2 ≠ pp * denom)
    (hS : |S - (cross2 : ℚ) / (denom : ℚ)| ≤ 604147720 / 2 ^ 53) :
    S ≤ (pp : ℚ) ↔ cross2 ≤ pp * denom := by
  have hdq : (0 : ℚ) < (denom : ℚ) := by exact_mod_cast hden0
  have hdq2 : (denom : ℚ) ≤ 2097152 := by exact_mod_cast hden
  have hinv : (1 : ℚ) / 2097152 ≤ 1 / (denom : ℚ) :=
    one_div_le_one_div_of_le hdq hdq2
  rw [abs_le] at hS
  constructor
  · intro hle
    by_contra hcon
    have hgt : pp * denom + 1 ≤ cross2 := by omega
    have hq : ((pp : ℚ) * denom + 1) / denom ≤ (cross2 : ℚ) / denom := by
      apply div_le_div_of_nonneg_right _ (le_of_lt hdq)
      exact_mod_cast hgt
    have hexp : ((pp : ℚ) * denom + 1) / denom = pp + 1 / denom := by
      field_simp
    rw [hexp] at hq
    generalize (1 : ℚ) / (denom : ℚ) = w at hq hinv
    generalize (cross2 : ℚ) / (denom : ℚ) = E at hq hS
    norm_num at hS hinv
    linarith [hS.1, hS.2]
  · intro hle
    have hlt : cross2 ≤ pp * denom - 1 := by omega
    have hq : (cross2 : ℚ) / denom ≤ ((pp : ℚ) * denom - 1) / denom := by
      apply div_le_div_of_nonneg_right _ (le_of_lt hdq)
      exact_mod_cast hlt
    have hexp : ((pp : ℚ) * denom - 1) / denom = pp - 1 / denom := by
      field_simp
    rw [hexp] at hq
    generalize (1 : ℚ) / (denom : ℚ) = w at hq hinv
    generalize (cross2 : ℚ) / (denom : ℚ) = E at hq hS
    norm_num at hS hinv
    linarith [hS.1, hS.2]

theorem quotient_neg_iff (f v : ℚ) (h : |f - v| * 2 ^ 52 ≤ |v|) : f < 0 ↔ v < 0 := by
  have h52 : (0 : ℚ) < 2 ^ 52 := by positivity
  have hle : |f - v| ≤ |v| / 2 ^ 52 := by rw [le_div_iff₀ h52]; exact h
  rw [abs_le] at hle
  by_cases hv : v < 0
  · rw [abs_of_neg hv] at hle
    norm_num at hle
    constructor
    · intro _; exact hv
    · intro _; linarith [hle.2]
  · rw [abs_of_nonneg (not_lt.mp hv)] at hle
    norm_num at hle
    constructor
    · intro hf; linarith [hle.1, not_lt.mp hv]
    · intro h0; exact absurd h0 hv

theorem quotient_gt_one_iff (f : ℚ) (dot denom : Int) (hden0 : 0 < denom)
    (hden : denom ≤ 2097152) (hne : dot ≠ denom)
    (h : |f - (dot : ℚ) / (denom : ℚ)| * 2 ^ 52 ≤ |(dot : ℚ) / (denom : ℚ)|) :
    1 < f ↔ denom < dot := by
  have hdq : (0 : ℚ) < (denom : ℚ) := by exact_mod_cast hden0
  have hdq2 : (denom : ℚ) ≤ 2097152 := by exact_mod_cast hden
  have hinv : (1 : ℚ) / 2097152 ≤ 1 / (denom : ℚ) := one_div_le_one_div_of_le hdq hdq2
  have h52 : (0 : ℚ) < 2 ^ 52 := by positivity
  have hle : |f - (dot : ℚ) / (denom : ℚ)| ≤ |(dot : ℚ) / (denom : ℚ)| / 2 ^ 52 := by
    rw [le_div_iff₀ h52]; exact h
  rw [abs_le] at hle
  by_cases hgt : denom < dot
  · have hq : ((denom : ℚ) + 1) / denom ≤ (dot : ℚ) / denom := by
      apply div_le_div_of_nonneg_right _ (le_of_lt hdq)
      exact_mod_cast (by omega : denom + 1 ≤ dot)
    have hexp : ((denom : ℚ) + 1) / denom = 1 + 1 / denom := by field_simp
    rw [hexp] at hq
    generalize (1 : ℚ) / (denom : ℚ) = w at hq hinv
    generalize (dot : ℚ) / (denom : ℚ) = v at hq hle
    have hv : 0 ≤ v := by norm_num at hinv; linarith
    rw [abs_of_nonneg hv] at hle
    norm_num at hle hinv
    constructor
    · intro _; exact hgt
    · intro _; linarith [hle.1]
  · have hlt : dot ≤ denom - 1 := by omega
    have hq : (dot : ℚ) / denom ≤ ((denom : ℚ) - 1) / denom := by
      apply div_le_div_of_nonneg_right _ (le_of_lt hdq)
      exact_mod_cast hlt
    have hexp : ((denom : ℚ) - 1) / denom = 1 - 1 / denom := by field_simp
    rw [hexp] at hq
    generalize (1 : ℚ) / (denom : ℚ) = w at hq hinv
    generalize (dot : ℚ) / (denom : ℚ) = v at hq hle
    constructor
    · intro hf
      exfalso
      by_cases hv : 0 ≤ v
      · rw [abs_of_nonneg hv] at hle
        norm_num at hle hinv
        linarith [hle.2]
      · rw [abs_of_neg (not_le.mp hv)] at hle
        norm_num at hle hinv
        linarith [hle.2, not_le.mp hv]
    · intro h0; exact absurd h0 hgt

theorem natAbs_lt_of_abs_le (n B : Int) (h : |n| ≤ B) (hB : B < 2 ^ 53) : n.natAbs < 2 ^ 53 := by
  rw [abs_le] at h
  omega

theorem int_abs_mul_le (a b A B : Int) (ha : |a| ≤ A) (hb : |b| ≤ B) : |a * b| ≤ A * B := by
  rw [abs_mul]
  exact mul_le_mul ha hb (abs_nonneg _) (le_trans (abs_nonneg _) ha)

theorem int_abs_add_le (a b A B : Int) (ha : |a| ≤ A) (hb : |b| ≤ B) : |a + b| ≤ A + B :=
  (abs_add a b).trans (add_le_add ha hb)

theorem Binary64.isZero_int (n e : Int) : Binary64.isZero ⟨n, e⟩ = decide (n = 0) := rfl

theorem int_sq_sum_zero (a b : Int) (h : a * a + b * b = 0) : a = 0 ∧ b = 0 := by
  constructor <;> nlinarith [mul_self_nonneg a, mul_self_nonneg b]

theorem int_sq_sum_pos (a b : Int) (h : a * a + b * b ≠ 0) : 0 < a * a + b * b := by
  rcases lt_or_gt_of_ne h with h1 | h1
  · nlinarith [mul_self_nonneg a, mul_self_nonneg b]
  · exact h1

/-- The range gate of the segment test on the rounded quotient `t`: it rejects exactly
when the integer projection lies outside `[0, denom]`, and a quotient that passes lies
in `[0, 1]`. -/
theorem segment_gate (dot denom : Int) (hden0 : 0 < denom) (hden : denom ≤ 2097152) :
    ((((⟨dot, 0⟩ : Binary64) / ⟨denom, 0⟩).lt ⟨0, 0⟩
        || (⟨1, 0⟩ : Binary64).lt ((⟨dot, 0⟩ : Binary64) / ⟨denom, 0⟩)) = true
      ↔ ¬ (0 ≤ dot ∧ dot ≤ denom)) ∧
    ((0 ≤ dot ∧ dot ≤ denom) →
      0 ≤ ((⟨dot, 0⟩ : Binary64) / ⟨denom, 0⟩).toRat
        ∧ ((⟨dot, 0⟩ : Binary64) / ⟨denom, 0⟩).toRat ≤ 1) ∧
    |((⟨dot, 0⟩ : Binary64) / ⟨denom, 0⟩).toRat - (dot : ℚ) / (denom : ℚ)| * 2 ^ 52
      ≤ |(dot : ℚ) / (denom : ℚ)| := by
  have hne0 : denom ≠ 0 := by omega
  have htq := Binary64.div_error ⟨dot, 0⟩ ⟨denom, 0⟩ hne0
  rw [Binary64.int_toRat, Binary64.int_toRat] at htq
  have hself : dot = denom → ((⟨dot, 0⟩ : Binary64) / ⟨denom, 0⟩).toRat = 1 := by
    intro h
    rw [h]
    exact Binary64.div_self_int _ hne0
  generalize ((⟨dot, 0⟩ : Binary64) / ⟨denom, 0⟩) = tf at htq hself ⊢
  have hdq : (0 : ℚ) < (denom : ℚ) := by exact_mod_cast hden0
  have hneg : tf.lt ⟨0, 0⟩ = true ↔ dot < 0 := by
    rw [Binary64.lt_iff, Binary64.int_toRat, Int.cast_zero, quotient_neg_iff _ _ htq,
      div_neg_iff]
    constructor
    · rintro (⟨_, h⟩ | ⟨h, _⟩)
      · linarith
      · exact_mod_cast h
    · intro h
      exact Or.inr ⟨by exact_mod_cast h, hdq⟩
  have hgt : (⟨1, 0⟩ : Binary64).lt tf = true ↔ denom < dot := by
    rw [Binary64.lt_iff, Binary64.int_toRat, Int.cast_one]
    by_cases he : dot = denom
    · rw [hself he, he]
      simp
    · exact quotient_gt_one_iff _ _ _ hden0 hden he htq
  have hgate : (tf.lt ⟨0, 0⟩ || (⟨1, 0⟩ : Binary64).lt tf) = true
      ↔ ¬ (0 ≤ dot ∧ dot ≤ denom) := by
    rw [Bool.or_eq_true, hneg, hgt]
    omega
  refine ⟨hgate, ?_, htq⟩
  intro hin
  have hng : ¬ (tf.lt ⟨0, 0⟩ || (⟨1, 0⟩ : Binary64).lt tf) = true := fun h => hgate.mp h hin
  rw [Bool.or_eq_true, not_or] at hng
  constructor
  · by_contra hc
    apply hng.1
    rw [Binary64.lt_iff, Binary64.int_toRat, Int.cast_zero]
    exact not_le.mp hc
  · by_contra hc
    apply hng.2
    rw [Binary64.lt_iff, Binary64.int_toRat, Int.cast_one]
    exact not_le.mp hc

/-- One axis of the segment test in float64: the rounded square of the offset from the
closest point against the exact square. -/
theorem axis_float (o posv D P : Int) (tf : Binary64) (t : ℚ)
    (ho : |o| ≤ 65536) (hD : |D| ≤ 1024) (hP : |P| ≤ 1024) (hpos : posv = o + P)
    (ht0 : 0 ≤ t) (ht1 : t ≤ 1) (hth0 : 0 ≤ tf.toRat) (hth1 : tf.toRat ≤ 1)
    (h1 : |tf.toRat - t| * 2 ^ 52 ≤ |t|) :
    |((Binary64.ofInt posv - (Binary64.ofInt o + tf * ⟨D, 0⟩))
          * (Binary64.ofInt posv - (Binary64.ofInt o + tf * ⟨D, 0⟩))).toRat
        - ((P : ℚ) - t * D) * ((P : ℚ) - t * D)| ≤ 297879555 / 2 ^ 53 ∧
    |((Binary64.ofInt posv - (Binary64.ofInt o + tf * ⟨D, 0⟩))
          * (Binary64.ofInt posv - (Binary64.ofInt o + tf * ⟨D, 0⟩))).toRat| ≤ 4194305 := by
  have hposb : |posv| ≤ 66560 := by
    rw [hpos]
    exact int_abs_add_le _ _ _ _ ho hP
  rw [Binary64.ofInt_eq o (natAbs_lt_of_abs_le _ _ ho (by norm_num)),
    Binary64.ofInt_eq posv (natAbs_lt_of_abs_le _ _ hposb (by norm_num))]
  have h2 := Binary64.mul_round_error tf ⟨D, 0⟩
  rw [Binary64.int_toRat] at h2
  generalize tf * (⟨D, 0⟩ : Binary64) = mF at h2 ⊢
  have h3 := Binary64.add_round_error ⟨o, 0⟩ mF
  rw [Binary64.int_toRat] at h3
  generalize (⟨o, 0⟩ : Binary64) + mF = cF at h3 ⊢
  have h4 := Binary64.sub_round_error ⟨posv, 0⟩ cF
  rw [Binary64.int_toRat] at h4
  generalize (⟨posv, 0⟩ : Binary64) - cF = eF at h4 ⊢
  have h5 := Binary64.mul_round_error eF eF
  have hposq : (posv : ℚ) = (o : ℚ) + (P : ℚ) := by rw [hpos]; push_cast; rfl
  rw [hposq] at h4
  exact axis_error (o : ℚ) (D : ℚ) (P : ℚ) t tf.toRat mF.toRat cF.toRat eF.toRat
    (eF * eF).toRat (by exact_mod_cast ho) (by exact_mod_cast hD) (by exact_mod_cast hP)
    ht0 ht1 hth0 hth1 h1 h2 h3 h4 h5

/-- The distance test of the segment test in float64, for a projection inside the
segment and a point not exactly at distance `padding` from the line: it decides as
the exact integers do. -/
theorem segment_tail (ox oy posX posY DX DY PX PY padding : Int)
    (hoX : |ox| ≤ 65536) (hoY : |oy| ≤ 65536)
    (hdX : |DX| ≤ 1024) (hdY : |DY| ≤ 1024) (hpX : |PX| ≤ 1024) (hpY : |PY| ≤ 1024)
    (hposX : posX = ox + PX) (hposY : posY = oy + PY)
    (hden0 : 0 < DX * DX + DY * DY) (hden : DX * DX + DY * DY ≤ 2097152)
    (hin : 0 ≤ PX * DX + PY * DY ∧ PX * DX + PY * DY ≤ DX * DX + DY * DY)
    (hcross : (PX * DY - PY * DX) * (PX * DY - PY * DX)
      ≠ padding * padding * (DX * DX + DY * DY)) :
    ((Binary64.ofInt posX - (Binary64.ofInt ox
            + (⟨PX * DX + PY * DY, 0⟩ : Binary64) / ⟨DX * DX + DY * DY, 0⟩ * ⟨DX, 0⟩))
          * (Binary64.ofInt posX - (Binary64.ofInt ox
            + (⟨PX * DX + PY * DY, 0⟩ : Binary64) / ⟨DX * DX + DY * DY, 0⟩ * ⟨DX, 0⟩))
        + (Binary64.ofInt posY - (Binary64.ofInt oy
            + (⟨PX * DX + PY * DY, 0⟩ : Binary64) / ⟨DX * DX + DY * DY, 0⟩ * ⟨DY, 0⟩))
          * (Binary64.ofInt posY - (Binary64.ofInt oy
            + (⟨PX * DX + PY * DY, 0⟩ : Binary64) / ⟨DX * DX + DY * DY, 0⟩ * ⟨DY, 0⟩))).le
        ⟨padding * padding, 0⟩ = true
      ↔ (PX * DY - PY * DX) * (PX * DY - PY * DX)
          ≤ padding * padding * (DX * DX + DY * DY) := by
  obtain ⟨-, hrange, htq⟩ := segment_gate (PX * DX + PY * DY) (DX * DX + DY * DY) hden0 hden
  obtain ⟨hth0, hth1⟩ := hrange hin
  generalize ((⟨PX * DX + PY * DY, 0⟩ : Binary64) / ⟨DX * DX + DY * DY, 0⟩) = tf
    at htq hth0 hth1 ⊢
  have hdq : (0 : ℚ) < ((DX * DX + DY * DY : Int) : ℚ) := by exact_mod_cast hden0
  have ht0 : (0 : ℚ) ≤ ((PX * DX + PY * DY : Int) : ℚ) / ((DX * DX + DY * DY : Int) : ℚ) :=
    div_nonneg (by exact_mod_cast hin.1) (le_of_lt hdq)
  have ht1 : ((PX * DX + PY * DY : Int) : ℚ) / ((DX * DX + DY * DY : Int) : ℚ) ≤ 1 := by
    rw [div_le_one hdq]
    exact_mod_cast hin.2
  have hx := axis_float ox posX DX PX tf _ hoX hdX hpX hposX ht0 ht1 hth0 hth1 htq
  have hy := axis_float oy posY DY PY tf _ hoY hdY hpY hposY ht0 ht1 hth0 hth1 htq
  generalize (Binary64.ofInt posX - (Binary64.ofInt ox + tf * ⟨DX, 0⟩))
    * (Binary64.ofInt posX - (Binary64.ofInt ox + tf * ⟨DX, 0⟩)) = sxF at hx ⊢
  generalize (Binary64.ofInt posY - (Binary64.ofInt oy + tf * ⟨DY, 0⟩))
    * (Binary64.ofInt posY - (Binary64.ofInt oy + tf * ⟨DY, 0⟩)) = syF at hy ⊢
  have hS := sum_error sxF.toRat syF.toRat (sxF + syF).toRat _ _ hx.1 hx.2 hy.1 hy.2
    (Binary64.add_round_error sxF syF)
  have hlag := closest_point_distance (PX : ℚ) (PY : ℚ) (DX : ℚ) (DY : ℚ)
    (by
      have : ((DX * DX + DY * DY : Int) : ℚ) ≠ 0 := ne_of_gt hdq
      push_cast at this
      exact this)
  have hcast : ((PX * DX + PY * DY : Int) : ℚ) / ((DX * DX + DY * DY : Int) : ℚ)
      = ((PX : ℚ) * DX + PY * DY) / ((DX : ℚ) * DX + DY * DY) := by push_cast; rfl
  rw [hcast, hlag] at hS
  have hcast2 : ((PX : ℚ) * DY - PY * DX) * ((PX : ℚ) * DY - PY * DX)
        / ((DX : ℚ) * DX + DY * DY)
      = (((PX * DY - PY * DX) * (PX * DY - PY * DX) : Int) : ℚ)
        / ((DX * DX + DY * DY : Int) : ℚ) := by push_cast; rfl
  rw [hcast2] at hS
  rw [Binary64.le_iff, Binary64.int_toRat]
  exact distance_decision _ _ (padding * padding) _ hden0 hden hcross hS

/-- C20 (amended): for all integer positions with `|origin.X|, |origin.Y| ≤ 65536`,
offsets `target - origin` and `pos - origin` of at most 1024 on each axis, and every
padding with `|padding| ≤ 65536`, the float64 code `lineSegmentIntersectsPosition`
equals this reference: if `origin == target`, true iff `|pos - origin|² ≤ padding²`;
otherwise, with `d = target - origin` and `v = pos - origin`, true iff
`0 ≤ v·d ≤ |d|²` and `(v×d)² ≤ padding²·|d|²`; except possibly when
`origin ≠ target`, the projection lies in the segment (`0 ≤ v·d ≤ |d|²`) and the
point is exactly at distance `padding` from the line (`(v×d)² = padding²·|d|²`). -/
theorem C20_float_segment_test_is_reference_off_boundary (origin target pos : Position)
    (padding : Int)
    (hoX : |origin.X| ≤ 65536) (hoY : |origin.Y| ≤ 65536)
    (hdX : |target.X - origin.X| ≤ 1024) (hdY : |target.Y - origin.Y| ≤ 1024)
    (hpX : |pos.X - origin.X| ≤ 1024) (hpY : |pos.Y - origin.Y| ≤ 1024)
    (hpad : |padding| ≤ 65536)
    (hoff : origin ≠ target →
      0 ≤ (pos.X - origin.X) * (target.X - origin.X)
          + (pos.Y - origin.Y) * (target.Y - origin.Y) →
      (pos.X - origin.X) * (target.X - origin.X) + (pos.Y - origin.Y) * (target.Y - origin.Y)
        ≤ (target.X - origin.X) * (target.X - origin.X)
          + (target.Y - origin.Y) * (target.Y - origin.Y) →
      ((pos.X - origin.X) * (target.Y - origin.Y) - (pos.Y - origin.Y) * (target.X - origin.X))
        * ((pos.X - origin.X) * (target.Y - origin.Y)
          - (pos.Y - origin.Y) * (target.X - origin.X))
      ≠ padding * padding * ((target.X - origin.X) * (target.X - origin.X)
          + (target.Y - origin.Y) * (target.Y - origin.Y))) :
    lineSegmentIntersectsPosition origin target pos padding
      = segmentNearPointReference origin target pos padding := by
  have heq : origin = target ↔ (target.X - origin.X = 0 ∧ target.Y - origin.Y = 0) := by
    constructor
    · rintro rfl
      exact ⟨sub_self _, sub_self _⟩
    · rintro ⟨h1, h2⟩
      cases origin; cases target
      simp only [Position.mk.injEq]
      simp only at h1 h2
      omega
  have hposX : pos.X = origin.X + (pos.X - origin.X) := by ring
  have hposY : pos.Y = origin.Y + (pos.Y - origin.Y) := by ring
  unfold lineSegmentIntersectsPosition segmentNearPointReference
  simp only []
  generalize target.X - origin.X = DX at *
  generalize target.Y - origin.Y = DY at *
  generalize pos.X - origin.X = PX at *
  generalize pos.Y - origin.Y = PY at *
  have bDXDX := int_abs_mul_le DX DX _ _ hdX hdX
  have bDYDY := int_abs_mul_le DY DY _ _ hdY hdY
  have bPXDX := int_abs_mul_le PX DX _ _ hpX hdX
  have bPYDY := int_abs_mul_le PY DY _ _ hpY hdY
  have bPXPX := int_abs_mul_le PX PX _ _ hpX hpX
  have bPYPY := int_abs_mul_le PY PY _ _ hpY hpY
  have bpp := int_abs_mul_le padding padding _ _ hpad hpad
  have bden := int_abs_add_le _ _ _ _ bDXDX bDYDY
  have bdot := int_abs_add_le _ _ _ _ bPXDX bPYDY
  have bvv := int_abs_add_le _ _ _ _ bPXPX bPYPY
  rw [Binary64.ofInt_eq DX (natAbs_lt_of_abs_le _ _ hdX (by norm_num)),
    Binary64.ofInt_eq DY (natAbs_lt_of_abs_le _ _ hdY (by norm_num)),
    Binary64.ofInt_eq PX (natAbs_lt_of_abs_le _ _ hpX (by norm_num)),
    Binary64.ofInt_eq PY (natAbs_lt_of_abs_le _ _ hpY (by norm_num)),
    Binary64.ofInt_eq (padding * padding) (natAbs_lt_of_abs_le _ _ bpp (by norm_num)),
    Binary64.mul_int DX DX (natAbs_lt_of_abs_le _ _ bDXDX (by norm_num)),
    Binary64.mul_int DY DY (natAbs_lt_of_abs_le _ _ bDYDY (by norm_num)),
    Binary64.mul_int PX DX (natAbs_lt_of_abs_le _ _ bPXDX (by norm_num)),
    Binary64.mul_int PY DY (natAbs_lt_of_abs_le _ _ bPYDY (by norm_num)),
    Binary64.mul_int PX PX (natAbs_lt_of_abs_le _ _ bPXPX (by norm_num)),
    Binary64.mul_int PY PY (natAbs_lt_of_abs_le _ _ bPYPY (by norm_num)),
    Binary64.add_int _ _ (natAbs_lt_of_abs_le _ _ bden (by norm_num)),
    Binary64.add_int _ _ (natAbs_lt_of_abs_le _ _ bdot (by norm_num)),
    Binary64.add_int _ _ (natAbs_lt_of_abs_le _ _ bvv (by norm_num)),
    Binary64.isZero_int]
  have h0 : Binary64.ofInt 0 = ⟨0, 0⟩ := rfl
  have h1 : Binary64.ofInt 1 = ⟨1, 0⟩ := rfl
  rw [h0, h1]
  by_cases hden : DX * DX + DY * DY = 0
  · have hot : origin = target := heq.mpr (int_sq_sum_zero DX DY hden)
    rw [if_pos (by simpa using hden), if_pos hot, Bool.eq_iff_iff, Binary64.le_iff,
      Binary64.int_toRat, Binary64.int_toRat, decide_eq_true_eq]
    exact Int.cast_le
  · have hot : origin ≠ target := by
      intro h
      obtain ⟨hDX, hDY⟩ := heq.mp h
      rw [hDX, hDY] at hden
      exact hden rfl
    rw [if_neg (by simpa using hden), if_neg hot]
    have hdenpos := int_sq_sum_pos DX DY hden
    have hdenle : DX * DX + DY * DY ≤ 2097152 := (le_abs_self _).trans bden
    obtain ⟨hgate, -, -⟩ := segment_gate (PX * DX + PY * DY) (DX * DX + DY * DY) hdenpos hdenle
    by_cases hin : 0 ≤ PX * DX + PY * DY ∧ PX * DX + PY * DY ≤ DX * DX + DY * DY
    · have hng : ¬ _ := fun h => hgate.mp h hin
      rw [if_neg hng, Bool.eq_iff_iff,
        segment_tail origin.X origin.Y pos.X pos.Y DX DY PX PY padding hoX hoY hdX hdY hpX hpY
          hposX hposY hdenpos hdenle hin (hoff hot hin.1 hin.2),
        decide_eq_true_eq]
      exact ⟨fun h => ⟨hin.1, hin.2, h⟩, fun h => h.2.2⟩
    · rw [if_pos (hgate.mpr hin)]
      symm
      rw [decide_eq_false_iff_not]
      rintro ⟨ha, hb, -⟩
      exact hin ⟨ha, hb⟩

set_option maxRecDepth 100000 in
/-- Witness of C20 (amended): origin (0,0), target (10,0), padding 3 gives true for
pos (5,0) and false for pos (5,10), in the float64 code as in the reference. -/
theorem C20_float_segment_test_is_reference_off_boundary_witness :
    lineSegmentIntersectsPosition ⟨0, 0⟩ ⟨10, 0⟩ ⟨5, 0⟩ 3
        = segmentNearPointReference ⟨0, 0⟩ ⟨10, 0⟩ ⟨5, 0⟩ 3 ∧
      lineSegmentIntersectsPosition ⟨0, 0⟩ ⟨10, 0⟩ ⟨5, 10⟩ 3
        = segmentNearPointReference ⟨0, 0⟩ ⟨10, 0⟩ ⟨5, 10⟩ 3 ∧
      lineSegmentIntersectsPosition ⟨0, 0⟩ ⟨10, 0⟩ ⟨5, 0⟩ 3 = true ∧
      lineSegmentIntersectsPosition ⟨0, 0⟩ ⟨10, 0⟩ ⟨5, 10⟩ 3 = false :=
  ⟨C20_float_segment_test_is_reference_off_boundary ⟨0, 0⟩ ⟨10, 0⟩ ⟨5, 0⟩ 3
      (by decide) (by decide) (by decide) (by decide) (by decide) (by decide) (by decide)
      (fun _ _ _ => by decide),
    C20_float_segment_test_is_reference_off_boundary ⟨0, 0⟩ ⟨10, 0⟩ ⟨5, 10⟩ 3
      (by decide) (by decide) (by decide) (by decide) (by decide) (by decide) (by decide)
      (fun _ _ _ => by decide),
    by decide, by decide⟩

end Koolo
